import Mathlib

/-!
# two-talk: a verification development

A shallow embedding of the marker scanner, the shutdown coordinator, the two
message queues and the four worker loops of the `two-chat` program
(`common.c`, `keyboard_reader.c`, `screen_printer.c`, `message_sender.c`,
`message_listener.c`), together with theorems about them.

Conventions of the embedding:

* a C `char` is its byte value, a `Nat`; `'!'` is 33, `'\n'` is 10 and
  `'\0'` is 0;
* a `char` array is the list of its bytes, one list element per allocated
  byte; reading or writing an index that is not in the list is a fault;
* a pointer that may be `NULL` is an `Option`;
* a function that can fault (out-of-bounds access, failed `assert`) returns
  `Except Fault _`.
-/

namespace TwoTalk

/-! ## common.h -/

/-- Max size for a UDP packet (`#define MSG_MAX_LEN 65507`). -/
def MSG_MAX_LEN : Nat := 65507

/-- The contents of a `char` array: one byte value per allocated byte. -/
abbrev Buffer := List Nat

/-- The ways in which the embedded C code can go wrong. -/
inductive Fault where
  | outOfBounds (index : Nat)
  | assertFailed
  | nullPointer
  deriving DecidableEq, Repr

/-- The read `buf[i]` of a `char` array. -/
def readAt (buf : Buffer) (i : Nat) : Except Fault Nat :=
  match buf.get? i with
  | some c => Except.ok c
  | none => Except.error (Fault.outOfBounds i)

/-- The write `buf[i] = v` of a `char` array. -/
def writeAt (buf : Buffer) (i : Nat) (v : Nat) : Except Fault Buffer :=
  match buf.get? i with
  | some _ => Except.ok (buf.set i v)
  | none => Except.error (Fault.outOfBounds i)

/-- The C library's `strnlen(s, maxlen)`: the number of bytes before the first
`'\0'` among the first `maxlen` bytes of `s`. -/
def strnlen (s : Buffer) (maxlen : Nat) : Nat :=
  ((s.take maxlen).takeWhile (fun c => c != 0)).length

/-- The `size_t` value `i - 1` (unsigned, 64 bits wide: `0 - 1` wraps). -/
def sizeSubOne (i : Nat) : Nat := (i + (2 ^ 64 - 1)) % 2 ^ 64

/-! ## common.c: `checkAndDiscardRestIfMessageHasTerminationLine` -/

/-- The C condition `messageBuffer[i] == '!' && messageBuffer[i + 1] == '\n'`
(`&&` does not evaluate its right operand when the left one is false). -/
def isBangNewlineAt (buf : Buffer) (i : Nat) : Except Fault Bool :=
  match readAt buf i with
  | Except.error f => Except.error f
  | Except.ok c =>
    if c = 33 then
      match readAt buf (i + 1) with
      | Except.error f => Except.error f
      | Except.ok d => Except.ok (d == 10)
    else Except.ok false

/-- The C condition `messageBuffer[i] == '\0' || messageBuffer[i + 1] == '\0'`
(`||` does not evaluate its right operand when the left one is true). -/
def isEndOfStringAt (buf : Buffer) (i : Nat) : Except Fault Bool :=
  match readAt buf i with
  | Except.error f => Except.error f
  | Except.ok c =>
    if c = 0 then Except.ok true
    else
      match readAt buf (i + 1) with
      | Except.error f => Except.error f
      | Except.ok d => Except.ok (d == 0)

/-- The state in which the `for` loop of the scanner is left. -/
structure ScanExit where
  isTerminationLinePresent : Bool
  i : Nat
  messageBuffer : Buffer
  deriving DecidableEq, Repr

/-- The end of one iteration of the `for` loop, reached when no standalone
marker was found at `i`: `break` at the end of the string, otherwise `i++` and
the next iteration (`next`). -/
def scanLoopTail (buf : Buffer) (i : Nat) (next : Except Fault ScanExit) :
    Except Fault ScanExit :=
  match isEndOfStringAt buf i with
  | Except.error f => Except.error f
  | Except.ok true => Except.ok ⟨false, i, buf⟩
  | Except.ok false => next

/-- The loop `for (i = 0; i < MSG_MAX_LEN - 1; i++) { ... }` of the scanner.
The first argument is the number of iterations the loop condition still
allows, `MSG_MAX_LEN - 1 - i`; when it is `0` the condition
`i < MSG_MAX_LEN - 1` is false and the loop is left with that `i`. -/
def scanLoop : Nat → Nat → Buffer → Except Fault ScanExit
  | 0, i, buf => Except.ok ⟨false, i, buf⟩
  | k + 1, i, buf =>
    match isBangNewlineAt buf i with
    | Except.error f => Except.error f
    | Except.ok false => scanLoopTail buf i (scanLoop k (i + 1) buf)
    | Except.ok true =>
      -- bool isExclamationOnItsOwnLine = (messageBuffer[i - 1] == '\n');
      match readAt buf (sizeSubOne i) with
      | Except.error f => Except.error f
      | Except.ok p =>
        if p = 10 then
          if i + 2 < MSG_MAX_LEN then
            match writeAt buf (i + 2) 0 with
            | Except.error f => Except.error f
            | Except.ok buf' => Except.ok ⟨true, i, buf'⟩
          else Except.ok ⟨true, i, buf⟩
        else scanLoopTail buf i (scanLoop k (i + 1) buf)

/-- What a call of the scanner leaves behind: the returned `bool`, the
contents of `messageBuffer` (`none` for a `NULL` pointer) and the value of
`*pSizeOfMessage` (`none` for a `NULL` pointer). -/
structure ScanResult where
  returnValue : Bool
  messageBuffer : Option Buffer
  sizeOfMessage : Option Nat
  deriving DecidableEq, Repr

/-- The statement `if (pSizeOfMessage != NULL) { *pSizeOfMessage = v; }`. -/
def storeSize (pSizeOfMessage : Option Nat) (v : Nat) : Option Nat :=
  match pSizeOfMessage with
  | none => none
  | some _ => some v

/-- The function `checkAndDiscardRestIfMessageHasTerminationLine` of
`common.c`. `messageBuffer` is `none` for a `NULL` pointer and otherwise the
bytes of the array it points to; `pSizeOfMessage` is `none` for a `NULL`
pointer and otherwise the value `*pSizeOfMessage` holds before the call. -/
def checkAndDiscardRestIfMessageHasTerminationLine (messageBuffer : Option Buffer)
    (pSizeOfMessage : Option Nat) : Except Fault ScanResult :=
  match messageBuffer with
  | none => Except.ok ⟨false, none, pSizeOfMessage⟩
  | some buf =>
    match readAt buf 0 with
    | Except.error f => Except.error f
    | Except.ok c0 =>
      if c0 = 0 then Except.ok ⟨false, some buf, storeSize pSizeOfMessage 0⟩
      else
        match isBangNewlineAt buf 0 with
        | Except.error f => Except.error f
        | Except.ok true =>
          match writeAt buf 3 0 with
          | Except.error f => Except.error f
          | Except.ok buf' => Except.ok ⟨true, some buf', storeSize pSizeOfMessage 3⟩
        | Except.ok false =>
          match scanLoop (MSG_MAX_LEN - 1) 0 buf with
          | Except.error f => Except.error f
          | Except.ok e =>
            match pSizeOfMessage with
            | none => Except.ok ⟨e.isTerminationLinePresent, some e.messageBuffer, none⟩
            | some _ =>
              let size := if e.isTerminationLinePresent then e.i + 2 else e.i + 1
              -- assert(strnlen(messageBuffer, MSG_MAX_LEN) == *pSizeOfMessage);
              if strnlen e.messageBuffer MSG_MAX_LEN = size then
                Except.ok ⟨e.isTerminationLinePresent, some e.messageBuffer, some size⟩
              else Except.error Fault.assertFailed

/-! ### The words of the specification about the marker -/

/-- The text held by a buffer: the bytes before the first `'\0'`, or the whole
buffer when there is none. -/
def bufferText (buf : Buffer) : List Nat := buf.takeWhile (fun c => c != 0)

/-- The two characters `"!\n"` stand at index `i` of `t`, and they stand at
the very start of `t` or immediately after a `'\n'`. -/
def standaloneMarkerAt (t : List Nat) (i : Nat) : Bool :=
  t.get? i == some 33 && t.get? (i + 1) == some 10 && (i == 0 || t.get? (i - 1) == some 10)

/-- The text `t` contains a standalone termination line. -/
def hasStandaloneMarker (t : List Nat) : Bool :=
  (List.range t.length).any (standaloneMarkerAt t)

/-- A buffer of `MSG_MAX_LEN` bytes that was zeroed and then filled from its
start with `chunk`. -/
def bufferOfChunk (chunk : List Nat) : Buffer :=
  chunk ++ List.replicate (MSG_MAX_LEN - chunk.length) 0

/-! ## Messages -/

/-- The `struct Message_s` of `common.h`: `pText` is `none` for a `NULL`
pointer and otherwise the bytes of the block it points to. -/
structure Message where
  pText : Option Buffer
  isShutdownMessage : Bool
  deriving DecidableEq, Repr

/-- The C library's `strncpy(dest, src, n)`: the bytes of `src` before its
first `'\0'`, at most `n` of them, are written to the start of `dest`,
followed by `'\0'` bytes up to `n` bytes in all. Reading `src` past its end
(no `'\0'` among fewer than `n` bytes) and writing `dest` past its end are
faults. -/
def strncpy (dest src : Buffer) (n : Nat) : Except Fault Buffer :=
  let text := (src.take n).takeWhile (fun c => c != 0)
  if text.length < n && (src.get? text.length).isNone then
    Except.error (Fault.outOfBounds text.length)
  else if 0 < n && (dest.get? (n - 1)).isNone then
    Except.error (Fault.outOfBounds (n - 1))
  else Except.ok (text ++ List.replicate (n - text.length) 0 ++ dest.drop n)

/-- The block `pMessageText` that both producers build from their buffer:
`malloc(n + 1)`, `memset(pMessageText, 0, n + 1)` and
`strncpy(pMessageText, buffer, n)`. `malloc` is taken to succeed (the code
does not check its result). -/
def copyMessageText (buffer : Buffer) (n : Nat) : Except Fault Buffer :=
  strncpy (List.replicate (n + 1) 0) buffer n

/-- The payload of a `Message`: the C string `pText` points to. -/
def Message.text (m : Message) : Option (List Nat) := m.pText.map bufferText

/-- A non-`NULL` `Message*`: the address `malloc` returned for the object and
the object stored there. A `Message` is written once, when it is built, and
never modified afterwards. -/
structure MessagePtr where
  addr : Nat
  target : Message
  deriving DecidableEq, Repr

/-! ## What the program does to the outside world -/

/-- The four workers of the program. -/
inductive Worker where
  | screenPrinter
  | keyboardReader
  | listener
  | sender
  deriving DecidableEq, Repr

/-- The two barriers of `common.c` the workers and the helper wait on. -/
inductive Barrier where
  | allThreadsReady
  | allThreadsGoingToShutdown
  deriving DecidableEq, Repr

/-- The observable actions of the embedded code, in program order. -/
inductive Event where
  /-- A diagnostic written with `fputs` or `printf`. -/
  | print (text : String)
  /-- The call `fputs(pMessage->pText, stdout)` of the screen printer. -/
  | display (text : List Nat)
  /-- The call `fflush(stdout)`. -/
  | flush
  /-- The call `free(pMessage->pText)` for the `Message` at `addr`. -/
  | freeText (addr : Nat)
  /-- The call `free(pMessage)` for the `Message` at `addr`. -/
  | freeMessage (addr : Nat)
  /-- The call `pthread_setcancelstate`, with `PTHREAD_CANCEL_ENABLE` or not. -/
  | setcancelstate (enable : Bool)
  /-- The call `pthread_cond_signal` on the condition variable of a queue. -/
  | condSignal (queueOf : Worker)
  /-- The call `pthread_mutex_unlock` on the mutex of a queue. -/
  | mutexUnlock (queueOf : Worker)
  /-- The call `sendto` with this payload, and the status it returned. -/
  | sendto (payload : List Nat) (status : Int)
  /-- A call of `requestShutdownOfAllThreadsForProgram`. -/
  | requestShutdown
  /-- The call `pthread_create` for the shutdown helper, and its status. -/
  | createShutdownHelper (status : Int)
  /-- The call `pthread_barrier_wait`. -/
  | barrierWait (barrier : Barrier)
  /-- The call `pthread_cancel` for a worker. -/
  | cancel (worker : Worker)
  /-- The call `pthread_join` for a worker. -/
  | join (worker : Worker)
  /-- The call `close` on a socket descriptor. -/
  | close (fd : Int)
  /-- The call `socket(PF_INET, SOCK_DGRAM, 0)`, and what it returned. -/
  | socket (result : Int)
  /-- The call `bind` of a descriptor to a port, and the status it returned. -/
  | bind (fd : Int) (port : Nat) (status : Int)
  /-- The call `pthread_barrier_init` for a number of threads. -/
  | barrierInit (barrier : Barrier) (count : Nat)
  /-- The call `pthread_barrier_destroy`. -/
  | barrierDestroy (barrier : Barrier)
  /-- The call `pthread_create` for the thread of a worker, and its status. -/
  | createWorker (worker : Worker) (status : Int)
  /-- The call `pthread_join` for the shutdown helper. -/
  | joinShutdownHelper
  deriving DecidableEq, Repr

/-! ## list.h -/

/-- The value `LIST_FAIL` of `list.h`. -/
def LIST_FAIL : Int := -1

/-- The value `LIST_MAX_NUM_NODES` of `list.h`. -/
def LIST_MAX_NUM_NODES : Nat := 1000

/-- Modelled from the spec: `list.c` is not among the sources, only its
header `list.h`. A list holds its items from head to tail and a current
pointer (`none` when it is before the start, beyond the end, or the list is
empty); all lists draw their nodes from one pool of `LIST_MAX_NUM_NODES`
nodes, whose number of free nodes is kept beside the lists. -/
structure CList where
  items : List MessagePtr
  current : Option Nat
  deriving DecidableEq, Repr

/-- Modelled from the spec: `List_count` of `list.h`, the number of items. -/
def List_count (pList : CList) : Nat := pList.items.length

/-- Modelled from the spec: `List_first` of `list.h` makes the first item the
current one and returns it (`NULL` for an empty list). -/
def List_first (pList : CList) : Option MessagePtr × CList :=
  match pList.items with
  | [] => (none, { pList with current := none })
  | p :: _ => (some p, { pList with current := some 0 })

/-- Modelled from the spec: `List_append` of `list.h` adds the item at the end
of the list and makes it the current one; it fails with `LIST_FAIL`, leaving
the list as it was, when the pool has no free node (the queue is at
capacity). The result is the status, the free nodes left, and the list. -/
def List_append (freeNodes : Nat) (pList : CList) (pItem : MessagePtr) : Int × Nat × CList :=
  match freeNodes with
  | 0 => (LIST_FAIL, 0, pList)
  | n + 1 => (0, n, { items := pList.items ++ [pItem], current := some pList.items.length })

/-- Modelled from the spec: `List_remove` of `list.h` takes the current item
out of the list and returns it, gives its node back to the pool and makes the
next item the current one; with no current item it returns `NULL`. -/
def List_remove (freeNodes : Nat) (pList : CList) : Option MessagePtr × Nat × CList :=
  match pList.current with
  | none => (none, freeNodes, pList)
  | some i =>
    match pList.items.get? i with
    | none => (none, freeNodes, pList)
    | some p =>
      (some p, freeNodes + 1,
        { items := pList.items.eraseIdx i,
          current := if i + 1 < pList.items.length then some i else none })

/-! ## The globals of the program -/

/-- The globals of the program that the embedded functions read and write. -/
structure World where
  /-- The flag `s_isShutdownRequested` of `common.c`. -/
  isShutdownRequested : Bool
  /-- The descriptor `s_socketDescriptor` of `common.c`. -/
  socketDescriptor : Int
  /-- The free nodes of the pool of `list.c` (modelled, see `CList`). -/
  freeNodes : Nat
  /-- The queue `s_outMessageQueue` of `keyboard_reader.c` (`none`: `NULL`). -/
  outMessageQueue : Option CList
  /-- The queue `s_pInMessageQueue` of `screen_printer.c` (`none`: `NULL`). -/
  pInMessageQueue : Option CList
  /-- The address the next `malloc` of a `Message` returns (addresses are
  handed out in increasing order and never reused). -/
  nextAddr : Nat
  /-- The mutex `s_syncSocketMutex` of `common.c` is held. -/
  socketMutexLocked : Bool
  /-- The flag `s_barrierForAllThreadsReadyDestroyed` of `common.c`. -/
  barrierForAllThreadsReadyDestroyed : Bool
  deriving DecidableEq, Repr

/-- The globals as the C initialisers and the two `List_create` calls of the
`_init` functions leave them. -/
def World.initial : World :=
  { isShutdownRequested := false
    socketDescriptor := -1
    freeNodes := LIST_MAX_NUM_NODES
    outMessageQueue := some ⟨[], none⟩
    pInMessageQueue := some ⟨[], none⟩
    nextAddr := 0
    socketMutexLocked := false
    barrierForAllThreadsReadyDestroyed := false }

/-! ## common.c: disposal and shutdown -/

/-- The function `freeMessageFn` of `common.c`. -/
def freeMessageFn (pItem : Option MessagePtr) : List Event :=
  match pItem with
  | none => []
  | some pMessage =>
    (match pMessage.target.pText with
      | none => []
      | some _ => [Event.freeText pMessage.addr]) ++ [Event.freeMessage pMessage.addr]

/-- The function `requestShutdownOfAllThreadsForProgram` of `common.c`.
`createStatus` is the status `pthread_create` returns if it is called. The
test and the assignment of the flag are done under the mutex and are one
step. -/
def requestShutdownOfAllThreadsForProgram (createStatus : Int) (w : World) :
    List Event × World :=
  let oldShutdownRequested := w.isShutdownRequested
  let w1 := { w with isShutdownRequested := true }
  if oldShutdownRequested then
    -- Don't make another shutdown helper thread if it already exists.
    ([], w1)
  else if createStatus ≠ 0 then
    ([Event.createShutdownHelper createStatus,
      Event.print "Fatal error: Failed to initiate shutdown thread\n"], w1)
  else ([Event.createShutdownHelper createStatus], w1)

/-- A sequence of calls of `requestShutdownOfAllThreadsForProgram`, one for
each status in the list (the status `pthread_create` would return in that
call): the events of all the calls, in order, and the globals at the end. -/
def requestShutdownCalls : List Int → World → List Event × World
  | [], w => ([], w)
  | createStatus :: rest, w =>
    let r1 := requestShutdownOfAllThreadsForProgram createStatus w
    let r2 := requestShutdownCalls rest r1.2
    (r1.1 ++ r2.1, r2.2)

/-- The shutdown helper threads started by the events: the calls of
`pthread_create` for the helper that returned 0. -/
def helpersStarted (events : List Event) : Nat :=
  events.count (Event.createShutdownHelper 0)

/-- The calls of `pthread_create` for the helper among the events. -/
def helperCreations (events : List Event) : Nat :=
  (events.filter (fun e => match e with
    | Event.createShutdownHelper _ => true
    | _ => false)).length

/-- The type `ShutdownStatus` of `common.h`. -/
inductive ShutdownStatus where
  | SUCCESSFUL_JOIN
  | ALREADY_CANCELLED
  | CANCEL_ERROR
  | JOIN_ERROR
  deriving DecidableEq, Repr

/-- The value `ESRCH` of `errno.h`. -/
def ESRCH : Int := 3

/-- The function `shutdownThreadWithPid` of `common.c`, for the thread of
`worker`; `cancelStatus` and `joinStatus` are what `pthread_cancel` and
`pthread_join` return. -/
def shutdownThreadWithPid (worker : Worker) (cancelStatus joinStatus : Int) :
    ShutdownStatus × List Event :=
  let returnStatus :=
    if cancelStatus ≠ 0 then
      if cancelStatus ≠ ESRCH then ShutdownStatus.ALREADY_CANCELLED
      else ShutdownStatus.SUCCESSFUL_JOIN
    else ShutdownStatus.SUCCESSFUL_JOIN
  if joinStatus ≠ 0 then
    (ShutdownStatus.JOIN_ERROR, [Event.cancel worker, Event.join worker])
  else (returnStatus, [Event.cancel worker, Event.join worker])

/-- The function `printShutdownStatusErrors` of `common.c`. -/
def printShutdownStatusErrors (threadName : String) (shutdownStatus : ShutdownStatus) :
    List Event :=
  match shutdownStatus with
  | ShutdownStatus.CANCEL_ERROR => [Event.print (" " ++ threadName ++ " has failed to cancel\n")]
  | ShutdownStatus.JOIN_ERROR => [Event.print (" " ++ threadName ++ " has failed to join\n")]
  | ShutdownStatus.SUCCESSFUL_JOIN => []
  | ShutdownStatus.ALREADY_CANCELLED => []

/-- The functions `ScreenPrinter_shutdown` and `KeyboardReader_shutdown`:
signal the condition variable of the queue, unlock its mutex, then
`shutdownThreadWithPid`. -/
def queueWorkerShutdown (worker : Worker) (cancelStatus joinStatus : Int) :
    ShutdownStatus × List Event :=
  let r := shutdownThreadWithPid worker cancelStatus joinStatus
  (r.1, [Event.condSignal worker, Event.mutexUnlock worker] ++ r.2)

/-- What the library calls of the teardown return: the statuses of
`pthread_cancel` and `pthread_join` for each worker, and of `close`. -/
structure TeardownEnv where
  cancelStatus : Worker → Int
  joinStatus : Worker → Int
  closeStatus : Int

/-- The function `shutdownOfAllThreadsForProgram` of `common.c`, the body of
the shutdown helper thread. It writes no global. -/
def shutdownOfAllThreadsForProgram (env : TeardownEnv) (w : World) : List Event :=
  let sp := queueWorkerShutdown Worker.screenPrinter
    (env.cancelStatus Worker.screenPrinter) (env.joinStatus Worker.screenPrinter)
  let kr := queueWorkerShutdown Worker.keyboardReader
    (env.cancelStatus Worker.keyboardReader) (env.joinStatus Worker.keyboardReader)
  let li := shutdownThreadWithPid Worker.listener
    (env.cancelStatus Worker.listener) (env.joinStatus Worker.listener)
  let se := shutdownThreadWithPid Worker.sender
    (env.cancelStatus Worker.sender) (env.joinStatus Worker.sender)
  [Event.barrierWait Barrier.allThreadsGoingToShutdown]
    ++ sp.2 ++ printShutdownStatusErrors "Screen printer" sp.1
    ++ kr.2 ++ printShutdownStatusErrors "Keyboard reader" kr.1
    ++ li.2 ++ printShutdownStatusErrors "Listener" li.1
    ++ se.2 ++ printShutdownStatusErrors "Sender" se.1
    ++ (if w.socketDescriptor ≠ -1 then
          [Event.close w.socketDescriptor]
            ++ (if env.closeStatus = -1 then [Event.print "Failed to close socket\n"] else [])
        else [])

/-- The steps of the teardown among the events: the rendezvous, the cancel
and join of a worker, the close of the socket. -/
def Event.isTeardownStep : Event → Bool
  | Event.barrierWait _ => true
  | Event.cancel _ => true
  | Event.join _ => true
  | Event.close _ => true
  | _ => false

/-- The function `requestShutdownOfAllThreadsForProgram` as a worker calls
it: the call is recorded among the events of the worker, followed by what the
function does. -/
def callRequestShutdown (createStatus : Int) (w : World) : List Event × World :=
  let r := requestShutdownOfAllThreadsForProgram createStatus w
  (Event.requestShutdown :: r.1, r.2)

/-! ## common.c: the shared socket and the barriers -/

/-- What the library calls of `getSocketFdOrCreateAndBindIfDoesntExist`
return if they are made: `socket` and `bind`. -/
structure SocketEnv where
  socketResult : Int
  bindStatus : Int
  deriving DecidableEq, Repr

/-- How a call of `getSocketFdOrCreateAndBindIfDoesntExist` ends. -/
inductive SocketCall where
  /-- The mutex of the socket is held and is never released: the caller is
  suspended in `pthread_mutex_lock`. -/
  | blocked
  /-- The call returned this value. -/
  | returned (fd : Int)
  deriving DecidableEq, Repr

/-- The function `getSocketFdOrCreateAndBindIfDoesntExist` of `common.c`. The
mutex `s_syncSocketMutex` is free at the start of every call but one that
follows a call which returned without unlocking it. -/
def getSocketFdOrCreateAndBindIfDoesntExist (ourPort : Nat) (env : SocketEnv) (w : World) :
    SocketCall × List Event × World :=
  if w.socketMutexLocked then (SocketCall.blocked, [], w)
  else if w.socketDescriptor ≠ -1 then
    -- pthread_mutex_unlock(&s_syncSocketMutex); return s_socketDescriptor;
    (SocketCall.returned w.socketDescriptor, [], w)
  else
    -- s_socketDescriptor = socket(PF_INET, SOCK_DGRAM, 0);
    let w1 := { w with socketDescriptor := env.socketResult }
    if env.socketResult = -1 then
      (SocketCall.returned (-1),
        [Event.socket env.socketResult, Event.print "Failed to create socket\n"], w1)
    else if env.bindStatus = -1 then
      -- close(s_socketDescriptor); return -1;
      (SocketCall.returned (-1),
        [Event.socket env.socketResult, Event.bind env.socketResult ourPort env.bindStatus,
          Event.print "Failed to bind port\n", Event.close env.socketResult],
        { w1 with socketMutexLocked := true })
    else
      (SocketCall.returned env.socketResult,
        [Event.socket env.socketResult, Event.bind env.socketResult ourPort env.bindStatus], w1)

/-- A sequence of calls of `getSocketFdOrCreateAndBindIfDoesntExist`, one for
each entry of the list: how each call ended, the events of all the calls, and
the globals at the end. -/
def getSocketCalls (ourPort : Nat) : List SocketEnv → World → List SocketCall × List Event × World
  | [], w => ([], [], w)
  | env :: rest, w =>
    let r1 := getSocketFdOrCreateAndBindIfDoesntExist ourPort env w
    let r2 := getSocketCalls ourPort rest r1.2.2
    (r1.1 :: r2.1, r1.2.1 ++ r2.2.1, r2.2.2)

/-- The sockets that the events create: the calls of `socket` that returned
a descriptor. -/
def socketsCreated (events : List Event) : Nat :=
  (events.filter (fun e => match e with
    | Event.socket result => decide (result ≠ -1)
    | _ => false)).length

/-- The calls of `socket` and of `bind` among the events. -/
def socketOrBindCalls (events : List Event) : Nat :=
  (events.filter (fun e => match e with
    | Event.socket _ => true
    | Event.bind _ _ _ => true
    | _ => false)).length

/-- The function `initBarriers` of `common.c`. -/
def initBarriers : List Event :=
  [Event.barrierInit Barrier.allThreadsReady 4,
    Event.barrierInit Barrier.allThreadsGoingToShutdown 2]

/-- The function `waitForAllThreadsReadyBarrier` of `common.c`: the wait on
the barrier, then its destruction by the first thread that gets there. -/
def waitForAllThreadsReadyBarrier (w : World) : List Event × World :=
  (Event.barrierWait Barrier.allThreadsReady ::
      (if w.barrierForAllThreadsReadyDestroyed then []
        else [Event.barrierDestroy Barrier.allThreadsReady]),
    { w with barrierForAllThreadsReadyDestroyed := true })

/-! ## The two queues -/

/-- The C condition `pMessage == NULL || pMessage->pText == NULL`. -/
def isNullOrWithoutText (pMessage : Option MessagePtr) : Bool :=
  match pMessage with
  | none => true
  | some p => p.target.pText.isNone

/-- What a blocking dequeue does to its caller. -/
inductive Dequeued where
  /-- The queue is empty: the caller is suspended in `pthread_cond_wait`. -/
  | blocked
  /-- The call returned this `Message*`. -/
  | returned (pMessage : Option MessagePtr)
  deriving DecidableEq, Repr

/-- The body that `KeyboardReader_getMessageFromQueue` and the screen
printer's `getMessageFromQueue` run on their queue under its mutex: wait
while `List_count` is 0, then `List_first`, disable cancellation,
`List_remove`, and enable cancellation again for a `NULL` message. The result
is what the caller gets, the events, the free nodes and the queue. -/
def dequeueMessage (freeNodes : Nat) (pList : CList) :
    Dequeued × List Event × Nat × CList :=
  if List_count pList = 0 then (Dequeued.blocked, [], freeNodes, pList)
  else
    let first := List_first pList
    let removed := List_remove freeNodes first.2
    let pMessage := removed.1
    (Dequeued.returned pMessage,
      Event.setcancelstate false ::
        (if isNullOrWithoutText pMessage then [Event.setcancelstate true] else []),
      removed.2.1, removed.2.2)

/-- The function `KeyboardReader_getMessageFromQueue` of `keyboard_reader.c`. -/
def KeyboardReader_getMessageFromQueue (w : World) : Dequeued × List Event × World :=
  match w.outMessageQueue with
  | none => (Dequeued.returned none, [], w)
  | some pList =>
    let r := dequeueMessage w.freeNodes pList
    (r.1, r.2.1, { w with freeNodes := r.2.2.1, outMessageQueue := some r.2.2.2 })

/-- The function `getMessageFromQueue` of `screen_printer.c`. -/
def getMessageFromQueue (w : World) : Dequeued × List Event × World :=
  match w.pInMessageQueue with
  | none => (Dequeued.returned none, [], w)
  | some pList =>
    let r := dequeueMessage w.freeNodes pList
    (r.1, r.2.1, { w with freeNodes := r.2.2.1, pInMessageQueue := some r.2.2.2 })

/-- The function `createMessageFromBufferAndPutOnQueue` of
`keyboard_reader.c`: the returned `bool`, the events and the globals. The
`Message` is built at the next free address. -/
def createMessageFromBufferAndPutOnQueue (messageBuffer : Buffer) (sizeOfMessage : Nat)
    (isShutdownMessage : Bool) (w : World) : Except Fault (Bool × List Event × World) :=
  match w.outMessageQueue with
  | none => Except.ok (false, [], w)
  | some pList =>
    match copyMessageText messageBuffer sizeOfMessage with
    | Except.error f => Except.error f
    | Except.ok pMessageText =>
      let pMessage : MessagePtr := ⟨w.nextAddr, ⟨some pMessageText, isShutdownMessage⟩⟩
      let appended := List_append w.freeNodes pList pMessage
      if appended.1 = LIST_FAIL then
        Except.ok (false,
          [Event.setcancelstate false,
            Event.print "**The sending message queue is too large!**\n",
            Event.print "**Your most recent message will be dropped, please try resending**\n"]
            ++ freeMessageFn (some pMessage) ++ [Event.setcancelstate true],
          { w with nextAddr := w.nextAddr + 1, freeNodes := appended.2.1,
                   outMessageQueue := some appended.2.2 })
      else
        Except.ok (true,
          [Event.setcancelstate false, Event.condSignal Worker.keyboardReader],
          { w with nextAddr := w.nextAddr + 1, freeNodes := appended.2.1,
                   outMessageQueue := some appended.2.2 })

/-- The function `ScreenPrinter_putMessageOnQueue` of `screen_printer.c`, for
a `pMessage` that is not `NULL` (its one caller passes the `Message` it has
just built). What `List_append` does for a `NULL` list is not known (`list.c`
is missing) and is a fault here. -/
def ScreenPrinter_putMessageOnQueue (pMessage : MessagePtr) (w : World) :
    Except Fault (Bool × List Event × World) :=
  match w.pInMessageQueue with
  | none => Except.error Fault.nullPointer
  | some pList =>
    let appended := List_append w.freeNodes pList pMessage
    if appended.1 = LIST_FAIL then
      Except.ok (false,
        [Event.print "**The receiving message queue is too large!**\n",
          Event.print
            "**The most recent message will be dropped, please tell the other to resend**\n",
          Event.setcancelstate true] ++ freeMessageFn (some pMessage),
        { w with freeNodes := appended.2.1, pInMessageQueue := some appended.2.2 })
    else
      Except.ok (true, [Event.condSignal Worker.screenPrinter],
        { w with freeNodes := appended.2.1, pInMessageQueue := some appended.2.2 })

/-! ## The loops of the four workers -/

/-- How one iteration of a worker's `while (1)` loop ends. -/
inductive Flow where
  /-- The end of the loop body or `continue`: the next iteration follows. -/
  | next
  /-- The statement `break`: the worker's function returns. -/
  | stop
  /-- The worker is suspended in a blocking call (a dequeue on an empty queue,
  the lock of a mutex that is held). -/
  | blocked
  deriving DecidableEq, Repr

/-- One iteration of the loop of `KeyboardReader_run` (`keyboard_reader.c`).
`chunk` is what `read` puts into the zeroed buffer (nothing at the end of
input), at most `MSG_MAX_LEN` bytes of it. -/
def KeyboardReader_iteration (chunk : List Nat) (createStatus : Int) (w : World) :
    Except Fault (Flow × List Event × World) :=
  let messageBuffer := bufferOfChunk (chunk.take MSG_MAX_LEN)
  match readAt messageBuffer 0 with
  | Except.error f => Except.error f
  | Except.ok c0 =>
    if c0 = 0 then
      let r := callRequestShutdown createStatus w
      Except.ok (Flow.stop, Event.setcancelstate true :: r.1, r.2)
    else
      -- size_t sizeOfMessage = 0;
      match checkAndDiscardRestIfMessageHasTerminationLine (some messageBuffer) (some 0) with
      | Except.error f => Except.error f
      | Except.ok scan =>
        let isCancellationMessage := scan.returnValue
        match createMessageFromBufferAndPutOnQueue (scan.messageBuffer.getD messageBuffer)
            (scan.sizeOfMessage.getD 0) isCancellationMessage w with
        | Except.error f => Except.error f
        | Except.ok (isEnqueueSuccessful, events, w1) =>
          if isCancellationMessage then
            if !isEnqueueSuccessful then
              let r := callRequestShutdown createStatus w1
              Except.ok (Flow.stop, events ++ [Event.setcancelstate true] ++ r.1, r.2)
            else Except.ok (Flow.stop, events ++ [Event.setcancelstate true], w1)
          else Except.ok (Flow.next, events ++ [Event.setcancelstate true], w1)

/-- One iteration of the loop of `Listener_run` (`message_listener.c`).
`received` is `none` when `recvfrom` returns -1 and otherwise the datagram,
of which `recvfrom` puts at most `MSG_MAX_LEN` bytes into the zeroed buffer. -/
def Listener_iteration (received : Option (List Nat)) (createStatus : Int) (w : World) :
    Except Fault (Flow × List Event × World) :=
  match received with
  | none =>
    let r := callRequestShutdown createStatus w
    Except.ok (Flow.stop,
      [Event.setcancelstate true, Event.print "**Error receiving message**\n"] ++ r.1, r.2)
  | some datagram =>
    let bytesRx := (datagram.take MSG_MAX_LEN).length
    let messageRxBuffer := bufferOfChunk (datagram.take MSG_MAX_LEN)
    match checkAndDiscardRestIfMessageHasTerminationLine (some messageRxBuffer) none with
    | Except.error f => Except.error f
    | Except.ok scan =>
      let shouldExitProgram := scan.returnValue
      let terminateIdx := if bytesRx < MSG_MAX_LEN then bytesRx else MSG_MAX_LEN - 1
      match writeAt (scan.messageBuffer.getD messageRxBuffer) terminateIdx 0 with
      | Except.error f => Except.error f
      | Except.ok terminated =>
        match copyMessageText terminated bytesRx with
        | Except.error f => Except.error f
        | Except.ok pMessageText =>
          let pMessage : MessagePtr := ⟨w.nextAddr, ⟨some pMessageText, shouldExitProgram⟩⟩
          match ScreenPrinter_putMessageOnQueue pMessage { w with nextAddr := w.nextAddr + 1 } with
          | Except.error f => Except.error f
          | Except.ok (isEnqueueSuccessful, events, w1) =>
            let before := [Event.setcancelstate true, Event.setcancelstate false] ++ events
              ++ [Event.setcancelstate true]
            if shouldExitProgram then
              if !isEnqueueSuccessful then
                let r := callRequestShutdown createStatus w1
                Except.ok (Flow.stop, before ++ r.1, r.2)
              else Except.ok (Flow.stop, before, w1)
            else Except.ok (Flow.next, before, w1)

/-- The C string a `char*` points to, as `fputs` reads it: the bytes before
the first `'\0'` of the block; a block without `'\0'` is read past its end. -/
def cString (block : Buffer) : Except Fault (List Nat) :=
  if block.contains 0 then Except.ok (bufferText block)
  else Except.error (Fault.outOfBounds block.length)

/-- One iteration of the loop of `Sender_run` (`message_sender.c`).
`sendStatus` is what `sendto` returns if it is called. -/
def Sender_iteration (sendStatus createStatus : Int) (w : World) :
    Except Fault (Flow × List Event × World) :=
  match KeyboardReader_getMessageFromQueue w with
  | (Dequeued.blocked, events, w1) => Except.ok (Flow.blocked, events, w1)
  | (Dequeued.returned pOutputMessage, events, w1) =>
    let onNull : Except Fault (Flow × List Event × World) :=
      let r := callRequestShutdown createStatus w1
      Except.ok (Flow.stop, events ++ [Event.setcancelstate true] ++ r.1, r.2)
    match pOutputMessage with
    | none => onNull
    | some p =>
      match p.target.pText with
      | none => onNull
      | some pText =>
        match strncpy (List.replicate MSG_MAX_LEN 0) pText MSG_MAX_LEN with
        | Except.error f => Except.error f
        | Except.ok messageTxBuffer =>
          let shouldExitProgram := p.target.isShutdownMessage
          let sizeOfMessage := strnlen messageTxBuffer MSG_MAX_LEN
          let sent := events ++ freeMessageFn (some p)
            ++ [Event.sendto (messageTxBuffer.take sizeOfMessage) sendStatus]
            ++ (if sendStatus = -1 then [Event.print "**Error sending message**\n"] else [])
            ++ [Event.setcancelstate true]
          if shouldExitProgram then
            let r := callRequestShutdown createStatus w1
            Except.ok (Flow.stop, sent ++ r.1, r.2)
          else Except.ok (Flow.next, sent, w1)

/-- One iteration of the loop of `ScreenPrinter_run` (`screen_printer.c`). -/
def ScreenPrinter_iteration (createStatus : Int) (w : World) :
    Except Fault (Flow × List Event × World) :=
  match getMessageFromQueue w with
  | (Dequeued.blocked, events, w1) => Except.ok (Flow.blocked, events, w1)
  | (Dequeued.returned pMessage, events, w1) =>
    let onNull : Except Fault (Flow × List Event × World) :=
      Except.ok (Flow.next, events ++ [Event.setcancelstate true], w1)
    match pMessage with
    | none => onNull
    | some p =>
      match p.target.pText with
      | none => onNull
      | some pText =>
        match cString pText with
        | Except.error f => Except.error f
        | Except.ok text =>
          let shouldExitProgram := p.target.isShutdownMessage
          let shown := events ++ [Event.display text] ++ freeMessageFn (some p)
            ++ [Event.setcancelstate true, Event.flush]
          if shouldExitProgram then
            let r := callRequestShutdown createStatus w1
            Except.ok (Flow.stop, shown ++ r.1, r.2)
          else Except.ok (Flow.next, shown, w1)

/-- The events of a first part of a run, put before the result of the rest. -/
def prependEvents (events : List Event) (r : Except Fault (Flow × List Event × World)) :
    Except Fault (Flow × List Event × World) :=
  match r with
  | Except.error f => Except.error f
  | Except.ok (flow, events2, w2) => Except.ok (flow, events ++ events2, w2)

/-- The loop `while (1) { body }` of a worker. The list holds, for each
iteration in turn, what the outside world supplies to it (the chunk read, the
datagram received, the status of `sendto`); the loop is followed for as many
iterations as the list has entries, or until an iteration ends in `break` or
leaves the worker suspended. -/
def whileLoop {ι : Type} (body : ι → World → Except Fault (Flow × List Event × World)) :
    List ι → World → Except Fault (Flow × List Event × World)
  | [], w => Except.ok (Flow.next, [], w)
  | x :: xs, w =>
    match body x w with
    | Except.error f => Except.error f
    | Except.ok (Flow.next, events, w1) => prependEvents events (whileLoop body xs w1)
    | Except.ok (flow, events, w1) => Except.ok (flow, events, w1)

/-- The loop of `KeyboardReader_run` over the chunks that `read` delivers. -/
def KeyboardReader_loop (chunks : List (List Nat)) (createStatus : Int) (w : World) :
    Except Fault (Flow × List Event × World) :=
  whileLoop (fun chunk => KeyboardReader_iteration chunk createStatus) chunks w

/-- The loop of `Listener_run` over the results of `recvfrom`. -/
def Listener_loop (received : List (Option (List Nat))) (createStatus : Int) (w : World) :
    Except Fault (Flow × List Event × World) :=
  whileLoop (fun r => Listener_iteration r createStatus) received w

/-- The loop of `Sender_run` over the statuses that `sendto` returns. -/
def Sender_loop (sendStatuses : List Int) (createStatus : Int) (w : World) :
    Except Fault (Flow × List Event × World) :=
  whileLoop (fun sendStatus => Sender_iteration sendStatus createStatus) sendStatuses w

/-- The loop of `ScreenPrinter_run`, followed for at most `iterations`
iterations. -/
def ScreenPrinter_loop (iterations : Nat) (createStatus : Int) (w : World) :
    Except Fault (Flow × List Event × World) :=
  whileLoop (fun _ => ScreenPrinter_iteration createStatus) (List.replicate iterations ()) w

/-! ## The entry functions of the four workers -/

/-- The function `KeyboardReader_run` of `keyboard_reader.c`, over the chunks
that `read` delivers. -/
def KeyboardReader_run (chunks : List (List Nat)) (createStatus : Int) (w : World) :
    Except Fault (Flow × List Event × World) :=
  let wait := waitForAllThreadsReadyBarrier w
  prependEvents
    (wait.1 ++ (if wait.2.outMessageQueue.isNone then
        [Event.print "KeyboardReader_run: error: message list is NULL\n"] else []))
    (KeyboardReader_loop chunks createStatus wait.2)

/-- The function `ScreenPrinter_run` of `screen_printer.c`, followed for at
most `iterations` iterations of its loop. -/
def ScreenPrinter_run (iterations : Nat) (createStatus : Int) (w : World) :
    Except Fault (Flow × List Event × World) :=
  let wait := waitForAllThreadsReadyBarrier w
  prependEvents (wait.1 ++ [Event.setcancelstate true])
    (ScreenPrinter_loop iterations createStatus wait.2)

/-- The function `Sender_run` of `message_sender.c`, over the statuses that
`sendto` returns. -/
def Sender_run (ourPort : Nat) (socketEnv : SocketEnv) (sendStatuses : List Int)
    (createStatus : Int) (w : World) : Except Fault (Flow × List Event × World) :=
  let wait := waitForAllThreadsReadyBarrier w
  match getSocketFdOrCreateAndBindIfDoesntExist ourPort socketEnv wait.2 with
  | (SocketCall.blocked, events, w1) => Except.ok (Flow.blocked, wait.1 ++ events, w1)
  | (SocketCall.returned _, events, w1) =>
    prependEvents (wait.1 ++ events) (Sender_loop sendStatuses createStatus w1)

/-- The function `Listener_run` of `message_listener.c`, over the results of
`recvfrom`. -/
def Listener_run (ourPort : Nat) (socketEnv : SocketEnv) (received : List (Option (List Nat)))
    (createStatus : Int) (w : World) : Except Fault (Flow × List Event × World) :=
  let wait := waitForAllThreadsReadyBarrier w
  match getSocketFdOrCreateAndBindIfDoesntExist ourPort socketEnv wait.2 with
  | (SocketCall.blocked, events, w1) => Except.ok (Flow.blocked, wait.1 ++ events, w1)
  | (SocketCall.returned _, events, w1) =>
    prependEvents (wait.1 ++ events) (Listener_loop received createStatus w1)

/-! ## two-chat.c and the `_init` functions of the workers -/

/-- The value of `ERANGE` in `errno.h`. -/
def ERANGE : Nat := 34

/-- The value of `EINVAL` in `errno.h`. -/
def EINVAL : Nat := 22

/-- The largest `long` (64 bits). -/
def LONG_MAX : Int := 9223372036854775807

/-- The smallest `long` (64 bits). -/
def LONG_MIN : Int := -9223372036854775808

/-- The C library's `isspace` in the C locale: the space and `'\t'` to `'\r'`. -/
def isspace (c : Nat) : Bool := c == 32 || (9 ≤ c && c ≤ 13)

/-- The C library's `isdigit`. -/
def isdigit (c : Nat) : Bool := 48 ≤ c && c ≤ 57

/-- The C library's `strtol(nptr, NULL, 10)` on the bytes of the string
`nptr`: white space is skipped, then an optional sign and the decimal digits
that follow are read, and what comes after them is ignored. Without a digit
the value is 0, and `errno` is left alone or, in some libraries, set to
`EINVAL` (`einvalWithoutDigits`); a value outside `long` is replaced by
`LONG_MAX` or `LONG_MIN` with `errno` set to `ERANGE`. The result is the value
returned and `errno` after the call. -/
def strtol (nptr : List Nat) (errnoBefore : Nat) (einvalWithoutDigits : Bool) : Int × Nat :=
  let s := nptr.dropWhile isspace
  let negative := s.head? == some 45
  let signed := negative || s.head? == some 43
  let digits := (if signed then s.tail else s).takeWhile isdigit
  if digits.isEmpty then (0, if einvalWithoutDigits then EINVAL else errnoBefore)
  else
    let magnitude : Nat := digits.foldl (fun acc c => acc * 10 + (c - 48)) 0
    let value : Int := if negative then -(magnitude : Int) else (magnitude : Int)
    if LONG_MAX < value then (LONG_MAX, ERANGE)
    else if value < LONG_MIN then (LONG_MIN, ERANGE)
    else (value, errnoBefore)

/-- The conversion of a `long` to `in_port_t` (an unsigned integer of 16
bits) in `in_port_t ourPort = strtol(...)`: the value modulo 2^16. -/
def toInPort (value : Int) : Nat := (value % 65536).toNat

/-- What `getaddrinfo` gives for the host name: its status code and, in host
byte order, the address of the first entry of the list (`none` for a `NULL`
list). -/
structure AddrInfo where
  statusCode : Int
  firstAddress : Option Nat
  deriving DecidableEq, Repr

/-- The function `printUsage` of `two-chat.c`. -/
def printUsage : List Event :=
  [Event.print
    "usage: ./two-chat <our port number> <remote machine name> <remote port number>\n"]

/-- The function `getAddressOfHostnameAsHostLong` of `two-chat.c`: the
`in_addr_t` it returns and what it prints. -/
def getAddressOfHostnameAsHostLong (resolved : AddrInfo) : Nat × List Event :=
  if resolved.statusCode ≠ 0 then
    (0, [Event.print "Error in getting address of remote machine\n"])
  else
    match resolved.firstAddress with
    | none => (0, [])
    | some address => (address % 2 ^ 32, [])

/-- The function `KeyboardReader_init` of `keyboard_reader.c`. `created` is
what `List_create` returns, `status` what `pthread_create` returns for the
worker and `createStatus` what it returns for the shutdown helper. -/
def KeyboardReader_init (created : Option CList) (status createStatus : Int) (w : World) :
    List Event × World :=
  let w1 := { w with outMessageQueue := created }
  if created.isSome then
    if status ≠ 0 then
      let r := callRequestShutdown createStatus w1
      ([Event.createWorker Worker.keyboardReader status,
          Event.print "Failed to create keyboard reader thread\n"] ++ r.1, r.2)
    else ([Event.createWorker Worker.keyboardReader status], w1)
  else
    let r := callRequestShutdown createStatus w1
    (Event.print "Failed to create list for keyboard reader\n" :: r.1, r.2)

/-- The function `ScreenPrinter_init` of `screen_printer.c`. -/
def ScreenPrinter_init (created : Option CList) (status createStatus : Int) (w : World) :
    List Event × World :=
  let w1 := { w with pInMessageQueue := created }
  if created.isSome then
    if status ≠ 0 then
      let r := callRequestShutdown createStatus w1
      ([Event.createWorker Worker.screenPrinter status,
          Event.print "Failed to create screen display thread\n"] ++ r.1, r.2)
    else ([Event.createWorker Worker.screenPrinter status], w1)
  else
    let r := callRequestShutdown createStatus w1
    (Event.print "Failed to create list for screen display\n" :: r.1, r.2)

/-- The function `Sender_init` of `message_sender.c` (the address and the two
ports it stores are those `main` passes). -/
def Sender_init (status createStatus : Int) (w : World) : List Event × World :=
  if status ≠ 0 then
    let r := callRequestShutdown createStatus w
    ([Event.createWorker Worker.sender status,
        Event.print "Failed to create sender thread\n"] ++ r.1, r.2)
  else ([Event.createWorker Worker.sender status], w)

/-- The function `Listener_init` of `message_listener.c`. -/
def Listener_init (status createStatus : Int) (w : World) : List Event × World :=
  if status ≠ 0 then
    let r := callRequestShutdown createStatus w
    ([Event.createWorker Worker.listener status,
        Event.print "Failed to create listener thread\n"] ++ r.1, r.2)
  else ([Event.createWorker Worker.listener status], w)

/-- What the outside world supplies to a run of `main`. -/
structure MainEnv where
  /-- What `getaddrinfo` gives for `args[2]`. -/
  resolved : AddrInfo
  /-- Whether `strtol` sets `errno` to `EINVAL` when it finds no digit. -/
  einvalWithoutDigits : Bool
  /-- What `socket` and `bind` return. -/
  socketEnv : SocketEnv
  /-- What `List_create` returns for the outbound and for the inbound queue. -/
  outQueue : Option CList
  inQueue : Option CList
  /-- What `pthread_create` returns for each of the four workers. -/
  keyboardReaderStatus : Int
  screenPrinterStatus : Int
  senderStatus : Int
  listenerStatus : Int
  /-- What `pthread_create` returns for the shutdown helper. -/
  helperStatus : Int

/-- How far a call of `main` gets. -/
inductive MainExit where
  /-- The `return` of `main`, with the exit code. -/
  | returned (code : Int)
  /-- The workers have been started and `main` is in
  `waitForShutdownOfAllThreads()`; once that returns it prints that the
  shutdown is complete and returns 0. -/
  | waitingForShutdown
  /-- The thread is suspended in the lock of the socket mutex. -/
  | blocked
  deriving DecidableEq, Repr

/-- The text of a C string. -/
def stringOfBytes (bytes : List Nat) : String := String.mk (bytes.map Char.ofNat)

/-- The function `main` of `two-chat.c`, up to its call of
`waitForShutdownOfAllThreads`. `args` holds the strings of `char** args` (the
program name first) and `argCount` is their number. -/
def main (args : List (List Nat)) (env : MainEnv) (w : World) : MainExit × List Event × World :=
  let argCount := args.length
  if argCount ≠ 4 then (MainExit.returned 1, printUsage, w)
  else
    let addrOfRemote := getAddressOfHostnameAsHostLong env.resolved
    if addrOfRemote.1 = 0 then
      (MainExit.returned 1,
        addrOfRemote.2 ++ [Event.print "Failed to get address! Exiting two-chat.\n"], w)
    else
      -- errno = 0;
      let our := strtol (args.getD 1 []) 0 env.einvalWithoutDigits
      let ourPort := toInPort our.1
      if our.2 = ERANGE ∨ our.2 = EINVAL then
        (MainExit.returned 1,
          addrOfRemote.2 ++
            [Event.print "Our port number is out of range. Please enter a valid port number.\n",
              Event.print "Exiting two-chat.\n"], w)
      else
        -- errno = 0;
        let destination := strtol (args.getD 3 []) 0 env.einvalWithoutDigits
        let destinationPort := toInPort destination.1
        if destination.2 = ERANGE ∨ destination.2 = EINVAL then
          (MainExit.returned 1,
            addrOfRemote.2 ++
              [Event.print
                  "Remote port number is out of range. Please enter a valid port number.\n",
                Event.print "Exiting two-chat.\n"], w)
        else
          match getSocketFdOrCreateAndBindIfDoesntExist ourPort env.socketEnv w with
          | (SocketCall.blocked, events, w1) => (MainExit.blocked, addrOfRemote.2 ++ events, w1)
          | (SocketCall.returned fd, events, w1) =>
            if fd = -1 then
              (MainExit.returned 1,
                addrOfRemote.2 ++ events ++ [Event.print "Exiting two-chat.\n"], w1)
            else
              let banner :=
                [Event.print "----------------------------------------\n",
                  Event.print "two-chat session started\n",
                  Event.print ("Our port: " ++ toString ourPort ++ "\n"),
                  Event.print ("Remote hostname: " ++ stringOfBytes (args.getD 2 []) ++ "\n"),
                  Event.print ("Remote port: " ++ toString destinationPort ++ "\n"),
                  Event.print "----------------------------------------\n"]
              let k := KeyboardReader_init env.outQueue env.keyboardReaderStatus
                env.helperStatus w1
              let s := ScreenPrinter_init env.inQueue env.screenPrinterStatus
                env.helperStatus k.2
              let t := Sender_init env.senderStatus env.helperStatus s.2
              let l := Listener_init env.listenerStatus env.helperStatus t.2
              (MainExit.waitingForShutdown,
                addrOfRemote.2 ++ events ++ banner ++ initBarriers
                  ++ k.1 ++ s.1 ++ t.1 ++ l.1,
                l.2)

/-- The event is the initialisation of a barrier or the creation of the
thread of a worker. -/
def Event.isStartOfWorkers (e : Event) : Bool :=
  match e with
  | Event.barrierInit _ _ => true
  | Event.createWorker _ _ => true
  | _ => false

/-- The globals as they are when `main` is entered: no queue, no socket. -/
def World.atEntry : World :=
  { World.initial with outMessageQueue := none, pInMessageQueue := none }

/-! ## Sequences of queue operations -/

/-- An operation on the inbound queue (listener to screen printer). -/
inductive InQueueOp where
  /-- The call `ScreenPrinter_putMessageOnQueue(pMessage)`. -/
  | put (pMessage : MessagePtr)
  /-- The call `getMessageFromQueue()`. -/
  | get
  deriving DecidableEq, Repr

/-- An operation on the outbound queue (keyboard reader to sender). -/
inductive OutQueueOp where
  /-- The call `createMessageFromBufferAndPutOnQueue(messageBuffer,
  sizeOfMessage, isShutdownMessage)`. -/
  | put (messageBuffer : Buffer) (sizeOfMessage : Nat) (isShutdownMessage : Bool)
  /-- The call `KeyboardReader_getMessageFromQueue()`. -/
  | get
  deriving DecidableEq, Repr

/-- What a sequence of queue operations has done: the messages whose enqueue
was accepted, in the order of the calls, what the dequeues that returned have
returned, in the order of the calls, and the globals at the end. -/
structure QueueRun where
  accepted : List MessagePtr
  dequeued : List (Option MessagePtr)
  world : World
  deriving DecidableEq, Repr

/-- The operations of the list, one after the other, on the inbound queue. A
`get` on an empty queue leaves its caller suspended and returns nothing. -/
def runInQueueOps : List InQueueOp → World → Except Fault QueueRun
  | [], w => Except.ok ⟨[], [], w⟩
  | InQueueOp.put pMessage :: ops, w =>
    match ScreenPrinter_putMessageOnQueue pMessage w with
    | Except.error f => Except.error f
    | Except.ok (isEnqueueSuccessful, _, w1) =>
      match runInQueueOps ops w1 with
      | Except.error f => Except.error f
      | Except.ok r =>
        Except.ok ⟨(if isEnqueueSuccessful then [pMessage] else []) ++ r.accepted,
          r.dequeued, r.world⟩
  | InQueueOp.get :: ops, w =>
    match getMessageFromQueue w with
    | (Dequeued.blocked, _, w1) => runInQueueOps ops w1
    | (Dequeued.returned pMessage, _, w1) =>
      match runInQueueOps ops w1 with
      | Except.error f => Except.error f
      | Except.ok r => Except.ok ⟨r.accepted, pMessage :: r.dequeued, r.world⟩

/-- The `Message` that `createMessageFromBufferAndPutOnQueue` builds from its
arguments, at the next free address. -/
def builtMessage (messageBuffer : Buffer) (sizeOfMessage : Nat) (isShutdownMessage : Bool)
    (w : World) : MessagePtr :=
  ⟨w.nextAddr,
    ⟨(copyMessageText messageBuffer sizeOfMessage).toOption, isShutdownMessage⟩⟩

/-- The operations of the list, one after the other, on the outbound queue. A
`get` on an empty queue leaves its caller suspended and returns nothing. -/
def runOutQueueOps : List OutQueueOp → World → Except Fault QueueRun
  | [], w => Except.ok ⟨[], [], w⟩
  | OutQueueOp.put messageBuffer sizeOfMessage isShutdownMessage :: ops, w =>
    match createMessageFromBufferAndPutOnQueue messageBuffer sizeOfMessage
        isShutdownMessage w with
    | Except.error f => Except.error f
    | Except.ok (isEnqueueSuccessful, _, w1) =>
      match runOutQueueOps ops w1 with
      | Except.error f => Except.error f
      | Except.ok r =>
        Except.ok ⟨(if isEnqueueSuccessful then
            [builtMessage messageBuffer sizeOfMessage isShutdownMessage w] else [])
            ++ r.accepted,
          r.dequeued, r.world⟩
  | OutQueueOp.get :: ops, w =>
    match KeyboardReader_getMessageFromQueue w with
    | (Dequeued.blocked, _, w1) => runOutQueueOps ops w1
    | (Dequeued.returned pMessage, _, w1) =>
      match runOutQueueOps ops w1 with
      | Except.error f => Except.error f
      | Except.ok r => Except.ok ⟨r.accepted, pMessage :: r.dequeued, r.world⟩

/-- An enqueue on the outbound queue whose copy stays inside its buffer. -/
def OutQueueOp.inBounds : OutQueueOp → Prop
  | OutQueueOp.put messageBuffer sizeOfMessage _ => sizeOfMessage ≤ messageBuffer.length
  | OutQueueOp.get => True

/-- The drop-newest contract of an enqueue of `pMessage` on the queue
`pList`, given the status `List_append` returned, the `bool` the enqueue
returned, its events and the queue after it. Rejected: `false` is returned,
the queue is as it was, the `Message` is freed exactly once and the queue does
not hold it. Accepted: `true` is returned, the `Message` is the new last
element of the queue, and it is not freed. -/
def DropNewest (appendStatus : Int) (pList : CList) (pMessage : MessagePtr)
    (returned : Bool) (events : List Event) (after : Option CList) : Prop :=
  (appendStatus = LIST_FAIL →
    returned = false ∧ after = some pList ∧
      events.count (Event.freeMessage pMessage.addr) = 1 ∧
      ∀ x, x ∈ pList.items → x.addr ≠ pMessage.addr) ∧
  (appendStatus ≠ LIST_FAIL →
    returned = true ∧
      events.count (Event.freeMessage pMessage.addr) = 0 ∧
      ∃ q, after = some q ∧ q.items = pList.items ++ [pMessage] ∧
        q.items.getLast? = some pMessage ∧ List_count q = List_count pList + 1)

/-! ### Notions used in the statements about the producers -/

/-- A chunk after which the keyboard reader goes on reading: what `read` puts
into the buffer does not start with NUL and has no standalone termination
line. -/
def isOrdinaryChunk (chunk : List Nat) : Prop :=
  (bufferOfChunk (chunk.take MSG_MAX_LEN)).get? 0 ≠ some 0 ∧
  hasStandaloneMarker (bufferText (bufferOfChunk (chunk.take MSG_MAX_LEN))) = false

/-- A datagram after which the listener goes on receiving: it has no
standalone termination line. -/
def isOrdinaryDatagram (datagram : List Nat) : Prop :=
  hasStandaloneMarker (bufferText (bufferOfChunk (datagram.take MSG_MAX_LEN))) = false

/-- The cancel state of a worker after a sequence of its events: `true` for
`PTHREAD_CANCEL_ENABLE` and `false` for `PTHREAD_CANCEL_DISABLE`, as the last
`pthread_setcancelstate` among them set it, and `before` if there is none. -/
def cancelEnabledAfter (before : Bool) (events : List Event) : Bool :=
  events.foldl (fun state e => match e with
    | Event.setcancelstate enabled => enabled
    | _ => state) before

/-- The event is a call of `pthread_setcancelstate`. -/
def Event.isSetcancelstate (e : Event) : Bool :=
  match e with
  | Event.setcancelstate _ => true
  | _ => false

/-! ### Notions used in the statements about the scanner -/

/-- The byte at index `j` of a buffer, `0` outside of it (used in statements
only; the code reads through `readAt`). -/
def byteAt (buf : Buffer) (j : Nat) : Nat := (buf.get? j).getD 0

/-- The test the specification words describe, read on the bytes of the
buffer: `"!\n"` stands at index `j`, at the start or right after a `'\n'`. -/
def markerIdx (buf : Buffer) (j : Nat) : Prop :=
  byteAt buf j = 33 ∧ byteAt buf (j + 1) = 10 ∧ (j = 0 ∨ byteAt buf (j - 1) = 10)

/-- What is known when the loop entered at index `i` is left in state `e`. -/
structure ScanPost (buf : Buffer) (i : Nat) (e : ScanExit) : Prop where
  le : i ≤ e.i
  lt : e.i < MSG_MAX_LEN
  nonzero : ∀ j, j ≤ e.i → byteAt buf j ≠ 0
  noMarkerBefore : ∀ j, i ≤ j → j < e.i → ¬ markerIdx buf j
  found : e.isTerminationLinePresent = true →
    1 ≤ e.i ∧ markerIdx buf e.i ∧
      e.messageBuffer = if e.i + 2 < MSG_MAX_LEN then buf.set (e.i + 2) 0 else buf
  notFound : e.isTerminationLinePresent = false →
    e.messageBuffer = buf ∧ ¬ markerIdx buf e.i ∧ byteAt buf (e.i + 1) = 0

/-- The size the loop path stores into `*pSizeOfMessage`. -/
def ScanExit.size (e : ScanExit) : Nat :=
  if e.isTerminationLinePresent then e.i + 2 else e.i + 1

/-- The text `t` is what the scanner leaves of the text of `buf`: its first
three bytes when the buffer starts with `"!\n"`; otherwise all of it when it
has no standalone termination line, and what ends with the line break of its
first standalone termination line when it has one. -/
def Retained (buf : Buffer) (t : List Nat) : Prop :=
  (byteAt buf 0 = 33 ∧ byteAt buf 1 = 10 ∧ t = (bufferText buf).take 3) ∨
  (¬ (byteAt buf 0 = 33 ∧ byteAt buf 1 = 10) ∧
    hasStandaloneMarker (bufferText buf) = false ∧ t = bufferText buf) ∨
  (¬ (byteAt buf 0 = 33 ∧ byteAt buf 1 = 10) ∧
    ∃ i, markerIdx buf i ∧ (∀ j, j < i → ¬ markerIdx buf j) ∧
      i + 1 < (bufferText buf).length ∧ t = (bufferText buf).take (i + 2))

/-- What the listener keeps of the bytes of a datagram when it writes its
NUL: all of them, or the first `MSG_MAX_LEN - 1` of a datagram that fills the
buffer. -/
def receivedText (datagram : List Nat) : List Nat :=
  if datagram.length < MSG_MAX_LEN then datagram else datagram.take (MSG_MAX_LEN - 1)

/-! ### Notions used in the statements about the states the program gets into -/

/-- The `Message` has a text, and the text is a NUL-terminated string. -/
def hasTerminatedText (p : MessagePtr) : Prop :=
  ∃ pText, p.target.pText = some pText ∧ 0 ∈ pText

/-- Every `Message` in the two queues has a NUL-terminated text. -/
def QueuesHaveText (w : World) : Prop :=
  (∀ q, w.outMessageQueue = some q → ∀ p, p ∈ q.items → hasTerminatedText p) ∧
  (∀ q, w.pInMessageQueue = some q → ∀ p, p ∈ q.items → hasTerminatedText p)

/-- The states of the globals the program gets into. The two queues are
static variables of `keyboard_reader.c` and `screen_printer.c`: they start
absent or empty (`List_create`), and only the iterations of the four workers
put a `Message` on them or take one off; every other step of the program
leaves the queues as they are, until the teardown frees them. -/
inductive Reachable : World → Prop where
  /-- A state whose queues are absent or empty. -/
  | start (w : World) (hout : ∀ q, w.outMessageQueue = some q → q.items = [])
      (hin : ∀ q, w.pInMessageQueue = some q → q.items = []) : Reachable w
  /-- An iteration of the loop of `KeyboardReader_run`. -/
  | keyboardReader (chunk : List Nat) (createStatus : Int) (w : World) (flow : Flow)
      (events : List Event) (w' : World) (h : Reachable w)
      (hstep : KeyboardReader_iteration chunk createStatus w = Except.ok (flow, events, w')) :
      Reachable w'
  /-- An iteration of the loop of `Listener_run`. -/
  | listener (received : Option (List Nat)) (createStatus : Int) (w : World) (flow : Flow)
      (events : List Event) (w' : World) (h : Reachable w)
      (hstep : Listener_iteration received createStatus w = Except.ok (flow, events, w')) :
      Reachable w'
  /-- An iteration of the loop of `Sender_run`. -/
  | sender (sendStatus createStatus : Int) (w : World) (flow : Flow)
      (events : List Event) (w' : World) (h : Reachable w)
      (hstep : Sender_iteration sendStatus createStatus w = Except.ok (flow, events, w')) :
      Reachable w'
  /-- An iteration of the loop of `ScreenPrinter_run`. -/
  | screenPrinter (createStatus : Int) (w : World) (flow : Flow)
      (events : List Event) (w' : World) (h : Reachable w)
      (hstep : ScreenPrinter_iteration createStatus w = Except.ok (flow, events, w')) :
      Reachable w'
  /-- Any other step: it leaves each queue as it is, or (the teardown, after
  `List_free`) sets it to `NULL`. -/
  | other (w w' : World) (h : Reachable w)
      (hout : w'.outMessageQueue = w.outMessageQueue ∨ w'.outMessageQueue = none)
      (hin : w'.pInMessageQueue = w.pInMessageQueue ∨ w'.pInMessageQueue = none) :
      Reachable w'

/-! # Theorems -/

/-! ## Lemmas about buffers -/

theorem byteAt_nil (j : Nat) : byteAt [] j = 0 := by
  simp [byteAt]

theorem byteAt_cons_zero (c : Nat) (buf : Buffer) : byteAt (c :: buf) 0 = c := by
  simp [byteAt]

theorem byteAt_cons_succ (c : Nat) (buf : Buffer) (j : Nat) :
    byteAt (c :: buf) (j + 1) = byteAt buf j := by
  simp [byteAt]

theorem byteAt_of_length_le (buf : Buffer) (j : Nat) (h : buf.length ≤ j) :
    byteAt buf j = 0 := by
  simp [byteAt, List.getElem?_eq_none h]

theorem lt_length_of_byteAt_ne_zero (buf : Buffer) (j : Nat) (h : byteAt buf j ≠ 0) :
    j < buf.length := by
  by_contra hlt
  exact h (byteAt_of_length_le buf j (Nat.le_of_not_lt hlt))

theorem get?_eq_some_byteAt (buf : Buffer) (j : Nat) (h : j < buf.length) :
    buf.get? j = some (byteAt buf j) := by
  simp [byteAt, List.getElem?_eq_getElem h]

theorem readAt_of_lt (buf : Buffer) (j : Nat) (h : j < buf.length) :
    readAt buf j = Except.ok (byteAt buf j) := by
  unfold readAt
  rw [get?_eq_some_byteAt buf j h]

theorem writeAt_of_lt (buf : Buffer) (j v : Nat) (h : j < buf.length) :
    writeAt buf j v = Except.ok (buf.set j v) := by
  unfold writeAt
  rw [get?_eq_some_byteAt buf j h]

theorem byteAt_set (buf : Buffer) (i v j : Nat) :
    byteAt (buf.set i v) j = if j = i ∧ i < buf.length then v else byteAt buf j := by
  induction buf generalizing i j with
  | nil => simp [byteAt_nil]
  | cons c cs ih =>
    cases i with
    | zero =>
      cases j with
      | zero => simp [byteAt_cons_zero]
      | succ j => simp [byteAt_cons_succ]
    | succ i =>
      cases j with
      | zero => simp [byteAt_cons_zero]
      | succ j => simp [byteAt_cons_succ, ih]

theorem bufferText_nil : bufferText [] = [] := rfl

theorem bufferText_cons (c : Nat) (buf : Buffer) :
    bufferText (c :: buf) = if c = 0 then [] else c :: bufferText buf := by
  by_cases h : c = 0
  · simp [bufferText, List.takeWhile, h]
  · have hb : (c != 0) = true := by simpa using h
    simp [bufferText, List.takeWhile, hb, h]

/-- The length of the text is the index of the first `'\0'`. -/
theorem length_bufferText_eq (buf : Buffer) (m : Nat)
    (hne : ∀ j, j < m → byteAt buf j ≠ 0) (hz : byteAt buf m = 0) :
    (bufferText buf).length = m := by
  induction buf generalizing m with
  | nil =>
    cases m with
    | zero => rfl
    | succ m => exact absurd (byteAt_nil 0) (hne 0 (Nat.succ_pos m))
  | cons c cs ih =>
    rw [bufferText_cons]
    cases m with
    | zero =>
      rw [byteAt_cons_zero] at hz
      simp [hz]
    | succ m =>
      have hc : c ≠ 0 := by
        have := hne 0 (Nat.succ_pos m)
        rwa [byteAt_cons_zero] at this
      have hrec := ih m
        (fun j hj => by
          have := hne (j + 1) (Nat.succ_lt_succ hj)
          rwa [byteAt_cons_succ] at this)
        (by rwa [byteAt_cons_succ] at hz)
      simp [hc, hrec]

theorem byteAt_bufferText (buf : Buffer) (j : Nat) :
    byteAt (bufferText buf) j = if j < (bufferText buf).length then byteAt buf j else 0 := by
  induction buf generalizing j with
  | nil => simp [bufferText_nil, byteAt_nil]
  | cons c cs ih =>
    rw [bufferText_cons]
    by_cases hc : c = 0
    · simp [hc, byteAt_nil]
    · cases j with
      | zero => simp [hc, byteAt_cons_zero]
      | succ j => simp [hc, byteAt_cons_succ, ih]

theorem byteAt_ne_zero_of_lt_text (buf : Buffer) (j : Nat)
    (h : j < (bufferText buf).length) : byteAt buf j ≠ 0 := by
  induction buf generalizing j with
  | nil => simp [bufferText_nil] at h
  | cons c cs ih =>
    rw [bufferText_cons] at h
    by_cases hc : c = 0
    · simp [hc] at h
    · cases j with
      | zero => simpa [byteAt_cons_zero] using hc
      | succ j =>
        rw [byteAt_cons_succ]
        apply ih
        simpa [hc] using h

theorem byteAt_text_length (buf : Buffer) : byteAt buf (bufferText buf).length = 0 := by
  induction buf with
  | nil => simp [bufferText_nil, byteAt_nil]
  | cons c cs ih =>
    rw [bufferText_cons]
    by_cases hc : c = 0
    · simp [hc, byteAt_cons_zero]
    · simpa [hc, byteAt_cons_succ] using ih

theorem length_bufferText_le (buf : Buffer) : (bufferText buf).length ≤ buf.length := by
  induction buf with
  | nil => simp [bufferText_nil]
  | cons c cs ih =>
    rw [bufferText_cons]
    by_cases hc : c = 0
    · simp [hc]
    · simpa [hc] using ih

theorem strnlen_of_length_le (buf : Buffer) (n : Nat) (h : buf.length ≤ n) :
    strnlen buf n = (bufferText buf).length := by
  simp [strnlen, bufferText, List.take_of_length_le h]

/-! ## The scanner's loop -/

theorem four_le_MSG_MAX_LEN : 4 ≤ MSG_MAX_LEN := by decide

theorem MSG_MAX_LEN_lt_size : MSG_MAX_LEN < 2 ^ 64 := by decide

theorem sizeSubOne_of_pos (i : Nat) (h0 : 0 < i) (h : i < 2 ^ 64) : sizeSubOne i = i - 1 := by
  unfold sizeSubOne
  have h64 : (2 : Nat) ^ 64 = 18446744073709551616 := by norm_num
  rw [h64] at h ⊢
  omega

theorem isBangNewlineAt_of_lt (buf : Buffer) (i : Nat) (h : i + 1 < buf.length) :
    isBangNewlineAt buf i = Except.ok (decide (byteAt buf i = 33 ∧ byteAt buf (i + 1) = 10)) := by
  unfold isBangNewlineAt
  rw [readAt_of_lt buf i (by omega), readAt_of_lt buf (i + 1) h]
  by_cases h1 : byteAt buf i = 33
  · by_cases h2 : byteAt buf (i + 1) = 10 <;> simp [h1, h2]
  · simp [h1]

theorem isEndOfStringAt_of_lt (buf : Buffer) (i : Nat) (h : i + 1 < buf.length) :
    isEndOfStringAt buf i = Except.ok (decide (byteAt buf i = 0 ∨ byteAt buf (i + 1) = 0)) := by
  unfold isEndOfStringAt
  rw [readAt_of_lt buf i (by omega), readAt_of_lt buf (i + 1) h]
  by_cases h1 : byteAt buf i = 0
  · simp [h1]
  · by_cases h2 : byteAt buf (i + 1) = 0 <;> simp [h1, h2]

theorem scanLoopTail_spec (buf : Buffer) (hlen : buf.length = MSG_MAX_LEN) (i : Nat)
    (hi : i + 1 < MSG_MAX_LEN) (hnz : ∀ j, j ≤ i → byteAt buf j ≠ 0)
    (hno : ¬ markerIdx buf i) (next : Except Fault ScanExit)
    (hnext : byteAt buf (i + 1) ≠ 0 → ∃ e, next = Except.ok e ∧ ScanPost buf (i + 1) e) :
    ∃ e, scanLoopTail buf i next = Except.ok e ∧ ScanPost buf i e := by
  unfold scanLoopTail
  rw [isEndOfStringAt_of_lt buf i (by omega)]
  have hi0 : byteAt buf i ≠ 0 := hnz i (Nat.le_refl i)
  by_cases h1 : byteAt buf (i + 1) = 0
  · refine ⟨⟨false, i, buf⟩, by simp [h1], ?_⟩
    exact
      { le := Nat.le_refl i
        lt := by simp only; omega
        nonzero := hnz
        noMarkerBefore := fun j h1 h2 => absurd h2 (by simp only; omega)
        found := fun h => by simp at h
        notFound := fun _ => ⟨rfl, hno, h1⟩ }
  · obtain ⟨e, he, hp⟩ := hnext h1
    refine ⟨e, by simp [hi0, h1, he], ?_⟩
    exact
      { le := Nat.le_of_succ_le hp.le
        lt := hp.lt
        nonzero := hp.nonzero
        noMarkerBefore := fun j hj1 hj2 => by
          by_cases hji : j = i
          · rw [hji]; exact hno
          · exact hp.noMarkerBefore j (by omega) hj2
        found := hp.found
        notFound := hp.notFound }

/-- The loop of the scanner never faults on a buffer of `MSG_MAX_LEN` bytes,
and it is left at the first standalone marker or at the end of the text. -/
theorem scanLoop_spec (buf : Buffer) (hlen : buf.length = MSG_MAX_LEN) :
    ∀ k i, k + i + 1 = MSG_MAX_LEN → (∀ j, j ≤ i → byteAt buf j ≠ 0) →
      (i = 0 → ¬ (byteAt buf 0 = 33 ∧ byteAt buf 1 = 10)) →
      ∃ e, scanLoop k i buf = Except.ok e ∧ ScanPost buf i e := by
  intro k
  induction k with
  | zero =>
    intro i hk hnz _
    refine ⟨⟨false, i, buf⟩, rfl, ?_⟩
    have hz : byteAt buf (i + 1) = 0 := byteAt_of_length_le buf (i + 1) (by omega)
    exact
      { le := Nat.le_refl i
        lt := by simp only; omega
        nonzero := hnz
        noMarkerBefore := fun j h1 h2 => absurd h2 (by simp only; omega)
        found := fun h => by simp at h
        notFound := fun _ => ⟨rfl, fun hm => by
          have h10 : byteAt buf (i + 1) = 10 := hm.2.1
          omega, hz⟩ }
  | succ k ih =>
    intro i hk hnz hstart
    have hrec : byteAt buf (i + 1) ≠ 0 →
        ∃ e, scanLoop k (i + 1) buf = Except.ok e ∧ ScanPost buf (i + 1) e := by
      intro h1
      apply ih (i + 1) (by omega)
      · intro j hj
        by_cases hji : j = i + 1
        · rw [hji]; exact h1
        · exact hnz j (by omega)
      · intro h; omega
    unfold scanLoop
    rw [isBangNewlineAt_of_lt buf i (by omega)]
    by_cases hbang : byteAt buf i = 33 ∧ byteAt buf (i + 1) = 10
    · have hi0 : i ≠ 0 := fun h => hstart h (by rw [h] at hbang; exact hbang)
      have hsub : sizeSubOne i = i - 1 :=
        sizeSubOne_of_pos i (by omega) (by have := MSG_MAX_LEN_lt_size; omega)
      simp only [hbang, and_self, decide_True, hsub]
      rw [readAt_of_lt buf (i - 1) (by omega)]
      by_cases hprev : byteAt buf (i - 1) = 10
      · simp only [hprev, if_true]
        have hm : markerIdx buf i := ⟨hbang.1, hbang.2, Or.inr hprev⟩
        by_cases hroom : i + 2 < MSG_MAX_LEN
        · rw [if_pos hroom, writeAt_of_lt buf (i + 2) 0 (by omega)]
          refine ⟨⟨true, i, buf.set (i + 2) 0⟩, rfl, ?_⟩
          exact
            { le := Nat.le_refl i
              lt := by simp only; omega
              nonzero := hnz
              noMarkerBefore := fun j h1 h2 => absurd h2 (by simp only; omega)
              found := fun _ => ⟨by simp only; omega, hm, by simp only [if_pos hroom]⟩
              notFound := fun h => by simp at h }
        · rw [if_neg hroom]
          refine ⟨⟨true, i, buf⟩, rfl, ?_⟩
          exact
            { le := Nat.le_refl i
              lt := by simp only; omega
              nonzero := hnz
              noMarkerBefore := fun j h1 h2 => absurd h2 (by simp only; omega)
              found := fun _ => ⟨by simp only; omega, hm, by simp only [if_neg hroom]⟩
              notFound := fun h => by simp at h }
      · simp only [hprev, if_false]
        apply scanLoopTail_spec buf hlen i (by omega) hnz _ _ hrec
        intro hm
        rcases hm.2.2 with h | h
        · exact hi0 h
        · exact hprev h
    · simp only [hbang, decide_False]
      apply scanLoopTail_spec buf hlen i (by omega) hnz _ _ hrec
      intro hm
      exact hbang ⟨hm.1, hm.2.1⟩

/-! ## The three paths through the scanner -/

theorem byteAt_zero_of_get? (buf : Buffer) (c : Nat) (h : buf.get? 0 = some c) :
    byteAt buf 0 = c := by
  unfold byteAt
  rw [h]
  rfl

/-- First path: the buffer holds the empty string. -/
theorem check_of_empty (buf : Buffer) (hlen : buf.length = MSG_MAX_LEN)
    (pSizeOfMessage : Option Nat) (h0 : byteAt buf 0 = 0) :
    checkAndDiscardRestIfMessageHasTerminationLine (some buf) pSizeOfMessage =
      Except.ok ⟨false, some buf, storeSize pSizeOfMessage 0⟩ := by
  have h4 := four_le_MSG_MAX_LEN
  unfold checkAndDiscardRestIfMessageHasTerminationLine
  simp only [readAt_of_lt buf 0 (by omega), h0, if_true]

/-- Second path: the buffer starts with the marker. -/
theorem check_of_start (buf : Buffer) (hlen : buf.length = MSG_MAX_LEN)
    (pSizeOfMessage : Option Nat) (h0 : byteAt buf 0 = 33) (h1 : byteAt buf 1 = 10) :
    checkAndDiscardRestIfMessageHasTerminationLine (some buf) pSizeOfMessage =
      Except.ok ⟨true, some (buf.set 3 0), storeSize pSizeOfMessage 3⟩ := by
  have h4 := four_le_MSG_MAX_LEN
  unfold checkAndDiscardRestIfMessageHasTerminationLine
  have hb : isBangNewlineAt buf 0 = Except.ok true := by
    rw [isBangNewlineAt_of_lt buf 0 (by omega)]
    simp [h0, h1]
  simp only [readAt_of_lt buf 0 (by omega), h0, hb, writeAt_of_lt buf 3 0 (by omega)]
  simp

theorem ScanPost.length_eq {buf : Buffer} {i : Nat} {e : ScanExit} (hp : ScanPost buf i e) :
    e.messageBuffer.length = buf.length := by
  cases hf : e.isTerminationLinePresent with
  | false => rw [(hp.notFound hf).1]
  | true =>
    rw [(hp.found hf).2.2]
    split <;> simp

/-- The text the loop leaves in the buffer has the length the loop reports:
the `assert` of the scanner holds. -/
theorem ScanPost.length_text {buf : Buffer} {i : Nat} {e : ScanExit} (hp : ScanPost buf i e)
    (hlen : buf.length = MSG_MAX_LEN) :
    (bufferText e.messageBuffer).length = e.size := by
  unfold ScanExit.size
  cases hf : e.isTerminationLinePresent with
  | false =>
    obtain ⟨hb, _, hz⟩ := hp.notFound hf
    rw [hb]
    simp only [Bool.false_eq_true, if_false]
    exact length_bufferText_eq buf (e.i + 1) (fun j hj => hp.nonzero j (by omega)) hz
  | true =>
    obtain ⟨_, hm, hb⟩ := hp.found hf
    simp only [if_true]
    have hlt := hp.lt
    apply length_bufferText_eq
    · intro j hj
      have hjb : byteAt e.messageBuffer j = byteAt buf j := by
        rw [hb]
        split
        · rw [byteAt_set, if_neg (by omega)]
        · rfl
      rw [hjb]
      by_cases hje : j ≤ e.i
      · exact hp.nonzero j hje
      · have : j = e.i + 1 := by omega
        rw [this, hm.2.1]
        decide
    · rw [hb]
      by_cases hroom : e.i + 2 < MSG_MAX_LEN
      · rw [if_pos hroom, byteAt_set, if_pos ⟨rfl, by omega⟩]
      · rw [if_neg hroom]
        exact byteAt_of_length_le buf (e.i + 2) (by omega)

/-- Third path: the loop. It returns, its `assert` holds, and its exit state
satisfies `ScanPost`. -/
theorem check_of_loop (buf : Buffer) (hlen : buf.length = MSG_MAX_LEN)
    (pSizeOfMessage : Option Nat) (h0 : byteAt buf 0 ≠ 0)
    (hstart : ¬ (byteAt buf 0 = 33 ∧ byteAt buf 1 = 10)) :
    ∃ e, ScanPost buf 0 e ∧
      checkAndDiscardRestIfMessageHasTerminationLine (some buf) pSizeOfMessage =
        Except.ok ⟨e.isTerminationLinePresent, some e.messageBuffer,
          storeSize pSizeOfMessage e.size⟩ := by
  have h4 := four_le_MSG_MAX_LEN
  obtain ⟨e, he, hp⟩ := scanLoop_spec buf hlen (MSG_MAX_LEN - 1) 0 (by omega)
    (fun j hj => by
      have : j = 0 := by omega
      rw [this]; exact h0)
    (fun _ => hstart)
  refine ⟨e, hp, ?_⟩
  unfold checkAndDiscardRestIfMessageHasTerminationLine
  have hb : isBangNewlineAt buf 0 = Except.ok false := by
    rw [isBangNewlineAt_of_lt buf 0 (by omega)]
    simp only [Nat.zero_add, hstart, decide_False]
  have hassert : strnlen e.messageBuffer MSG_MAX_LEN = e.size := by
    rw [strnlen_of_length_le _ _ (by rw [hp.length_eq, hlen])]
    exact hp.length_text hlen
  simp only [readAt_of_lt buf 0 (by omega), h0, if_false, hb, he]
  cases pSizeOfMessage with
  | none => rfl
  | some v =>
    simp only [storeSize]
    unfold ScanExit.size at hassert
    rw [if_pos hassert]
    rfl

/-! ## The marker in the text of the buffer -/

theorem get?_eq_some_iff_byteAt (t : List Nat) (j c : Nat) (hc : c ≠ 0) :
    t.get? j = some c ↔ byteAt t j = c := by
  unfold byteAt
  cases h : t.get? j with
  | none =>
    simp only [Option.getD_none]
    constructor
    · intro h'; cases h'
    · intro h'; exact absurd h'.symm hc
  | some x => simp

theorem standaloneMarkerAt_iff (t : List Nat) (j : Nat) :
    standaloneMarkerAt t j = true ↔ markerIdx t j := by
  unfold standaloneMarkerAt markerIdx
  simp only [Bool.and_eq_true, Bool.or_eq_true, beq_iff_eq,
    get?_eq_some_iff_byteAt t j 33 (by decide), get?_eq_some_iff_byteAt t (j + 1) 10 (by decide),
    get?_eq_some_iff_byteAt t (j - 1) 10 (by decide), and_assoc]

theorem hasStandaloneMarker_iff (t : List Nat) :
    hasStandaloneMarker t = true ↔ ∃ j, markerIdx t j := by
  unfold hasStandaloneMarker
  rw [List.any_eq_true]
  constructor
  · rintro ⟨j, _, hj⟩
    exact ⟨j, (standaloneMarkerAt_iff t j).1 hj⟩
  · rintro ⟨j, hj⟩
    refine ⟨j, ?_, (standaloneMarkerAt_iff t j).2 hj⟩
    rw [List.mem_range]
    apply lt_length_of_byteAt_ne_zero
    rw [hj.1]
    decide

theorem markerIdx_text_iff (buf : Buffer) (j : Nat) :
    markerIdx (bufferText buf) j ↔ markerIdx buf j ∧ j + 1 < (bufferText buf).length := by
  unfold markerIdx
  simp only [byteAt_bufferText]
  constructor
  · rintro ⟨h1, h2, h3⟩
    have hj1 : j + 1 < (bufferText buf).length := by
      by_contra hlt
      rw [if_neg hlt] at h2
      omega
    rw [if_pos hj1] at h2
    rw [if_pos (by omega)] at h1
    refine ⟨⟨h1, h2, ?_⟩, hj1⟩
    rcases h3 with h3 | h3
    · exact Or.inl h3
    · rw [if_pos (by omega)] at h3
      exact Or.inr h3
  · rintro ⟨⟨h1, h2, h3⟩, hj1⟩
    rw [if_pos hj1, if_pos (show j < (bufferText buf).length by omega),
      if_pos (show j - 1 < (bufferText buf).length by omega)]
    exact ⟨h1, h2, h3⟩

theorem hasStandaloneMarker_text_iff (buf : Buffer) :
    hasStandaloneMarker (bufferText buf) = true ↔
      ∃ j, markerIdx buf j ∧ j + 1 < (bufferText buf).length := by
  rw [hasStandaloneMarker_iff]
  constructor
  · rintro ⟨j, hj⟩
    exact ⟨j, (markerIdx_text_iff buf j).1 hj⟩
  · rintro ⟨j, hj⟩
    exact ⟨j, (markerIdx_text_iff buf j).2 hj⟩

/-- The loop path finds a marker exactly when the text has a standalone one. -/
theorem ScanPost.found_iff {buf : Buffer} {e : ScanExit} (hp : ScanPost buf 0 e) :
    e.isTerminationLinePresent = true ↔ hasStandaloneMarker (bufferText buf) = true := by
  rw [hasStandaloneMarker_text_iff]
  constructor
  · intro hf
    obtain ⟨_, hm, _⟩ := hp.found hf
    refine ⟨e.i, hm, ?_⟩
    by_contra hlt
    have hle : (bufferText buf).length ≤ e.i + 1 := by omega
    have hz := byteAt_text_length buf
    rcases Nat.lt_or_ge (bufferText buf).length (e.i + 1) with h | h
    · exact hp.nonzero _ (by omega) hz
    · have : (bufferText buf).length = e.i + 1 := by omega
      rw [this, hm.2.1] at hz
      omega
  · rintro ⟨j, hm, hj⟩
    cases hf : e.isTerminationLinePresent with
    | true => rfl
    | false =>
      exfalso
      obtain ⟨_, hno, hz⟩ := hp.notFound hf
      have hL : (bufferText buf).length = e.i + 1 :=
        length_bufferText_eq buf (e.i + 1) (fun j hj => hp.nonzero j (by omega)) hz
      rcases Nat.lt_or_ge j e.i with h | h
      · exact hp.noMarkerBefore j (Nat.zero_le j) h hm
      · have : j = e.i := by omega
        rw [this] at hm
        exact hno hm

/-- On every buffer of `MSG_MAX_LEN` bytes the scanner returns, and it returns
`true` exactly when the text of the buffer has a standalone marker. -/
theorem check_returnValue_iff (buf : Buffer) (hlen : buf.length = MSG_MAX_LEN)
    (pSizeOfMessage : Option Nat) :
    ∃ r, checkAndDiscardRestIfMessageHasTerminationLine (some buf) pSizeOfMessage = Except.ok r ∧
      (r.returnValue = true ↔ hasStandaloneMarker (bufferText buf) = true) := by
  by_cases h0 : byteAt buf 0 = 0
  · refine ⟨_, check_of_empty buf hlen pSizeOfMessage h0, ?_⟩
    have ht : (bufferText buf).length = 0 :=
      length_bufferText_eq buf 0 (fun j hj => absurd hj (Nat.not_lt_zero j)) h0
    rw [hasStandaloneMarker_text_iff]
    simp only [Bool.false_eq_true, false_iff, not_exists, not_and]
    intro j _ hj
    omega
  · by_cases hstart : byteAt buf 0 = 33 ∧ byteAt buf 1 = 10
    · refine ⟨_, check_of_start buf hlen pSizeOfMessage hstart.1 hstart.2, ?_⟩
      simp only [true_iff]
      rw [hasStandaloneMarker_text_iff]
      refine ⟨0, ⟨hstart.1, hstart.2, Or.inl rfl⟩, ?_⟩
      by_contra hlt
      have hz := byteAt_text_length buf
      have hcases : (bufferText buf).length = 0 ∨ (bufferText buf).length = 1 := by omega
      rcases hcases with h | h
      · rw [h, hstart.1] at hz; omega
      · rw [h, hstart.2] at hz; omega
    · obtain ⟨e, hp, he⟩ := check_of_loop buf hlen pSizeOfMessage h0 hstart
      exact ⟨_, he, hp.found_iff⟩


/-! ## Buffers filled from a chunk, and the text copied into a `Message` -/

theorem length_bufferOfChunk (chunk : List Nat) (h : chunk.length ≤ MSG_MAX_LEN) :
    (bufferOfChunk chunk).length = MSG_MAX_LEN := by
  unfold bufferOfChunk
  rw [List.length_append, List.length_replicate]
  omega

theorem ne_zero_of_mem_bufferText (buf : Buffer) (c : Nat) (h : c ∈ bufferText buf) : c ≠ 0 := by
  have := List.mem_takeWhile_imp h
  simpa using this

theorem bufferText_append_zero (t rest : List Nat) (h : ∀ c, c ∈ t → c ≠ 0) :
    bufferText (t ++ 0 :: rest) = t := by
  induction t with
  | nil => simp [bufferText_cons]
  | cons c cs ih =>
    have hc : c ≠ 0 := h c (List.mem_cons_self c cs)
    rw [List.cons_append, bufferText_cons, if_neg hc, ih (fun d hd => h d (List.mem_cons_of_mem c hd))]

theorem takeWhile_take_length (buf : Buffer) :
    ((buf.take (bufferText buf).length).takeWhile (fun c => c != 0)) = bufferText buf := by
  induction buf with
  | nil => rfl
  | cons c cs ih =>
    rw [bufferText_cons]
    by_cases hc : c = 0
    · simp [hc]
    · have hb : (c != 0) = true := by simpa using hc
      simp only [hc, if_false, List.length_cons, List.take_succ_cons, List.takeWhile_cons, hb,
        if_true]
      rw [ih]

/-- Copying as many bytes as the text is long copies the text, verbatim. -/
theorem copyMessageText_text (buf : Buffer) :
    copyMessageText buf (bufferText buf).length = Except.ok (bufferText buf ++ [0]) := by
  unfold copyMessageText strncpy
  simp only [takeWhile_take_length, Nat.lt_irrefl, decide_False, Bool.false_and, Nat.sub_self,
    List.replicate_zero, List.append_nil]
  have hget : ((List.replicate ((bufferText buf).length + 1) 0).get?
      ((bufferText buf).length - 1)).isNone = false := by
    rw [List.get?_eq_getElem?, List.getElem?_eq_getElem (by rw [List.length_replicate]; omega)]
    rfl
  have hdrop : (List.replicate ((bufferText buf).length + 1) 0).drop (bufferText buf).length
      = [0] := by
    rw [List.drop_replicate]
    simp
  rw [hget, hdrop]
  simp

/-! ## The claims about the scanner -/

/-- C1. For every message buffer of `MSG_MAX_LEN` bytes the scanner returns,
and the value it returns is `true` exactly when the text of the buffer (the
bytes before the first NUL, or the whole buffer) holds `"!\n"` at its very
start or right after a `'\n'`; a `"!\n"` whose `'!'` always follows another
character does not count; a `NULL` buffer and an empty buffer yield `false`. -/
theorem C1_returns_true_iff_standalone_marker (buf : Buffer)
    (hlen : buf.length = MSG_MAX_LEN) (pSizeOfMessage : Option Nat) :
    (∃ r, checkAndDiscardRestIfMessageHasTerminationLine (some buf) pSizeOfMessage
          = Except.ok r ∧ r.returnValue = hasStandaloneMarker (bufferText buf)) ∧
    ((∀ j, (bufferText buf).get? j = some 33 → (bufferText buf).get? (j + 1) = some 10 →
          j ≠ 0 ∧ (bufferText buf).get? (j - 1) ≠ some 10) →
        ∃ r, checkAndDiscardRestIfMessageHasTerminationLine (some buf) pSizeOfMessage
          = Except.ok r ∧ r.returnValue = false) ∧
    (∃ r, checkAndDiscardRestIfMessageHasTerminationLine none pSizeOfMessage
          = Except.ok r ∧ r.returnValue = false) ∧
    (bufferText buf = [] →
        ∃ r, checkAndDiscardRestIfMessageHasTerminationLine (some buf) pSizeOfMessage
          = Except.ok r ∧ r.returnValue = false) := by
  obtain ⟨r, hr, hiff⟩ := check_returnValue_iff buf hlen pSizeOfMessage
  have heq : r.returnValue = hasStandaloneMarker (bufferText buf) := Bool.eq_iff_iff.mpr hiff
  refine ⟨⟨r, hr, heq⟩, ?_, ⟨⟨false, none, pSizeOfMessage⟩, rfl, rfl⟩, ?_⟩
  · intro hall
    refine ⟨r, hr, ?_⟩
    rw [heq]
    cases hm : hasStandaloneMarker (bufferText buf) with
    | false => rfl
    | true =>
      exfalso
      unfold hasStandaloneMarker at hm
      rw [List.any_eq_true] at hm
      obtain ⟨j, _, hj⟩ := hm
      unfold standaloneMarkerAt at hj
      simp only [Bool.and_eq_true, Bool.or_eq_true, beq_iff_eq] at hj
      obtain ⟨⟨h1, h2⟩, h3⟩ := hj
      obtain ⟨hj0, hprev⟩ := hall j h1 h2
      rcases h3 with h3 | h3
      · exact hj0 h3
      · exact hprev h3
  · intro hnil
    refine ⟨r, hr, ?_⟩
    rw [heq, hnil]
    rfl

/-- The chunk `"hello\n!\n"` in a keyboard buffer satisfies the hypothesis of
C1, and its conclusion holds there. -/
theorem C1_witness :
    (bufferOfChunk [104, 101, 108, 108, 111, 10, 33, 10]).length = MSG_MAX_LEN ∧
    ∃ r, checkAndDiscardRestIfMessageHasTerminationLine
          (some (bufferOfChunk [104, 101, 108, 108, 111, 10, 33, 10])) (some 0) = Except.ok r ∧
      r.returnValue =
        hasStandaloneMarker (bufferText (bufferOfChunk [104, 101, 108, 108, 111, 10, 33, 10])) :=
  ⟨length_bufferOfChunk _ (by decide),
    (C1_returns_true_iff_standalone_marker _ (length_bufferOfChunk _ (by decide)) (some 0)).1⟩

theorem byteAt_take (l : Buffer) (n j : Nat) :
    byteAt (l.take n) j = if j < n then byteAt l j else 0 := by
  induction l generalizing n j with
  | nil => simp [byteAt_nil]
  | cons c cs ih =>
    cases n with
    | zero => simp [byteAt_nil]
    | succ n =>
      cases j with
      | zero => simp [byteAt_cons_zero]
      | succ j => simp [byteAt_cons_succ, ih]

theorem ext_byteAt (l1 l2 : Buffer) (hlen : l1.length = l2.length)
    (h : ∀ j, j < l1.length → byteAt l1 j = byteAt l2 j) : l1 = l2 := by
  induction l1 generalizing l2 with
  | nil =>
    cases l2 with
    | nil => rfl
    | cons d ds => simp at hlen
  | cons c cs ih =>
    cases l2 with
    | nil => simp at hlen
    | cons d ds =>
      have h0 := h 0 (by simp)
      rw [byteAt_cons_zero, byteAt_cons_zero] at h0
      have hrest := ih ds (by simpa using hlen) (fun j hj => by
        have := h (j + 1) (by simpa using hj)
        rwa [byteAt_cons_succ, byteAt_cons_succ] at this)
      rw [h0, hrest]

/-- When the loop finds a marker, the marker lies in the text and the text
left in the buffer is the text up to and including the marker's line break. -/
theorem ScanPost.text_of_found {buf : Buffer} {e : ScanExit} (hp : ScanPost buf 0 e)
    (hlen : buf.length = MSG_MAX_LEN) (hf : e.isTerminationLinePresent = true) :
    e.i + 1 < (bufferText buf).length ∧
    bufferText e.messageBuffer = (bufferText buf).take (e.i + 2) := by
  obtain ⟨_, hm, hb⟩ := hp.found hf
  have hin : e.i + 1 < (bufferText buf).length := by
    by_contra hlt
    have hz := byteAt_text_length buf
    rcases Nat.lt_or_ge (bufferText buf).length (e.i + 1) with h | h
    · exact hp.nonzero _ (by omega) hz
    · have : (bufferText buf).length = e.i + 1 := by omega
      rw [this, hm.2.1] at hz
      omega
  refine ⟨hin, ?_⟩
  have hlenText : (bufferText e.messageBuffer).length = e.i + 2 := by
    rw [hp.length_text hlen]
    simp [ScanExit.size, hf]
  apply ext_byteAt
  · rw [hlenText, List.length_take]
    omega
  · intro j hj
    rw [hlenText] at hj
    rw [byteAt_bufferText, if_pos (by omega), byteAt_take, if_pos hj, byteAt_bufferText,
      if_pos (by omega), hb]
    split
    · rw [byteAt_set, if_neg (by omega)]
    · rfl

/-- C2. On the loop path, that is for every chunk that does not start with the
marker and holds a standalone termination line, the claim holds: the scanner
returns `true`, and the text left in the buffer, whose length is stored in
`*pSizeOfMessage` and which is the text copied into the `Message`, is the
prefix of the chunk that ends with the line break of the first standalone
marker. On the path for a marker on the first line it fails: for the chunk
`"!\nbye\n"` the text left in the buffer and the payload of the `Message`
built from it are `"!\nb"`, the byte `'b'` after the marker's line break is
retained. -/
theorem C2_text_cut_after_marker_except_on_first_line :
    (∀ (buf : Buffer) (pSizeOfMessage : Option Nat), buf.length = MSG_MAX_LEN →
      ¬ (byteAt buf 0 = 33 ∧ byteAt buf 1 = 10) →
      hasStandaloneMarker (bufferText buf) = true →
      ∃ r b j block,
        checkAndDiscardRestIfMessageHasTerminationLine (some buf) pSizeOfMessage
          = Except.ok r ∧
        r.returnValue = true ∧ r.messageBuffer = some b ∧
        standaloneMarkerAt (bufferText buf) j = true ∧
        (∀ k, k < j → standaloneMarkerAt (bufferText buf) k = false) ∧
        bufferText b = (bufferText buf).take (j + 2) ∧
        r.sizeOfMessage = storeSize pSizeOfMessage (j + 2) ∧
        copyMessageText b (j + 2) = Except.ok block ∧
        bufferText block = (bufferText buf).take (j + 2)) ∧
    (∃ r b block,
      checkAndDiscardRestIfMessageHasTerminationLine
        (some (bufferOfChunk [33, 10, 98, 121, 101, 10])) (some 0) = Except.ok r ∧
      r.returnValue = true ∧ r.sizeOfMessage = some 3 ∧ r.messageBuffer = some b ∧
      bufferText b = [33, 10, 98] ∧
      copyMessageText b 3 = Except.ok block ∧ bufferText block = [33, 10, 98]) := by
  constructor
  · intro buf pSizeOfMessage hlen hstart hhas
    have h0 : byteAt buf 0 ≠ 0 := by
      obtain ⟨j, _, hj⟩ := (hasStandaloneMarker_text_iff buf).1 hhas
      exact byteAt_ne_zero_of_lt_text buf 0 (by omega)
    obtain ⟨e, hp, he⟩ := check_of_loop buf hlen pSizeOfMessage h0 hstart
    have hf : e.isTerminationLinePresent = true := hp.found_iff.2 hhas
    obtain ⟨_, hm, _⟩ := hp.found hf
    obtain ⟨hin, htext⟩ := hp.text_of_found hlen hf
    have hlenText : (bufferText e.messageBuffer).length = e.i + 2 := by
      rw [hp.length_text hlen]
      simp [ScanExit.size, hf]
    have hcopy := copyMessageText_text e.messageBuffer
    rw [hlenText] at hcopy
    refine ⟨_, e.messageBuffer, e.i, _, he, hf, rfl, ?_, ?_, htext, ?_, hcopy, ?_⟩
    · exact (standaloneMarkerAt_iff _ _).2 ((markerIdx_text_iff buf e.i).2 ⟨hm, hin⟩)
    · intro k hk
      cases hk' : standaloneMarkerAt (bufferText buf) k with
      | false => rfl
      | true =>
        exfalso
        have := ((markerIdx_text_iff buf k).1 ((standaloneMarkerAt_iff _ _).1 hk')).1
        exact hp.noMarkerBefore k (Nat.zero_le k) hk this
    · simp [ScanExit.size, hf]
    · rw [bufferText_append_zero _ [] (ne_zero_of_mem_bufferText e.messageBuffer), htext]
  · exact ⟨_, _, _,
      check_of_start (bufferOfChunk [33, 10, 98, 121, 101, 10])
        (length_bufferOfChunk _ (by decide)) (some 0) rfl rfl,
      rfl, rfl, rfl, by decide, rfl, by decide⟩

/-- The chunk `"hello\n!\nbye\n"`, whose marker is on its second line: the
hypotheses of the first part of C2 hold there, and so does its conclusion. -/
theorem C2_witness :
    (bufferOfChunk [104, 101, 108, 108, 111, 10, 33, 10, 98, 121, 101, 10]).length
      = MSG_MAX_LEN ∧
    ¬ (byteAt (bufferOfChunk [104, 101, 108, 108, 111, 10, 33, 10, 98, 121, 101, 10]) 0 = 33 ∧
        byteAt (bufferOfChunk [104, 101, 108, 108, 111, 10, 33, 10, 98, 121, 101, 10]) 1 = 10) ∧
    hasStandaloneMarker
      (bufferText (bufferOfChunk [104, 101, 108, 108, 111, 10, 33, 10, 98, 121, 101, 10]))
      = true ∧
    ∃ r b j block,
      checkAndDiscardRestIfMessageHasTerminationLine
        (some (bufferOfChunk [104, 101, 108, 108, 111, 10, 33, 10, 98, 121, 101, 10])) (some 0)
        = Except.ok r ∧
      r.returnValue = true ∧ r.messageBuffer = some b ∧
      standaloneMarkerAt
        (bufferText (bufferOfChunk [104, 101, 108, 108, 111, 10, 33, 10, 98, 121, 101, 10])) j
        = true ∧
      (∀ k, k < j → standaloneMarkerAt
        (bufferText (bufferOfChunk [104, 101, 108, 108, 111, 10, 33, 10, 98, 121, 101, 10])) k
        = false) ∧
      bufferText b =
        (bufferText (bufferOfChunk [104, 101, 108, 108, 111, 10, 33, 10, 98, 121, 101, 10])).take
          (j + 2) ∧
      r.sizeOfMessage = storeSize (some 0) (j + 2) ∧
      copyMessageText b (j + 2) = Except.ok block ∧
      bufferText block =
        (bufferText (bufferOfChunk [104, 101, 108, 108, 111, 10, 33, 10, 98, 121, 101, 10])).take
          (j + 2) :=
  ⟨length_bufferOfChunk _ (by decide), by decide, by decide,
    C2_text_cut_after_marker_except_on_first_line.1 _ (some 0) (length_bufferOfChunk _ (by decide))
      (by decide) (by decide)⟩

/-- C3 as stated fails: on the chunk `"!\n"` the scanner does not store 0 in
`*pSizeOfMessage`. -/
theorem C3_counterexample_size_not_zero :
    ¬ ∃ r, checkAndDiscardRestIfMessageHasTerminationLine (some (bufferOfChunk [33, 10])) (some 0)
        = Except.ok r ∧ r.returnValue = true ∧ r.sizeOfMessage = some 0 := by
  rintro ⟨r, hr, _, hs⟩
  rw [check_of_start (bufferOfChunk [33, 10]) (length_bufferOfChunk _ (by decide)) (some 0)
    rfl rfl] at hr
  injection hr with hr
  rw [← hr] at hs
  simp [storeSize] at hs

/-- C3, amended. On the chunk `"!\n"` the scanner reports a termination signal
(it returns `true`), and the payload is the marker itself, not empty: the text
left in the buffer is `"!\n"`, and so is the text of the `Message` built from
the buffer with the size the scanner stored. -/
theorem C3_marker_alone_signal_with_marker_payload (v : Nat) :
    ∃ r b n block,
      checkAndDiscardRestIfMessageHasTerminationLine (some (bufferOfChunk [33, 10])) (some v)
        = Except.ok r ∧
      r.returnValue = true ∧ r.messageBuffer = some b ∧ bufferText b = [33, 10] ∧
      r.sizeOfMessage = some n ∧
      copyMessageText b n = Except.ok block ∧ bufferText block = [33, 10] :=
  ⟨_, _, _, _,
    check_of_start (bufferOfChunk [33, 10]) (length_bufferOfChunk _ (by decide)) (some v)
      rfl rfl,
    rfl, rfl, by decide, rfl, rfl, by decide⟩

theorem bufferText_append_zeros (t : List Nat) (k : Nat) (h : ∀ c, c ∈ t → c ≠ 0) :
    bufferText (t ++ List.replicate k 0) = t := by
  induction t with
  | nil =>
    cases k with
    | zero => rfl
    | succ k => simp [List.replicate_succ, bufferText_cons]
  | cons c rest ih =>
    have hc : c ≠ 0 := h c (List.mem_cons_self c rest)
    rw [List.cons_append, bufferText_cons, if_neg hc,
      ih (fun c' hc' => h c' (List.mem_cons_of_mem c hc'))]

theorem bufferText_bufferOfChunk (t : List Nat) (h : ∀ c, c ∈ t → c ≠ 0) :
    bufferText (bufferOfChunk t) = t :=
  bufferText_append_zeros t _ h

/-- C4 as stated fails for a chunk with a NUL byte. The chunk `"a\0b\n"` is
not empty and has no standalone termination line; the scanner returns `false`
and leaves the buffer as it is, but it stores the size 1, not the length 4 of
the chunk, and the text copied into the `Message` is `"a"`, not the whole
chunk. -/
theorem C4_counterexample_chunk_with_nul :
    [97, 0, 98, 10] ≠ [] ∧ hasStandaloneMarker [97, 0, 98, 10] = false ∧
    hasStandaloneMarker (bufferText (bufferOfChunk [97, 0, 98, 10])) = false ∧
    checkAndDiscardRestIfMessageHasTerminationLine (some (bufferOfChunk [97, 0, 98, 10])) (some 0)
      = Except.ok ⟨false, some (bufferOfChunk [97, 0, 98, 10]), some 1⟩ ∧
    (1 : Nat) ≠ [97, 0, 98, 10].length ∧
    copyMessageText (bufferOfChunk [97, 0, 98, 10]) 1 = Except.ok [97, 0] ∧
    bufferText [97, 0] = [97] ∧ [97] ≠ [97, 0, 98, 10] := by
  refine ⟨by decide, by decide, by decide, ?_, by decide, ?_, by decide, by decide⟩
  · rfl
  · rfl

/-- C4, amended. For every buffer whose text (the bytes before the first NUL)
is not empty and has no standalone termination line, the scanner returns
`false`, leaves every byte of the buffer as it was and stores the length of
that text in `*pSizeOfMessage` (when that pointer is not `NULL`), and the text
copied into the `Message` is that text whole. For a chunk without a NUL byte
the text of the buffer is the whole chunk, so the size is the full length of
the chunk and the payload is the whole chunk. -/
theorem C4_no_marker_keeps_whole_chunk (buf : Buffer) (hlen : buf.length = MSG_MAX_LEN)
    (pSizeOfMessage : Option Nat) (hne : bufferText buf ≠ [])
    (hno : hasStandaloneMarker (bufferText buf) = false) :
    checkAndDiscardRestIfMessageHasTerminationLine (some buf) pSizeOfMessage
      = Except.ok ⟨false, some buf, storeSize pSizeOfMessage (bufferText buf).length⟩ ∧
    (∃ block, copyMessageText buf (bufferText buf).length = Except.ok block ∧
      bufferText block = bufferText buf) ∧
    (∀ chunk : List Nat, (∀ c, c ∈ chunk → c ≠ 0) → buf = bufferOfChunk chunk →
      bufferText buf = chunk ∧ (bufferText buf).length = chunk.length) := by
  refine ⟨?_, ⟨_, copyMessageText_text buf,
    bufferText_append_zero _ [] (ne_zero_of_mem_bufferText buf)⟩, ?_⟩
  · have hpos : 0 < (bufferText buf).length := List.length_pos.mpr hne
    have h0 : byteAt buf 0 ≠ 0 := byteAt_ne_zero_of_lt_text buf 0 hpos
    obtain ⟨r, hr, hiff⟩ := check_returnValue_iff buf hlen pSizeOfMessage
    have hfalse : r.returnValue = false := by
      cases hrv : r.returnValue with
      | false => rfl
      | true => rw [hiff.1 hrv] at hno; cases hno
    by_cases hstart : byteAt buf 0 = 33 ∧ byteAt buf 1 = 10
    · rw [check_of_start buf hlen pSizeOfMessage hstart.1 hstart.2] at hr
      injection hr with hr
      rw [← hr] at hfalse
      cases hfalse
    · obtain ⟨e, hp, he⟩ := check_of_loop buf hlen pSizeOfMessage h0 hstart
      rw [he] at hr
      injection hr with hr
      rw [← hr] at hfalse
      have hf : e.isTerminationLinePresent = false := hfalse
      rw [he, ← hp.length_text hlen, (hp.notFound hf).1, hf]
  · intro chunk hnz hbuf
    rw [hbuf, bufferText_bufferOfChunk chunk hnz]
    exact ⟨rfl, rfl⟩

/-- The chunk `"he!lo\n"`, whose `'!'` is not alone on its line, satisfies the
hypotheses of C4, and its conclusion holds there: the size stored is 6, the
length of the chunk. -/
theorem C4_witness :
    (bufferOfChunk [104, 101, 33, 108, 111, 10]).length = MSG_MAX_LEN ∧
    bufferText (bufferOfChunk [104, 101, 33, 108, 111, 10]) ≠ [] ∧
    hasStandaloneMarker (bufferText (bufferOfChunk [104, 101, 33, 108, 111, 10])) = false ∧
    checkAndDiscardRestIfMessageHasTerminationLine
        (some (bufferOfChunk [104, 101, 33, 108, 111, 10])) (some 0)
      = Except.ok ⟨false, some (bufferOfChunk [104, 101, 33, 108, 111, 10]),
          storeSize (some 0) (bufferText (bufferOfChunk [104, 101, 33, 108, 111, 10])).length⟩ ∧
    bufferText (bufferOfChunk [104, 101, 33, 108, 111, 10]) = [104, 101, 33, 108, 111, 10] ∧
    (bufferText (bufferOfChunk [104, 101, 33, 108, 111, 10])).length
      = [104, 101, 33, 108, 111, 10].length :=
  ⟨length_bufferOfChunk _ (by decide), by decide, by decide,
    (C4_no_marker_keeps_whole_chunk _ (length_bufferOfChunk _ (by decide)) (some 0)
      (by decide) (by decide)).1,
    (C4_no_marker_keeps_whole_chunk _ (length_bufferOfChunk _ (by decide)) (some 0)
      (by decide) (by decide)).2.2 [104, 101, 33, 108, 111, 10] (by decide) rfl⟩

/-! ## The shutdown coordinator -/

theorem requestShutdown_of_requested (createStatus : Int) (w : World)
    (h : w.isShutdownRequested = true) :
    requestShutdownOfAllThreadsForProgram createStatus w = ([], w) := by
  cases w
  simp only at h
  simp [requestShutdownOfAllThreadsForProgram, h]

theorem requestShutdown_sets_flag (createStatus : Int) (w : World) :
    (requestShutdownOfAllThreadsForProgram createStatus w).2.isShutdownRequested = true := by
  unfold requestShutdownOfAllThreadsForProgram
  simp only
  split
  · rfl
  · split <;> rfl

theorem requestShutdownCalls_of_requested (statuses : List Int) (w : World)
    (h : w.isShutdownRequested = true) : requestShutdownCalls statuses w = ([], w) := by
  induction statuses with
  | nil => rfl
  | cons s rest ih =>
    unfold requestShutdownCalls
    simp only [requestShutdown_of_requested s w h, ih, List.append_nil]

/-- C5 as stated fails: when `pthread_create` fails in the first call (status
11, `EAGAIN`), no shutdown helper thread is started at all, by that call or by
the two calls that follow it. -/
theorem C5_counterexample_no_helper_started :
    helpersStarted (requestShutdownCalls [11, 0, 0] World.initial).1 ≠ 1 := by
  decide

/-- C5, amended. In every sequence of one or more calls of
`requestShutdownOfAllThreadsForProgram` that starts with the flag `false`, the
creation of the shutdown helper is attempted exactly once, by the first call,
and the helper is started exactly once if that `pthread_create` succeeds and
never if it fails; every later call does nothing and changes no state; the
flag is `true` after every call. -/
theorem C5_request_shutdown_idempotent (createStatus : Int) (rest : List Int) (w : World)
    (h : w.isShutdownRequested = false) :
    requestShutdownCalls (createStatus :: rest) w
        = requestShutdownOfAllThreadsForProgram createStatus w ∧
    helperCreations (requestShutdownCalls (createStatus :: rest) w).1 = 1 ∧
    helpersStarted (requestShutdownCalls (createStatus :: rest) w).1
        = (if createStatus = 0 then 1 else 0) ∧
    (∀ laterStatus, requestShutdownOfAllThreadsForProgram laterStatus
        (requestShutdownOfAllThreadsForProgram createStatus w).2
        = ([], (requestShutdownOfAllThreadsForProgram createStatus w).2)) ∧
    (∀ anyStatus (anyWorld : World),
      (requestShutdownOfAllThreadsForProgram anyStatus anyWorld).2.isShutdownRequested
        = true) := by
  have hcalls : requestShutdownCalls (createStatus :: rest) w
      = requestShutdownOfAllThreadsForProgram createStatus w := by
    unfold requestShutdownCalls
    simp only [requestShutdownCalls_of_requested rest _ (requestShutdown_sets_flag createStatus w),
      List.append_nil]
  refine ⟨hcalls, ?_, ?_, ?_, requestShutdown_sets_flag⟩
  · rw [hcalls]
    unfold requestShutdownOfAllThreadsForProgram helperCreations
    simp only [h]
    by_cases hs : createStatus = 0 <;> simp [hs]
  · rw [hcalls]
    unfold requestShutdownOfAllThreadsForProgram helpersStarted
    simp only [h]
    by_cases hs : createStatus = 0
    · simp [hs]
    · simp only [hs, ne_eq, not_false_eq_true, if_true, if_false]
      rw [List.count_eq_zero]
      intro hmem
      rcases List.mem_cons.mp hmem with hmem | hmem
      · injection hmem with hmem
        exact hs hmem.symm
      · rcases List.mem_cons.mp hmem with hmem | hmem
        · cases hmem
        · cases hmem
  · intro laterStatus
    exact requestShutdown_of_requested laterStatus _ (requestShutdown_sets_flag createStatus w)

/-- Three calls from the initial globals, the first of which creates the
helper: the hypothesis of C5 holds and so does its conclusion. -/
theorem C5_witness :
    World.initial.isShutdownRequested = false ∧
    requestShutdownCalls [0, 0, 11] World.initial
        = requestShutdownOfAllThreadsForProgram 0 World.initial ∧
    helperCreations (requestShutdownCalls [0, 0, 11] World.initial).1 = 1 ∧
    helpersStarted (requestShutdownCalls [0, 0, 11] World.initial).1 = 1 :=
  ⟨rfl, (C5_request_shutdown_idempotent 0 [0, 11] World.initial rfl).1,
    (C5_request_shutdown_idempotent 0 [0, 11] World.initial rfl).2.1,
    (C5_request_shutdown_idempotent 0 [0, 11] World.initial rfl).2.2.1⟩

theorem shutdownThreadWithPid_events (worker : Worker) (cancelStatus joinStatus : Int) :
    (shutdownThreadWithPid worker cancelStatus joinStatus).2
      = [Event.cancel worker, Event.join worker] := by
  unfold shutdownThreadWithPid
  simp only
  split <;> rfl

theorem printShutdownStatusErrors_no_step (threadName : String) (status : ShutdownStatus) :
    (printShutdownStatusErrors threadName status).filter Event.isTeardownStep = [] := by
  cases status <;> rfl

/-- C6. Whatever `pthread_cancel`, `pthread_join` and `close` return, the
shutdown helper performs the same steps in the same order: the rendezvous on
the shutdown barrier, then cancel and join of the screen printer, of the
keyboard reader, of the listener and of the sender, and last the close of the
socket, which happens exactly when `s_socketDescriptor` is not -1. -/
theorem C6_teardown_steps_in_order (env : TeardownEnv) (w : World) :
    (shutdownOfAllThreadsForProgram env w).filter Event.isTeardownStep =
      [Event.barrierWait Barrier.allThreadsGoingToShutdown,
        Event.cancel Worker.screenPrinter, Event.join Worker.screenPrinter,
        Event.cancel Worker.keyboardReader, Event.join Worker.keyboardReader,
        Event.cancel Worker.listener, Event.join Worker.listener,
        Event.cancel Worker.sender, Event.join Worker.sender]
      ++ (if w.socketDescriptor ≠ -1 then [Event.close w.socketDescriptor] else []) := by
  unfold shutdownOfAllThreadsForProgram queueWorkerShutdown
  simp only [shutdownThreadWithPid_events, List.filter_append, printShutdownStatusErrors_no_step]
  by_cases hsock : w.socketDescriptor = -1
  · simp [hsock, List.filter, Event.isTeardownStep]
  · by_cases hclose : env.closeStatus = -1 <;>
      simp [hsock, hclose, List.filter, Event.isTeardownStep]

/-! ## Enqueue -/

theorem strncpy_eq_ok (dest src : Buffer) (n : Nat)
    (hsrc : ((src.take n).takeWhile (fun c => c != 0)).length < n →
      ((src.take n).takeWhile (fun c => c != 0)).length < src.length)
    (hdest : 0 < n → n - 1 < dest.length) :
    strncpy dest src n = Except.ok
      (((src.take n).takeWhile (fun c => c != 0))
        ++ List.replicate (n - ((src.take n).takeWhile (fun c => c != 0)).length) 0
        ++ dest.drop n) := by
  unfold strncpy
  simp only
  have h1 : (decide (((src.take n).takeWhile (fun c => c != 0)).length < n) &&
      (src.get? ((src.take n).takeWhile (fun c => c != 0)).length).isNone) = false := by
    by_cases hlt : ((src.take n).takeWhile (fun c => c != 0)).length < n
    · have := hsrc hlt
      rw [List.get?_eq_getElem?, List.getElem?_eq_getElem this]
      simp
    · simp [hlt]
  have h2 : (decide (0 < n) && (dest.get? (n - 1)).isNone) = false := by
    by_cases hpos : 0 < n
    · have := hdest hpos
      rw [List.get?_eq_getElem?, List.getElem?_eq_getElem this]
      simp
    · simp [hpos]
  rw [h1, h2]
  simp

theorem length_takeWhile_take_le (src : Buffer) (n : Nat) :
    ((src.take n).takeWhile (fun c => c != 0)).length ≤ n := by
  calc ((src.take n).takeWhile (fun c => c != 0)).length
      ≤ (src.take n).length := (List.takeWhile_sublist _).length_le
    _ ≤ n := by rw [List.length_take]; exact Nat.min_le_left _ _

/-- The copy of the first `n` bytes of a buffer that has them never faults. -/
theorem copyMessageText_ok (buffer : Buffer) (n : Nat) (h : n ≤ buffer.length) :
    ∃ text, copyMessageText buffer n = Except.ok text := by
  unfold copyMessageText
  refine ⟨_, strncpy_eq_ok _ buffer n (fun hlt => by omega) (fun _ => ?_)⟩
  rw [List.length_replicate]
  omega

theorem count_freeMessage_freeMessageFn (p : MessagePtr) :
    (freeMessageFn (some p)).count (Event.freeMessage p.addr) = 1 := by
  unfold freeMessageFn
  simp only
  split <;> simp [List.count_cons]

theorem List_append_fail_iff (freeNodes : Nat) (pList : CList) (p : MessagePtr) :
    (List_append freeNodes pList p).1 = LIST_FAIL ↔ freeNodes = 0 := by
  cases freeNodes with
  | zero => simp [List_append]
  | succ n => simp [List_append, LIST_FAIL]

theorem ScreenPrinter_put_of_full (p : MessagePtr) (w : World) (q : CList)
    (hq : w.pInMessageQueue = some q) (hn : w.freeNodes = 0) :
    ScreenPrinter_putMessageOnQueue p w = Except.ok (false,
      [Event.print "**The receiving message queue is too large!**\n",
        Event.print
          "**The most recent message will be dropped, please tell the other to resend**\n",
        Event.setcancelstate true] ++ freeMessageFn (some p),
      { w with freeNodes := 0, pInMessageQueue := some q }) := by
  unfold ScreenPrinter_putMessageOnQueue
  rw [hq, hn]
  rfl

theorem ScreenPrinter_put_of_room (p : MessagePtr) (w : World) (q : CList) (n : Nat)
    (hq : w.pInMessageQueue = some q) (hn : w.freeNodes = n + 1) :
    ScreenPrinter_putMessageOnQueue p w = Except.ok (true,
      [Event.condSignal Worker.screenPrinter],
      { w with freeNodes := n,
               pInMessageQueue := some ⟨q.items ++ [p], some q.items.length⟩ }) := by
  unfold ScreenPrinter_putMessageOnQueue
  rw [hq, hn]
  rfl

theorem createMessage_of_full (buf : Buffer) (size : Nat) (flag : Bool) (w : World)
    (q : CList) (text : Buffer) (hq : w.outMessageQueue = some q)
    (htext : copyMessageText buf size = Except.ok text) (hn : w.freeNodes = 0) :
    createMessageFromBufferAndPutOnQueue buf size flag w = Except.ok (false,
      [Event.setcancelstate false,
        Event.print "**The sending message queue is too large!**\n",
        Event.print "**Your most recent message will be dropped, please try resending**\n"]
        ++ freeMessageFn (some ⟨w.nextAddr, ⟨some text, flag⟩⟩) ++ [Event.setcancelstate true],
      { w with nextAddr := w.nextAddr + 1, freeNodes := 0, outMessageQueue := some q }) := by
  unfold createMessageFromBufferAndPutOnQueue
  rw [hq]
  simp only [htext]
  rw [hn]
  rfl

theorem createMessage_of_room (buf : Buffer) (size : Nat) (flag : Bool) (w : World)
    (q : CList) (text : Buffer) (n : Nat) (hq : w.outMessageQueue = some q)
    (htext : copyMessageText buf size = Except.ok text) (hn : w.freeNodes = n + 1) :
    createMessageFromBufferAndPutOnQueue buf size flag w = Except.ok (true,
      [Event.setcancelstate false, Event.condSignal Worker.keyboardReader],
      { w with nextAddr := w.nextAddr + 1, freeNodes := n,
               outMessageQueue := some ⟨q.items ++ [⟨w.nextAddr, ⟨some text, flag⟩⟩],
                 some q.items.length⟩ }) := by
  unfold createMessageFromBufferAndPutOnQueue
  rw [hq]
  simp only [htext]
  rw [hn]
  rfl

theorem dropNewest_of_full (q : CList) (p : MessagePtr) (events : List Event)
    (hcount : events.count (Event.freeMessage p.addr) = 1)
    (hfresh : ∀ x, x ∈ q.items → x.addr ≠ p.addr) :
    DropNewest (List_append 0 q p).1 q p false events (some q) :=
  ⟨fun _ => ⟨rfl, rfl, hcount, hfresh⟩,
    fun h => absurd ((List_append_fail_iff 0 q p).2 rfl) h⟩

theorem dropNewest_of_room (q : CList) (p : MessagePtr) (n : Nat) (events : List Event)
    (hcount : events.count (Event.freeMessage p.addr) = 0) :
    DropNewest (List_append (n + 1) q p).1 q p true events
      (some ⟨q.items ++ [p], some q.items.length⟩) := by
  refine ⟨fun h => ?_, fun _ => ⟨rfl, hcount, _, rfl, rfl, ?_, ?_⟩⟩
  · have := (List_append_fail_iff (n + 1) q p).1 h
    omega
  · simp
  · simp [List_count]

theorem ScreenPrinter_putMessageOnQueue_dropNewest (p : MessagePtr) (w : World) (q : CList)
    (hq : w.pInMessageQueue = some q) (hfresh : ∀ x, x ∈ q.items → x.addr ≠ p.addr) :
    ∃ ret events w', ScreenPrinter_putMessageOnQueue p w = Except.ok (ret, events, w') ∧
      DropNewest (List_append w.freeNodes q p).1 q p ret events w'.pInMessageQueue := by
  cases hn : w.freeNodes with
  | zero =>
    refine ⟨_, _, _, ScreenPrinter_put_of_full p w q hq hn, ?_⟩
    apply dropNewest_of_full q p _ _ hfresh
    rw [List.count_append, count_freeMessage_freeMessageFn]
    simp [List.count_cons]
  | succ n =>
    refine ⟨_, _, _, ScreenPrinter_put_of_room p w q n hq hn, ?_⟩
    apply dropNewest_of_room q p n
    simp [List.count_cons]

theorem createMessage_dropNewest (buf : Buffer) (size : Nat) (flag : Bool) (w : World)
    (q : CList) (hq : w.outMessageQueue = some q) (hsize : size ≤ buf.length)
    (hfresh : ∀ x, x ∈ q.items → x.addr < w.nextAddr) :
    ∃ ret events w',
      createMessageFromBufferAndPutOnQueue buf size flag w = Except.ok (ret, events, w') ∧
      DropNewest (List_append w.freeNodes q (builtMessage buf size flag w)).1 q
        (builtMessage buf size flag w) ret events w'.outMessageQueue := by
  obtain ⟨text, htext⟩ := copyMessageText_ok buf size hsize
  have hbuilt : builtMessage buf size flag w = ⟨w.nextAddr, ⟨some text, flag⟩⟩ := by
    simp [builtMessage, htext, Except.toOption]
  rw [hbuilt]
  have hfresh' : ∀ x, x ∈ q.items →
      x.addr ≠ (⟨w.nextAddr, ⟨some text, flag⟩⟩ : MessagePtr).addr := by
    intro x hx
    have := hfresh x hx
    simp only
    omega
  cases hn : w.freeNodes with
  | zero =>
    refine ⟨_, _, _, createMessage_of_full buf size flag w q text hq htext hn, ?_⟩
    apply dropNewest_of_full q _ _ _ hfresh'
    rw [List.count_append, List.count_append, count_freeMessage_freeMessageFn]
    simp [List.count_cons]
  | succ n =>
    refine ⟨_, _, _, createMessage_of_room buf size flag w q text n hq htext hn, ?_⟩
    apply dropNewest_of_room q _ n
    simp [List.count_cons]

/-- C7. Both enqueue operations are drop-newest. For
`ScreenPrinter_putMessageOnQueue`, called with a `Message` the queue does not
hold, and for `createMessageFromBufferAndPutOnQueue`, which builds its
`Message` at a fresh address: when `List_append` returns `LIST_FAIL` the
operation returns `false`, the queue (contents, count) is as it was, the
`Message` is freed exactly once and the queue holds no reference to it; when
`List_append` succeeds the operation returns `true` and the `Message` is the
new last element of the queue. -/
theorem C7_enqueue_is_drop_newest :
    (∀ (p : MessagePtr) (w : World) (q : CList), w.pInMessageQueue = some q →
      (∀ x, x ∈ q.items → x.addr ≠ p.addr) →
      ∃ ret events w', ScreenPrinter_putMessageOnQueue p w = Except.ok (ret, events, w') ∧
        DropNewest (List_append w.freeNodes q p).1 q p ret events w'.pInMessageQueue) ∧
    (∀ (buf : Buffer) (size : Nat) (flag : Bool) (w : World) (q : CList),
      w.outMessageQueue = some q → size ≤ buf.length →
      (∀ x, x ∈ q.items → x.addr < w.nextAddr) →
      ∃ ret events w',
        createMessageFromBufferAndPutOnQueue buf size flag w = Except.ok (ret, events, w') ∧
        DropNewest (List_append w.freeNodes q (builtMessage buf size flag w)).1 q
          (builtMessage buf size flag w) ret events w'.outMessageQueue) :=
  ⟨ScreenPrinter_putMessageOnQueue_dropNewest, createMessage_dropNewest⟩

/-- Two rejected enqueues, one on each queue, with the node pool exhausted:
the hypotheses of C7 hold there, `false` is returned, the queues stay as they
were and the `Message` is freed exactly once. -/
theorem C7_witness :
    (∃ ret events w',
      ScreenPrinter_putMessageOnQueue ⟨7, ⟨some [104, 105, 10, 0], false⟩⟩
        { World.initial with freeNodes := 0 } = Except.ok (ret, events, w') ∧
      ret = false ∧ w'.pInMessageQueue = some ⟨[], none⟩ ∧
      events.count (Event.freeMessage 7) = 1) ∧
    (∃ ret events w',
      createMessageFromBufferAndPutOnQueue (bufferOfChunk [104, 105, 10]) 3 false
        { World.initial with freeNodes := 0 } = Except.ok (ret, events, w') ∧
      ret = false ∧ w'.outMessageQueue = some ⟨[], none⟩ ∧
      events.count (Event.freeMessage 0) = 1) := by
  constructor
  · obtain ⟨ret, events, w', h, hd⟩ := C7_enqueue_is_drop_newest.1
      ⟨7, ⟨some [104, 105, 10, 0], false⟩⟩ { World.initial with freeNodes := 0 } ⟨[], none⟩ rfl
      (fun x hx => by cases hx)
    obtain ⟨h1, h2, h3, _⟩ := hd.1 rfl
    exact ⟨ret, events, w', h, h1, h2, h3⟩
  · obtain ⟨ret, events, w', h, hd⟩ := C7_enqueue_is_drop_newest.2
      (bufferOfChunk [104, 105, 10]) 3 false { World.initial with freeNodes := 0 } ⟨[], none⟩ rfl
      (by rw [length_bufferOfChunk _ (by decide)]; decide)
      (fun x hx => by cases hx)
    obtain ⟨h1, h2, h3, _⟩ := hd.1 rfl
    exact ⟨ret, events, w', h, h1, h2, h3⟩

/-! ## Dequeue and the order of the queues -/

theorem dequeueMessage_nil (freeNodes : Nat) (q : CList) (h : q.items = []) :
    dequeueMessage freeNodes q = (Dequeued.blocked, [], freeNodes, q) := by
  simp [dequeueMessage, List_count, h]

theorem dequeueMessage_cons (freeNodes : Nat) (q : CList) (p : MessagePtr)
    (rest : List MessagePtr) (h : q.items = p :: rest) :
    dequeueMessage freeNodes q =
      (Dequeued.returned (some p),
        Event.setcancelstate false ::
          (if isNullOrWithoutText (some p) then [Event.setcancelstate true] else []),
        freeNodes + 1,
        ⟨rest, if 0 < rest.length then some 0 else none⟩) := by
  cases q with
  | mk items current =>
    simp only at h
    subst h
    simp [dequeueMessage, List_count, List_first, List_remove]

theorem World.eta_pIn (w : World) (q : CList) (h : w.pInMessageQueue = some q) :
    { w with freeNodes := w.freeNodes, pInMessageQueue := some q } = w := by
  cases w
  simp only at h
  simp [h]

theorem World.eta_out (w : World) (q : CList) (h : w.outMessageQueue = some q) :
    { w with freeNodes := w.freeNodes, outMessageQueue := some q } = w := by
  cases w
  simp only at h
  simp [h]

theorem getMessageFromQueue_nil (w : World) (q : CList) (hq : w.pInMessageQueue = some q)
    (h : q.items = []) : getMessageFromQueue w = (Dequeued.blocked, [], w) := by
  unfold getMessageFromQueue
  rw [hq]
  simp only [dequeueMessage_nil w.freeNodes q h, World.eta_pIn w q hq]

theorem getMessageFromQueue_cons (w : World) (q : CList) (p : MessagePtr)
    (rest : List MessagePtr) (hq : w.pInMessageQueue = some q) (h : q.items = p :: rest) :
    getMessageFromQueue w =
      (Dequeued.returned (some p),
        Event.setcancelstate false ::
          (if isNullOrWithoutText (some p) then [Event.setcancelstate true] else []),
        { w with freeNodes := w.freeNodes + 1,
                 pInMessageQueue :=
                   some ⟨rest, if 0 < rest.length then some 0 else none⟩ }) := by
  unfold getMessageFromQueue
  rw [hq]
  simp only [dequeueMessage_cons w.freeNodes q p rest h]

theorem KeyboardReader_getMessageFromQueue_nil (w : World) (q : CList)
    (hq : w.outMessageQueue = some q) (h : q.items = []) :
    KeyboardReader_getMessageFromQueue w = (Dequeued.blocked, [], w) := by
  unfold KeyboardReader_getMessageFromQueue
  rw [hq]
  simp only [dequeueMessage_nil w.freeNodes q h, World.eta_out w q hq]

theorem KeyboardReader_getMessageFromQueue_cons (w : World) (q : CList) (p : MessagePtr)
    (rest : List MessagePtr) (hq : w.outMessageQueue = some q) (h : q.items = p :: rest) :
    KeyboardReader_getMessageFromQueue w =
      (Dequeued.returned (some p),
        Event.setcancelstate false ::
          (if isNullOrWithoutText (some p) then [Event.setcancelstate true] else []),
        { w with freeNodes := w.freeNodes + 1,
                 outMessageQueue :=
                   some ⟨rest, if 0 < rest.length then some 0 else none⟩ }) := by
  unfold KeyboardReader_getMessageFromQueue
  rw [hq]
  simp only [dequeueMessage_cons w.freeNodes q p rest h]

/-- Any sequence of operations on the inbound queue runs without fault, and
what was in the queue followed by what was accepted is what was dequeued
followed by what is left. -/
theorem runInQueueOps_fifo (ops : List InQueueOp) :
    ∀ (w : World) (q : CList), w.pInMessageQueue = some q →
      ∃ r q', runInQueueOps ops w = Except.ok r ∧ r.world.pInMessageQueue = some q' ∧
        (q.items ++ r.accepted).map some = r.dequeued ++ q'.items.map some := by
  induction ops with
  | nil =>
    intro w q hq
    exact ⟨⟨[], [], w⟩, q, rfl, hq, by simp⟩
  | cons op ops ih =>
    intro w q hq
    cases op with
    | put p =>
      cases hn : w.freeNodes with
      | zero =>
        obtain ⟨r, q', hr, hq', hfifo⟩ :=
          ih { w with freeNodes := 0, pInMessageQueue := some q } q rfl
        refine ⟨⟨[] ++ r.accepted, r.dequeued, r.world⟩, q', ?_, hq', by simpa using hfifo⟩
        simp [runInQueueOps, ScreenPrinter_put_of_full p w q hq hn, hr]
      | succ n =>
        obtain ⟨r, q', hr, hq', hfifo⟩ :=
          ih { w with freeNodes := n,
                      pInMessageQueue := some ⟨q.items ++ [p], some q.items.length⟩ } _ rfl
        refine ⟨⟨[p] ++ r.accepted, r.dequeued, r.world⟩, q', ?_, hq', ?_⟩
        · simp [runInQueueOps, ScreenPrinter_put_of_room p w q n hq hn, hr]
        · simpa using hfifo
    | get =>
      cases hitems : q.items with
      | nil =>
        obtain ⟨r, q', hr, hq', hfifo⟩ := ih w q hq
        refine ⟨r, q', ?_, hq', by rw [hitems] at hfifo; exact hfifo⟩
        simp [runInQueueOps, getMessageFromQueue_nil w q hq hitems, hr]
      | cons p rest =>
        obtain ⟨r, q', hr, hq', hfifo⟩ :=
          ih { w with freeNodes := w.freeNodes + 1,
                      pInMessageQueue :=
                        some ⟨rest, if 0 < rest.length then some 0 else none⟩ } _ rfl
        refine ⟨⟨r.accepted, some p :: r.dequeued, r.world⟩, q', ?_, hq', ?_⟩
        · simp [runInQueueOps, getMessageFromQueue_cons w q p rest hq hitems, hr]
        · simp only at hfifo
          simp [hfifo]

/-- Any sequence of operations on the outbound queue whose copies stay inside
their buffers runs without fault, and what was in the queue followed by what
was accepted is what was dequeued followed by what is left. -/
theorem runOutQueueOps_fifo (ops : List OutQueueOp) :
    ∀ (w : World) (q : CList), w.outMessageQueue = some q →
      (∀ op, op ∈ ops → op.inBounds) →
      ∃ r q', runOutQueueOps ops w = Except.ok r ∧ r.world.outMessageQueue = some q' ∧
        (q.items ++ r.accepted).map some = r.dequeued ++ q'.items.map some := by
  induction ops with
  | nil =>
    intro w q hq _
    exact ⟨⟨[], [], w⟩, q, rfl, hq, by simp⟩
  | cons op ops ih =>
    intro w q hq hin
    have hin' : ∀ o, o ∈ ops → o.inBounds := fun o ho => hin o (List.mem_cons_of_mem op ho)
    cases op with
    | put buf size flag =>
      have hsize : size ≤ buf.length := hin _ (List.mem_cons_self _ _)
      obtain ⟨text, htext⟩ := copyMessageText_ok buf size hsize
      have hbuilt : builtMessage buf size flag w = ⟨w.nextAddr, ⟨some text, flag⟩⟩ := by
        simp [builtMessage, htext, Except.toOption]
      cases hn : w.freeNodes with
      | zero =>
        obtain ⟨r, q', hr, hq', hfifo⟩ :=
          ih { w with nextAddr := w.nextAddr + 1, freeNodes := 0, outMessageQueue := some q }
            q rfl hin'
        refine ⟨⟨[] ++ r.accepted, r.dequeued, r.world⟩, q', ?_, hq', by simpa using hfifo⟩
        simp [runOutQueueOps, createMessage_of_full buf size flag w q text hq htext hn, hr]
      | succ n =>
        obtain ⟨r, q', hr, hq', hfifo⟩ :=
          ih { w with nextAddr := w.nextAddr + 1, freeNodes := n,
                      outMessageQueue := some ⟨q.items ++ [⟨w.nextAddr, ⟨some text, flag⟩⟩],
                        some q.items.length⟩ } _ rfl hin'
        refine ⟨⟨[⟨w.nextAddr, ⟨some text, flag⟩⟩] ++ r.accepted, r.dequeued, r.world⟩, q',
          ?_, hq', ?_⟩
        · simp [runOutQueueOps, createMessage_of_room buf size flag w q text n hq htext hn, hr,
            hbuilt]
        · simpa using hfifo
    | get =>
      cases hitems : q.items with
      | nil =>
        obtain ⟨r, q', hr, hq', hfifo⟩ := ih w q hq hin'
        refine ⟨r, q', ?_, hq', by rw [hitems] at hfifo; exact hfifo⟩
        simp [runOutQueueOps, KeyboardReader_getMessageFromQueue_nil w q hq hitems, hr]
      | cons p rest =>
        obtain ⟨r, q', hr, hq', hfifo⟩ :=
          ih { w with freeNodes := w.freeNodes + 1,
                      outMessageQueue :=
                        some ⟨rest, if 0 < rest.length then some 0 else none⟩ } _ rfl hin'
        refine ⟨⟨r.accepted, some p :: r.dequeued, r.world⟩, q', ?_, hq', ?_⟩
        · simp [runOutQueueOps, KeyboardReader_getMessageFromQueue_cons w q p rest hq hitems, hr]
        · simp only at hfifo
          simp [hfifo]

/-- C8. Both queues are first in, first out. A dequeue
(`KeyboardReader_getMessageFromQueue`, the screen printer's
`getMessageFromQueue`) on a queue that is not empty returns the oldest
message, the head of the queue, and removes exactly that message; and over
every sequence of enqueues and dequeues on one queue, the messages dequeued,
in the order of the calls, followed by what is left in the queue, are the
messages that were in the queue followed by the accepted ones in the order in
which they were accepted. -/
theorem C8_queues_are_fifo :
    (∀ (w : World) (q : CList) (p : MessagePtr) (rest : List MessagePtr),
      w.outMessageQueue = some q → q.items = p :: rest →
      ∃ events w' q', KeyboardReader_getMessageFromQueue w
          = (Dequeued.returned (some p), events, w') ∧
        w'.outMessageQueue = some q' ∧ q'.items = rest) ∧
    (∀ (w : World) (q : CList) (p : MessagePtr) (rest : List MessagePtr),
      w.pInMessageQueue = some q → q.items = p :: rest →
      ∃ events w' q', getMessageFromQueue w = (Dequeued.returned (some p), events, w') ∧
        w'.pInMessageQueue = some q' ∧ q'.items = rest) ∧
    (∀ (ops : List OutQueueOp) (w : World) (q : CList), w.outMessageQueue = some q →
      (∀ op, op ∈ ops → op.inBounds) →
      ∃ r q', runOutQueueOps ops w = Except.ok r ∧ r.world.outMessageQueue = some q' ∧
        (q.items ++ r.accepted).map some = r.dequeued ++ q'.items.map some) ∧
    (∀ (ops : List InQueueOp) (w : World) (q : CList), w.pInMessageQueue = some q →
      ∃ r q', runInQueueOps ops w = Except.ok r ∧ r.world.pInMessageQueue = some q' ∧
        (q.items ++ r.accepted).map some = r.dequeued ++ q'.items.map some) :=
  ⟨fun w q p rest hq h =>
      ⟨_, _, _, KeyboardReader_getMessageFromQueue_cons w q p rest hq h, rfl, rfl⟩,
    fun w q p rest hq h => ⟨_, _, _, getMessageFromQueue_cons w q p rest hq h, rfl, rfl⟩,
    fun ops => runOutQueueOps_fifo ops,
    fun ops => runInQueueOps_fifo ops⟩

/-- Three messages put on the empty inbound queue, with dequeues in between
and one dequeue too many: the messages come out in the order they went in. -/
theorem C8_witness :
    (∃ r q',
      runInQueueOps
        [InQueueOp.put ⟨1, ⟨some [97, 0], false⟩⟩, InQueueOp.put ⟨2, ⟨some [98, 0], false⟩⟩,
          InQueueOp.get, InQueueOp.put ⟨3, ⟨some [99, 0], true⟩⟩, InQueueOp.get,
          InQueueOp.get, InQueueOp.get] World.initial = Except.ok r ∧
      r.world.pInMessageQueue = some q' ∧
      (([] : List MessagePtr) ++ r.accepted).map some = r.dequeued ++ q'.items.map some) ∧
    (runInQueueOps
        [InQueueOp.put ⟨1, ⟨some [97, 0], false⟩⟩, InQueueOp.put ⟨2, ⟨some [98, 0], false⟩⟩,
          InQueueOp.get, InQueueOp.put ⟨3, ⟨some [99, 0], true⟩⟩, InQueueOp.get,
          InQueueOp.get, InQueueOp.get] World.initial).toOption.map QueueRun.dequeued
      = some [some ⟨1, ⟨some [97, 0], false⟩⟩, some ⟨2, ⟨some [98, 0], false⟩⟩,
          some ⟨3, ⟨some [99, 0], true⟩⟩] :=
  ⟨C8_queues_are_fifo.2.2.2 _ World.initial ⟨[], none⟩ rfl, by decide⟩

/-! ## The producers -/

/-- The scanner returns on every buffer of `MSG_MAX_LEN` bytes, with a buffer
of `MSG_MAX_LEN` bytes and a size of at most `MSG_MAX_LEN`. -/
theorem check_result_wf (buf : Buffer) (hlen : buf.length = MSG_MAX_LEN)
    (pSizeOfMessage : Option Nat) :
    ∃ r b, checkAndDiscardRestIfMessageHasTerminationLine (some buf) pSizeOfMessage
        = Except.ok r ∧
      r.messageBuffer = some b ∧ b.length = MSG_MAX_LEN ∧ r.sizeOfMessage.getD 0 ≤ MSG_MAX_LEN := by
  have h4 := four_le_MSG_MAX_LEN
  by_cases h0 : byteAt buf 0 = 0
  · refine ⟨_, buf, check_of_empty buf hlen pSizeOfMessage h0, rfl, hlen, ?_⟩
    cases pSizeOfMessage <;> simp [storeSize]
  · by_cases hstart : byteAt buf 0 = 33 ∧ byteAt buf 1 = 10
    · refine ⟨_, _, check_of_start buf hlen pSizeOfMessage hstart.1 hstart.2, rfl, ?_, ?_⟩
      · rw [List.length_set, hlen]
      · cases pSizeOfMessage with
        | none => simp [storeSize]
        | some v =>
          simp only [storeSize, Option.getD_some]
          omega
    · obtain ⟨e, hp, he⟩ := check_of_loop buf hlen pSizeOfMessage h0 hstart
      refine ⟨_, _, he, rfl, by rw [hp.length_eq, hlen], ?_⟩
      have hsize : e.size ≤ MSG_MAX_LEN := by
        unfold ScanExit.size
        cases hf : e.isTerminationLinePresent with
        | false =>
          have := hp.lt
          simp only [Bool.false_eq_true, if_false]
          omega
        | true =>
          obtain ⟨_, hm, _⟩ := hp.found hf
          have : e.i + 1 < buf.length := by
            apply lt_length_of_byteAt_ne_zero
            rw [hm.2.1]
            decide
          simp only [if_true]
          omega
      cases pSizeOfMessage <;> simp [storeSize, hsize]

theorem count_requestShutdown_call (createStatus : Int) (w : World) :
    (callRequestShutdown createStatus w).1.count Event.requestShutdown = 1 := by
  unfold callRequestShutdown requestShutdownOfAllThreadsForProgram
  simp only
  split
  · simp
  · split <;> simp [List.count_cons]

theorem count_requestShutdown_freeMessageFn (p : Option MessagePtr) :
    (freeMessageFn p).count Event.requestShutdown = 0 := by
  unfold freeMessageFn
  cases p with
  | none => rfl
  | some p =>
    simp only
    split <;> simp [List.count_cons]

/-- The keyboard reader's enqueue calls no shutdown and leaves the shutdown
flag alone. -/
theorem createMessage_no_shutdown (buf : Buffer) (size : Nat) (flag : Bool) (w : World)
    (ret : Bool) (events : List Event) (w1 : World)
    (h : createMessageFromBufferAndPutOnQueue buf size flag w = Except.ok (ret, events, w1)) :
    events.count Event.requestShutdown = 0 ∧ w1.isShutdownRequested = w.isShutdownRequested := by
  cases hq : w.outMessageQueue with
  | none =>
    unfold createMessageFromBufferAndPutOnQueue at h
    rw [hq] at h
    injection h with h
    injection h with _ h
    injection h with h1 h2
    rw [← h1, ← h2]
    exact ⟨rfl, rfl⟩
  | some q =>
    cases htext : copyMessageText buf size with
    | error f =>
      unfold createMessageFromBufferAndPutOnQueue at h
      rw [hq] at h
      simp only [htext] at h
      cases h
    | ok text =>
      cases hn : w.freeNodes with
      | zero =>
        rw [createMessage_of_full buf size flag w q text hq htext hn] at h
        injection h with h
        injection h with _ h
        injection h with h1 h2
        rw [← h1, ← h2]
        refine ⟨?_, rfl⟩
        rw [List.count_append, List.count_append, count_requestShutdown_freeMessageFn]
        simp [List.count_cons]
      | succ n =>
        rw [createMessage_of_room buf size flag w q text n hq htext hn] at h
        injection h with h
        injection h with _ h
        injection h with h1 h2
        rw [← h1, ← h2]
        exact ⟨by simp [List.count_cons], rfl⟩

/-- The screen printer's enqueue calls no shutdown and leaves the shutdown
flag alone. -/
theorem ScreenPrinter_put_no_shutdown (p : MessagePtr) (w : World) (q : CList)
    (hq : w.pInMessageQueue = some q) :
    ∃ ret events w1, ScreenPrinter_putMessageOnQueue p w = Except.ok (ret, events, w1) ∧
      events.count Event.requestShutdown = 0 ∧
      w1.isShutdownRequested = w.isShutdownRequested := by
  cases hn : w.freeNodes with
  | zero =>
    refine ⟨_, _, _, ScreenPrinter_put_of_full p w q hq hn, ?_, rfl⟩
    rw [List.count_append, count_requestShutdown_freeMessageFn]
    simp [List.count_cons]
  | succ n =>
    exact ⟨_, _, _, ScreenPrinter_put_of_room p w q n hq hn, by simp [List.count_cons], rfl⟩

theorem length_readBuffer (chunk : List Nat) :
    (bufferOfChunk (chunk.take MSG_MAX_LEN)).length = MSG_MAX_LEN :=
  length_bufferOfChunk _ (by rw [List.length_take]; exact Nat.min_le_left _ _)

/-- What an iteration of the keyboard reader comes to, once the chunk does not
start with NUL, in terms of the results of the scan and of the enqueue. -/
theorem KeyboardReader_iteration_eq (chunk : List Nat) (createStatus : Int) (w : World)
    (hfirst : byteAt (bufferOfChunk (chunk.take MSG_MAX_LEN)) 0 ≠ 0)
    (scan : ScanResult) (enq : Bool) (events1 : List Event) (w1 : World)
    (hscan : checkAndDiscardRestIfMessageHasTerminationLine
      (some (bufferOfChunk (chunk.take MSG_MAX_LEN))) (some 0) = Except.ok scan)
    (hcreate : createMessageFromBufferAndPutOnQueue
      (scan.messageBuffer.getD (bufferOfChunk (chunk.take MSG_MAX_LEN)))
      (scan.sizeOfMessage.getD 0) scan.returnValue w = Except.ok (enq, events1, w1)) :
    ∃ result, KeyboardReader_iteration chunk createStatus w = Except.ok result ∧
      result =
        if scan.returnValue then
          if enq then (Flow.stop, events1 ++ [Event.setcancelstate true], w1)
          else (Flow.stop,
            events1 ++ [Event.setcancelstate true] ++ (callRequestShutdown createStatus w1).1,
            (callRequestShutdown createStatus w1).2)
        else (Flow.next, events1 ++ [Event.setcancelstate true], w1) := by
  have h4 := four_le_MSG_MAX_LEN
  have hlen := length_readBuffer chunk
  refine ⟨_, ?_, rfl⟩
  unfold KeyboardReader_iteration
  simp only [readAt_of_lt _ 0 (by omega : 0 < (bufferOfChunk (chunk.take MSG_MAX_LEN)).length),
    hfirst, if_false, hscan, hcreate]
  cases scan.returnValue <;> cases enq <;> rfl

/-- What an iteration of the listener comes to when a datagram was received
and the inbound queue exists: the scan, the `Message` it builds, the enqueue
of that `Message`, and the result of the iteration in terms of them. -/
theorem Listener_iteration_eq (datagram : List Nat) (createStatus : Int) (w : World)
    (q : CList) (hq : w.pInMessageQueue = some q) :
    ∃ scan pMessage enq events1 w1,
      checkAndDiscardRestIfMessageHasTerminationLine
        (some (bufferOfChunk (datagram.take MSG_MAX_LEN))) none = Except.ok scan ∧
      pMessage.addr = w.nextAddr ∧ pMessage.target.isShutdownMessage = scan.returnValue ∧
      ScreenPrinter_putMessageOnQueue pMessage { w with nextAddr := w.nextAddr + 1 }
        = Except.ok (enq, events1, w1) ∧
      events1.count Event.requestShutdown = 0 ∧
      w1.isShutdownRequested = w.isShutdownRequested ∧
      ∃ result, Listener_iteration (some datagram) createStatus w = Except.ok result ∧
        result =
          if scan.returnValue then
            if enq then
              (Flow.stop,
                [Event.setcancelstate true, Event.setcancelstate false] ++ events1
                  ++ [Event.setcancelstate true], w1)
            else
              (Flow.stop,
                [Event.setcancelstate true, Event.setcancelstate false] ++ events1
                  ++ [Event.setcancelstate true] ++ (callRequestShutdown createStatus w1).1,
                (callRequestShutdown createStatus w1).2)
          else
            (Flow.next,
              [Event.setcancelstate true, Event.setcancelstate false] ++ events1
                ++ [Event.setcancelstate true], w1) := by
  have h4 := four_le_MSG_MAX_LEN
  obtain ⟨scan, b, hscan, hb, hblen, _⟩ := check_result_wf _ (length_readBuffer datagram) none
  have hrx : (datagram.take MSG_MAX_LEN).length ≤ MSG_MAX_LEN := by
    rw [List.length_take]; exact Nat.min_le_left _ _
  have hwrite : writeAt b (if (datagram.take MSG_MAX_LEN).length < MSG_MAX_LEN
      then (datagram.take MSG_MAX_LEN).length else MSG_MAX_LEN - 1) 0
      = Except.ok (b.set (if (datagram.take MSG_MAX_LEN).length < MSG_MAX_LEN
      then (datagram.take MSG_MAX_LEN).length else MSG_MAX_LEN - 1) 0) := by
    apply writeAt_of_lt
    split <;> omega
  obtain ⟨text, htext⟩ := copyMessageText_ok
    (b.set (if (datagram.take MSG_MAX_LEN).length < MSG_MAX_LEN
      then (datagram.take MSG_MAX_LEN).length else MSG_MAX_LEN - 1) 0)
    (datagram.take MSG_MAX_LEN).length (by rw [List.length_set, hblen]; exact hrx)
  obtain ⟨enq, events1, w1, hput, hcount, hflag⟩ :=
    ScreenPrinter_put_no_shutdown ⟨w.nextAddr, ⟨some text, scan.returnValue⟩⟩
      { w with nextAddr := w.nextAddr + 1 } q hq
  refine ⟨scan, ⟨w.nextAddr, ⟨some text, scan.returnValue⟩⟩, enq, events1, w1, hscan, rfl, rfl,
    hput, hcount, hflag, _, ?_, rfl⟩
  unfold Listener_iteration
  simp only [hscan, hb, Option.getD_some, hwrite, htext, hput]
  cases scan.returnValue <;> cases enq <;> rfl

theorem whileLoop_of_next {ι : Type}
    (body : ι → World → Except Fault (Flow × List Event × World)) (x : ι) (xs : List ι)
    (w : World) (events : List Event) (w1 : World)
    (h : body x w = Except.ok (Flow.next, events, w1)) :
    whileLoop body (x :: xs) w = prependEvents events (whileLoop body xs w1) := by
  simp [whileLoop, h]

theorem whileLoop_of_stop {ι : Type}
    (body : ι → World → Except Fault (Flow × List Event × World)) (x : ι) (xs : List ι)
    (w : World) (events : List Event) (w1 : World)
    (h : body x w = Except.ok (Flow.stop, events, w1)) :
    whileLoop body (x :: xs) w = Except.ok (Flow.stop, events, w1) := by
  simp [whileLoop, h]

/-- The decision both producers take after the enqueue, on the result of the
scan (`isSignal`) and of the enqueue (`enq`). -/
theorem producer_decision (isSignal enq : Bool) (pre : List Event) (w w1 : World)
    (createStatus : Int) (hcount : pre.count Event.requestShutdown = 0)
    (hflag : w1.isShutdownRequested = w.isShutdownRequested)
    (result : Flow × List Event × World)
    (h : result =
      if isSignal then
        if enq then (Flow.stop, pre, w1)
        else (Flow.stop, pre ++ (callRequestShutdown createStatus w1).1,
          (callRequestShutdown createStatus w1).2)
      else (Flow.next, pre, w1)) :
    (isSignal = true →
      result.1 = Flow.stop ∧
      result.2.1.count Event.requestShutdown = (if enq then 0 else 1)) ∧
    (isSignal = false →
      result.1 = Flow.next ∧ result.2.1.count Event.requestShutdown = 0 ∧
      result.2.2.isShutdownRequested = w.isShutdownRequested) := by
  subst h
  cases isSignal <;> cases enq <;>
    simp [hcount, hflag, List.count_append, count_requestShutdown_call]

/-- C9. After a chunk has been scanned and handed to the enqueue, in the
keyboard reader (for a chunk that does not start with NUL) and in the listener
(for a received datagram, the inbound queue existing): if the scan reported a
termination line the worker stops (`break`) whether or not the enqueue
succeeded, and it calls `requestShutdownOfAllThreadsForProgram` exactly when
the enqueue returned `false`; if the scan reported none the worker calls no
shutdown, leaves the shutdown flag as it was and goes on to the next
iteration, also when the enqueue returned `false`. -/
theorem C9_producer_after_enqueue :
    (∀ (chunk : List Nat) (createStatus : Int) (w : World),
      byteAt (bufferOfChunk (chunk.take MSG_MAX_LEN)) 0 ≠ 0 →
      ∃ scan enq events1 w1 flow events w',
        checkAndDiscardRestIfMessageHasTerminationLine
          (some (bufferOfChunk (chunk.take MSG_MAX_LEN))) (some 0) = Except.ok scan ∧
        createMessageFromBufferAndPutOnQueue
          (scan.messageBuffer.getD (bufferOfChunk (chunk.take MSG_MAX_LEN)))
          (scan.sizeOfMessage.getD 0) scan.returnValue w = Except.ok (enq, events1, w1) ∧
        KeyboardReader_iteration chunk createStatus w = Except.ok (flow, events, w') ∧
        (scan.returnValue = true →
          flow = Flow.stop ∧
          events.count Event.requestShutdown = (if enq then 0 else 1) ∧
          ∀ rest, KeyboardReader_loop (chunk :: rest) createStatus w
            = Except.ok (Flow.stop, events, w')) ∧
        (scan.returnValue = false →
          flow = Flow.next ∧ events.count Event.requestShutdown = 0 ∧
          w'.isShutdownRequested = w.isShutdownRequested ∧
          ∀ rest, KeyboardReader_loop (chunk :: rest) createStatus w
            = prependEvents events (KeyboardReader_loop rest createStatus w'))) ∧
    (∀ (datagram : List Nat) (createStatus : Int) (w : World) (q : CList),
      w.pInMessageQueue = some q →
      ∃ scan pMessage enq events1 w1 flow events w',
        checkAndDiscardRestIfMessageHasTerminationLine
          (some (bufferOfChunk (datagram.take MSG_MAX_LEN))) none = Except.ok scan ∧
        pMessage.target.isShutdownMessage = scan.returnValue ∧
        ScreenPrinter_putMessageOnQueue pMessage { w with nextAddr := w.nextAddr + 1 }
          = Except.ok (enq, events1, w1) ∧
        Listener_iteration (some datagram) createStatus w = Except.ok (flow, events, w') ∧
        (scan.returnValue = true →
          flow = Flow.stop ∧
          events.count Event.requestShutdown = (if enq then 0 else 1) ∧
          ∀ rest, Listener_loop (some datagram :: rest) createStatus w
            = Except.ok (Flow.stop, events, w')) ∧
        (scan.returnValue = false →
          flow = Flow.next ∧ events.count Event.requestShutdown = 0 ∧
          w'.isShutdownRequested = w.isShutdownRequested ∧
          ∀ rest, Listener_loop (some datagram :: rest) createStatus w
            = prependEvents events (Listener_loop rest createStatus w'))) := by
  constructor
  · intro chunk createStatus w hfirst
    obtain ⟨scan, b, hscan, hb, hblen, hsize⟩ :=
      check_result_wf _ (length_readBuffer chunk) (some 0)
    obtain ⟨ret, events1, w1, hcreate, _⟩ : ∃ ret events1 w1,
        createMessageFromBufferAndPutOnQueue
          (scan.messageBuffer.getD (bufferOfChunk (chunk.take MSG_MAX_LEN)))
          (scan.sizeOfMessage.getD 0) scan.returnValue w = Except.ok (ret, events1, w1) ∧ True := by
      cases hq : w.outMessageQueue with
      | none =>
        refine ⟨false, [], w, ?_, trivial⟩
        unfold createMessageFromBufferAndPutOnQueue
        rw [hq]
      | some q =>
        obtain ⟨text, htext⟩ := copyMessageText_ok
          (scan.messageBuffer.getD (bufferOfChunk (chunk.take MSG_MAX_LEN)))
          (scan.sizeOfMessage.getD 0) (by rw [hb, Option.getD_some, hblen]; exact hsize)
        cases hn : w.freeNodes with
        | zero => exact ⟨_, _, _, createMessage_of_full _ _ _ w q text hq htext hn, trivial⟩
        | succ n => exact ⟨_, _, _, createMessage_of_room _ _ _ w q text n hq htext hn, trivial⟩
    obtain ⟨hcount, hflag⟩ := createMessage_no_shutdown _ _ _ _ _ _ _ hcreate
    obtain ⟨⟨flow, events, w'⟩, hiter, hres⟩ :=
      KeyboardReader_iteration_eq chunk createStatus w hfirst scan ret events1 w1 hscan hcreate
    have hdec := producer_decision scan.returnValue ret (events1 ++ [Event.setcancelstate true])
      w w1 createStatus (by simp [List.count_append, hcount]) hflag _ hres
    simp only at hdec
    refine ⟨scan, ret, events1, w1, flow, events, w', hscan, hcreate, hiter, ?_, ?_⟩
    · intro hrv
      obtain ⟨hflow, hcnt⟩ := hdec.1 hrv
      subst hflow
      exact ⟨rfl, hcnt, fun rest => whileLoop_of_stop _ chunk rest w events w' hiter⟩
    · intro hrv
      obtain ⟨hflow, hcnt, hsame⟩ := hdec.2 hrv
      subst hflow
      exact ⟨rfl, hcnt, hsame, fun rest => whileLoop_of_next _ chunk rest w events w' hiter⟩
  · intro datagram createStatus w q hq
    obtain ⟨scan, pMessage, enq, events1, w1, hscan, _, hshut, hput, hcount, hflag,
      ⟨flow, events, w'⟩, hiter, hres⟩ := Listener_iteration_eq datagram createStatus w q hq
    have hdec := producer_decision scan.returnValue enq
      ([Event.setcancelstate true, Event.setcancelstate false] ++ events1
        ++ [Event.setcancelstate true])
      w w1 createStatus (by simp [List.count_append, hcount]) hflag _ hres
    simp only at hdec
    refine ⟨scan, pMessage, enq, events1, w1, flow, events, w', hscan, hshut, hput, hiter,
      ?_, ?_⟩
    · intro hrv
      obtain ⟨hflow, hcnt⟩ := hdec.1 hrv
      subst hflow
      exact ⟨rfl, hcnt, fun rest => whileLoop_of_stop _ (some datagram) rest w events w' hiter⟩
    · intro hrv
      obtain ⟨hflow, hcnt, hsame⟩ := hdec.2 hrv
      subst hflow
      exact ⟨rfl, hcnt, hsame,
        fun rest => whileLoop_of_next _ (some datagram) rest w events w' hiter⟩

/-- A termination chunk (`"hi\n!\n"`) read by the keyboard reader while the
node pool is exhausted: the hypothesis of the first part of C9 holds, and the
iteration stops with one call of the shutdown request. -/
theorem C9_witness :
    byteAt (bufferOfChunk (List.take MSG_MAX_LEN [104, 105, 10, 33, 10])) 0 ≠ 0 ∧
    (∃ scan enq events1 w1 flow events w',
      checkAndDiscardRestIfMessageHasTerminationLine
        (some (bufferOfChunk (List.take MSG_MAX_LEN [104, 105, 10, 33, 10]))) (some 0)
          = Except.ok scan ∧
      createMessageFromBufferAndPutOnQueue
        (scan.messageBuffer.getD (bufferOfChunk (List.take MSG_MAX_LEN [104, 105, 10, 33, 10])))
        (scan.sizeOfMessage.getD 0) scan.returnValue { World.initial with freeNodes := 0 }
          = Except.ok (enq, events1, w1) ∧
      KeyboardReader_iteration [104, 105, 10, 33, 10] 0 { World.initial with freeNodes := 0 }
          = Except.ok (flow, events, w') ∧
      (scan.returnValue = true →
        flow = Flow.stop ∧ events.count Event.requestShutdown = (if enq then 0 else 1) ∧
        ∀ rest, KeyboardReader_loop ([104, 105, 10, 33, 10] :: rest) 0
            { World.initial with freeNodes := 0 } = Except.ok (Flow.stop, events, w')) ∧
      (scan.returnValue = false →
        flow = Flow.next ∧ events.count Event.requestShutdown = 0 ∧
        w'.isShutdownRequested
          = ({ World.initial with freeNodes := 0 } : World).isShutdownRequested ∧
        ∀ rest, KeyboardReader_loop ([104, 105, 10, 33, 10] :: rest) 0
            { World.initial with freeNodes := 0 }
          = prependEvents events (KeyboardReader_loop rest 0 w'))) ∧
    (KeyboardReader_iteration [104, 105, 10, 33, 10] 0
        { World.initial with freeNodes := 0 }).toOption.map
      (fun r => (r.1, r.2.1.count Event.requestShutdown)) = some (Flow.stop, 1) :=
  ⟨by decide,
    C9_producer_after_enqueue.1 [104, 105, 10, 33, 10] 0 { World.initial with freeNodes := 0 }
      (by decide),
    by decide⟩

/-! ## The consumers -/

theorem length_bufferText_lt_of_mem (src : Buffer) (h : 0 ∈ src) :
    (bufferText src).length < src.length := by
  induction src with
  | nil => cases h
  | cons c cs ih =>
    rw [bufferText_cons]
    by_cases hc : c = 0
    · simp [hc]
    · have : 0 ∈ cs := by
        rcases List.mem_cons.mp h with h | h
        · exact absurd h.symm hc
        · exact h
      simpa [hc] using ih this

theorem length_takeWhile_take_le_text (src : Buffer) (n : Nat) :
    ((src.take n).takeWhile (fun c => c != 0)).length ≤ (bufferText src).length := by
  induction src generalizing n with
  | nil => simp [bufferText_nil]
  | cons c cs ih =>
    cases n with
    | zero => simp
    | succ n =>
      rw [bufferText_cons, List.take_succ_cons, List.takeWhile_cons]
      by_cases hc : c = 0
      · simp [hc]
      · have hb : (c != 0) = true := by simpa using hc
        simp only [hb, if_true, hc, if_false, List.length_cons]
        exact Nat.succ_le_succ (ih n)

/-- The sender's copy of a NUL-terminated text into its buffer never faults. -/
theorem strncpy_txBuffer_ok (pText : Buffer) (h : 0 ∈ pText) :
    ∃ buf, strncpy (List.replicate MSG_MAX_LEN 0) pText MSG_MAX_LEN = Except.ok buf := by
  refine ⟨_, strncpy_eq_ok _ pText MSG_MAX_LEN (fun _ => ?_) (fun hpos => ?_)⟩
  · have h1 := length_takeWhile_take_le_text pText MSG_MAX_LEN
    have h2 := length_bufferText_lt_of_mem pText h
    omega
  · rw [List.length_replicate]
    omega

theorem cString_of_mem (pText : Buffer) (h : 0 ∈ pText) :
    cString pText = Except.ok (bufferText pText) := by
  unfold cString
  have : pText.contains 0 = true := by simpa using h
  rw [this]
  rfl

theorem dequeueMessage_no_shutdown (freeNodes : Nat) (q : CList) :
    (dequeueMessage freeNodes q).2.1.count Event.requestShutdown = 0 := by
  unfold dequeueMessage
  split
  · rfl
  · simp only
    split <;> simp [List.count_cons]

theorem KeyboardReader_get_no_shutdown (w : World) :
    (KeyboardReader_getMessageFromQueue w).2.1.count Event.requestShutdown = 0 ∧
    (KeyboardReader_getMessageFromQueue w).2.2.isShutdownRequested = w.isShutdownRequested := by
  unfold KeyboardReader_getMessageFromQueue
  cases w.outMessageQueue with
  | none => exact ⟨rfl, rfl⟩
  | some q => exact ⟨dequeueMessage_no_shutdown w.freeNodes q, rfl⟩

theorem getMessageFromQueue_no_shutdown (w : World) :
    (getMessageFromQueue w).2.1.count Event.requestShutdown = 0 ∧
    (getMessageFromQueue w).2.2.isShutdownRequested = w.isShutdownRequested := by
  unfold getMessageFromQueue
  cases w.pInMessageQueue with
  | none => exact ⟨rfl, rfl⟩
  | some q => exact ⟨dequeueMessage_no_shutdown w.freeNodes q, rfl⟩

/-- What an iteration of the sender comes to for a dequeued `Message` with a
NUL-terminated text. -/
theorem Sender_iteration_eq (sendStatus createStatus : Int) (w : World)
    (events0 : List Event) (w1 : World) (p : MessagePtr) (pText : Buffer)
    (hget : KeyboardReader_getMessageFromQueue w = (Dequeued.returned (some p), events0, w1))
    (htext : p.target.pText = some pText) (hz : 0 ∈ pText) :
    ∃ payload, Sender_iteration sendStatus createStatus w = Except.ok
      (if p.target.isShutdownMessage then
        (Flow.stop,
          events0 ++ freeMessageFn (some p) ++ [Event.sendto payload sendStatus]
            ++ (if sendStatus = -1 then [Event.print "**Error sending message**\n"] else [])
            ++ [Event.setcancelstate true] ++ (callRequestShutdown createStatus w1).1,
          (callRequestShutdown createStatus w1).2)
      else
        (Flow.next,
          events0 ++ freeMessageFn (some p) ++ [Event.sendto payload sendStatus]
            ++ (if sendStatus = -1 then [Event.print "**Error sending message**\n"] else [])
            ++ [Event.setcancelstate true],
          w1)) := by
  obtain ⟨buf, hbuf⟩ := strncpy_txBuffer_ok pText hz
  refine ⟨buf.take (strnlen buf MSG_MAX_LEN), ?_⟩
  unfold Sender_iteration
  rw [hget]
  simp only [htext, hbuf]
  cases p.target.isShutdownMessage <;> rfl

/-- What an iteration of the screen printer comes to for a dequeued `Message`
with a NUL-terminated text. -/
theorem ScreenPrinter_iteration_eq (createStatus : Int) (w : World)
    (events0 : List Event) (w1 : World) (p : MessagePtr) (pText : Buffer)
    (hget : getMessageFromQueue w = (Dequeued.returned (some p), events0, w1))
    (htext : p.target.pText = some pText) (hz : 0 ∈ pText) :
    ScreenPrinter_iteration createStatus w = Except.ok
      (if p.target.isShutdownMessage then
        (Flow.stop,
          events0 ++ [Event.display (bufferText pText)] ++ freeMessageFn (some p)
            ++ [Event.setcancelstate true, Event.flush]
            ++ (callRequestShutdown createStatus w1).1,
          (callRequestShutdown createStatus w1).2)
      else
        (Flow.next,
          events0 ++ [Event.display (bufferText pText)] ++ freeMessageFn (some p)
            ++ [Event.setcancelstate true, Event.flush],
          w1)) := by
  unfold ScreenPrinter_iteration
  rw [hget]
  simp only [htext, cString_of_mem pText hz]
  cases p.target.isShutdownMessage <;> rfl

/-- For both consumers and every dequeued `Message` that is not `NULL` and
whose text is not `NULL` (a NUL-terminated string): the worker
stops exactly when `isShutdownMessage` is `true` and goes on to the next
iteration exactly when it is `false`; it calls the shutdown request once in
the first case and never in the second; in the sender every such call comes
after the `sendto`, whatever `sendto` returned, and in the screen printer
after the text has been written and the `Message` freed. -/
theorem consumer_stops_of_text :
    (∀ (sendStatus createStatus : Int) (w : World) (events0 : List Event) (w1 : World)
        (p : MessagePtr) (pText : Buffer),
      KeyboardReader_getMessageFromQueue w = (Dequeued.returned (some p), events0, w1) →
      p.target.pText = some pText → 0 ∈ pText →
      ∃ flow events w' payload pre post,
        Sender_iteration sendStatus createStatus w = Except.ok (flow, events, w') ∧
        (flow = Flow.stop ↔ p.target.isShutdownMessage = true) ∧
        (flow = Flow.next ↔ p.target.isShutdownMessage = false) ∧
        events.count Event.requestShutdown = (if p.target.isShutdownMessage then 1 else 0) ∧
        events = pre ++ Event.sendto payload sendStatus :: post ∧
        pre.count Event.requestShutdown = 0 ∧
        (p.target.isShutdownMessage = true →
          ∀ rest, Sender_loop (sendStatus :: rest) createStatus w
            = Except.ok (Flow.stop, events, w')) ∧
        (p.target.isShutdownMessage = false →
          w'.isShutdownRequested = w.isShutdownRequested ∧
          ∀ rest, Sender_loop (sendStatus :: rest) createStatus w
            = prependEvents events (Sender_loop rest createStatus w'))) ∧
    (∀ (createStatus : Int) (w : World) (events0 : List Event) (w1 : World)
        (p : MessagePtr) (pText : Buffer),
      getMessageFromQueue w = (Dequeued.returned (some p), events0, w1) →
      p.target.pText = some pText → 0 ∈ pText →
      ∃ flow events w' pre post,
        ScreenPrinter_iteration createStatus w = Except.ok (flow, events, w') ∧
        (flow = Flow.stop ↔ p.target.isShutdownMessage = true) ∧
        (flow = Flow.next ↔ p.target.isShutdownMessage = false) ∧
        events.count Event.requestShutdown = (if p.target.isShutdownMessage then 1 else 0) ∧
        events = pre ++ Event.freeMessage p.addr :: post ∧
        Event.display (bufferText pText) ∈ pre ∧
        pre.count Event.requestShutdown = 0 ∧
        (p.target.isShutdownMessage = true →
          ∀ n, ScreenPrinter_loop (n + 1) createStatus w
            = Except.ok (Flow.stop, events, w')) ∧
        (p.target.isShutdownMessage = false →
          w'.isShutdownRequested = w.isShutdownRequested ∧
          ∀ n, ScreenPrinter_loop (n + 1) createStatus w
            = prependEvents events (ScreenPrinter_loop n createStatus w'))) := by
  constructor
  · intro sendStatus createStatus w events0 w1 p pText hget htext hz
    obtain ⟨payload, hiter⟩ :=
      Sender_iteration_eq sendStatus createStatus w events0 w1 p pText hget htext hz
    have h0 : events0.count Event.requestShutdown = 0 := by
      have := (KeyboardReader_get_no_shutdown w).1
      rwa [hget] at this
    have hw1 : w1.isShutdownRequested = w.isShutdownRequested := by
      have := (KeyboardReader_get_no_shutdown w).2
      rwa [hget] at this
    have hpre : (events0 ++ freeMessageFn (some p)).count Event.requestShutdown = 0 := by
      rw [List.count_append, h0, count_requestShutdown_freeMessageFn]
    have hfree := count_requestShutdown_freeMessageFn (some p)
    have hprint : (if sendStatus = -1 then [Event.print "**Error sending message**\n"]
        else []).count Event.requestShutdown = 0 := by
      split <;> simp [List.count_cons]
    cases hflag : p.target.isShutdownMessage with
    | false =>
      rw [hflag] at hiter
      refine ⟨Flow.next, _, w1, payload, events0 ++ freeMessageFn (some p),
        (if sendStatus = -1 then [Event.print "**Error sending message**\n"] else [])
          ++ [Event.setcancelstate true], hiter, by simp, by simp, ?_, by simp, hpre,
        (fun h => by cases h),
        fun _ => ⟨hw1, fun rest => whileLoop_of_next _ sendStatus rest w _ w1 hiter⟩⟩
      simp [List.count_append, List.count_cons, h0, hfree, hprint]
    | true =>
      rw [hflag] at hiter
      refine ⟨Flow.stop, _, _, payload, events0 ++ freeMessageFn (some p),
        (if sendStatus = -1 then [Event.print "**Error sending message**\n"] else [])
          ++ [Event.setcancelstate true] ++ (callRequestShutdown createStatus w1).1,
        hiter, by simp, by simp, ?_, by simp, hpre,
        fun _ rest => whileLoop_of_stop _ sendStatus rest w _ _ hiter, fun h => by cases h⟩
      have hcall := count_requestShutdown_call createStatus w1
      simp [List.count_append, List.count_cons, h0, hfree, hprint, hcall]
  · intro createStatus w events0 w1 p pText hget htext hz
    have hiter := ScreenPrinter_iteration_eq createStatus w events0 w1 p pText hget htext hz
    have h0 : events0.count Event.requestShutdown = 0 := by
      have := (getMessageFromQueue_no_shutdown w).1
      rwa [hget] at this
    have hw1 : w1.isShutdownRequested = w.isShutdownRequested := by
      have := (getMessageFromQueue_no_shutdown w).2
      rwa [hget] at this
    have hfree : freeMessageFn (some p) = [Event.freeText p.addr, Event.freeMessage p.addr] := by
      simp [freeMessageFn, htext]
    rw [hfree] at hiter
    have hpre : (events0 ++ [Event.display (bufferText pText), Event.freeText p.addr]).count
        Event.requestShutdown = 0 := by
      rw [List.count_append, h0]
      simp [List.count_cons]
    cases hflag : p.target.isShutdownMessage with
    | false =>
      rw [hflag] at hiter
      refine ⟨Flow.next, _, w1, events0 ++ [Event.display (bufferText pText), Event.freeText p.addr],
        [Event.setcancelstate true, Event.flush], hiter, by simp, by simp, ?_, by simp, by simp,
        hpre, (fun h => by cases h),
        fun _ => ⟨hw1, fun n => whileLoop_of_next (fun _ => ScreenPrinter_iteration createStatus)
          () (List.replicate n ()) w _ w1 hiter⟩⟩
      simp [List.count_append, List.count_cons, h0]
    | true =>
      rw [hflag] at hiter
      refine ⟨Flow.stop, _, _, events0 ++ [Event.display (bufferText pText), Event.freeText p.addr],
        [Event.setcancelstate true, Event.flush] ++ (callRequestShutdown createStatus w1).1,
        hiter, by simp, by simp, ?_, by simp, by simp, hpre,
        fun _ n => whileLoop_of_stop (fun _ => ScreenPrinter_iteration createStatus)
          () (List.replicate n ()) w _ _ hiter,
        fun h => by cases h⟩
      have hcall := count_requestShutdown_call createStatus w1
      simp [List.count_append, List.count_cons, h0, hcall]

/-! ## The assertion and the bounds of the scanner -/

theorem readAt_of_length_le (buf : Buffer) (i : Nat) (h : buf.length ≤ i) :
    readAt buf i = Except.error (Fault.outOfBounds i) := by
  unfold readAt
  rw [List.get?_eq_getElem?, List.getElem?_eq_none h]

theorem writeAt_of_length_le (buf : Buffer) (i v : Nat) (h : buf.length ≤ i) :
    writeAt buf i v = Except.error (Fault.outOfBounds i) := by
  unfold writeAt
  rw [List.get?_eq_getElem?, List.getElem?_eq_none h]

/-- C19. The assertion at the end of the scanner never fails: for every
buffer of `MSG_MAX_LEN` bytes whose first byte is not NUL and which does not
begin with `"!\n"`, with or without a NUL and with or without a termination
line, the call returns (it does not stop in the `assert`) and the size it
stores in `*pSizeOfMessage` is `strnlen(messageBuffer, MSG_MAX_LEN)` of the
buffer as the call leaves it. -/
theorem C19_assert_never_fails (buf : Buffer) (hlen : buf.length = MSG_MAX_LEN)
    (hfirst : byteAt buf 0 ≠ 0) (hstart : ¬ (byteAt buf 0 = 33 ∧ byteAt buf 1 = 10))
    (v : Nat) :
    ∃ r b n, checkAndDiscardRestIfMessageHasTerminationLine (some buf) (some v)
        = Except.ok r ∧
      r.messageBuffer = some b ∧ r.sizeOfMessage = some n ∧ strnlen b MSG_MAX_LEN = n := by
  obtain ⟨e, hp, he⟩ := check_of_loop buf hlen (some v) hfirst hstart
  refine ⟨_, e.messageBuffer, e.size, he, rfl, rfl, ?_⟩
  rw [strnlen_of_length_le _ _ (by rw [hp.length_eq, hlen])]
  exact hp.length_text hlen

/-- A buffer without NUL whose marker ends exactly at its last byte satisfies
the hypotheses of C19, and its conclusion holds there. -/
theorem C19_witness :
    (List.replicate (MSG_MAX_LEN - 3) 97 ++ [10, 33, 10]).length = MSG_MAX_LEN ∧
    byteAt (List.replicate (MSG_MAX_LEN - 3) 97 ++ [10, 33, 10]) 0 ≠ 0 ∧
    ¬ (byteAt (List.replicate (MSG_MAX_LEN - 3) 97 ++ [10, 33, 10]) 0 = 33 ∧
        byteAt (List.replicate (MSG_MAX_LEN - 3) 97 ++ [10, 33, 10]) 1 = 10) ∧
    ∃ r b n, checkAndDiscardRestIfMessageHasTerminationLine
        (some (List.replicate (MSG_MAX_LEN - 3) 97 ++ [10, 33, 10])) (some 0) = Except.ok r ∧
      r.messageBuffer = some b ∧ r.sizeOfMessage = some n ∧ strnlen b MSG_MAX_LEN = n := by
  have hlen : (List.replicate (MSG_MAX_LEN - 3) 97 ++ [10, 33, 10]).length = MSG_MAX_LEN := by
    rw [List.length_append, List.length_replicate]
    decide
  exact ⟨hlen, by decide, by decide, C19_assert_never_fails _ hlen (by decide) (by decide) 0⟩

/-- C20. The scanner stays inside its buffer. In the embedding every read and
write of an index outside the buffer is a fault that ends the call, and for
every buffer of exactly `MSG_MAX_LEN` bytes, whatever its contents, the call
returns without fault: no index outside `[0, MSG_MAX_LEN)` is read or written.
In particular the look-behind read is never made at `i = 0` (the index
`i - 1` is then outside every buffer), the look-ahead read is never made at
`i + 1 = MSG_MAX_LEN` and the truncating write is never made at
`i + 2 = MSG_MAX_LEN`, all three of which are faults. -/
theorem C20_scanner_stays_in_buffer (buf : Buffer) (hlen : buf.length = MSG_MAX_LEN)
    (pSizeOfMessage : Option Nat) :
    (∃ r, checkAndDiscardRestIfMessageHasTerminationLine (some buf) pSizeOfMessage
        = Except.ok r) ∧
    (∀ i, checkAndDiscardRestIfMessageHasTerminationLine (some buf) pSizeOfMessage
        ≠ Except.error (Fault.outOfBounds i)) ∧
    readAt buf (sizeSubOne 0) = Except.error (Fault.outOfBounds (sizeSubOne 0)) ∧
    readAt buf MSG_MAX_LEN = Except.error (Fault.outOfBounds MSG_MAX_LEN) ∧
    writeAt buf MSG_MAX_LEN 0 = Except.error (Fault.outOfBounds MSG_MAX_LEN) := by
  obtain ⟨r, _, hr, _⟩ := check_result_wf buf hlen pSizeOfMessage
  refine ⟨⟨r, hr⟩, ?_, ?_, ?_, ?_⟩
  · intro i hi
    rw [hr] at hi
    cases hi
  · apply readAt_of_length_le
    rw [hlen]
    decide
  · exact readAt_of_length_le buf _ (by rw [hlen])
  · exact writeAt_of_length_le buf _ 0 (by rw [hlen])

/-- A datagram of `MSG_MAX_LEN` bytes without NUL, as the listener may receive
it, satisfies the hypothesis of C20, and its conclusion holds there; on a
buffer that is too short the same scan does fault. -/
theorem C20_witness :
    (List.replicate MSG_MAX_LEN 33).length = MSG_MAX_LEN ∧
    (∃ r, checkAndDiscardRestIfMessageHasTerminationLine
        (some (List.replicate MSG_MAX_LEN 33)) none = Except.ok r) ∧
    checkAndDiscardRestIfMessageHasTerminationLine (some [33]) none
      = Except.error (Fault.outOfBounds 1) :=
  ⟨List.length_replicate _ _,
    (C20_scanner_stays_in_buffer _ (List.length_replicate _ _) none).1, rfl⟩

/-! ## The statuses of the teardown -/

/-- C15 as stated fails for a cancel that fails. When `pthread_cancel`
returns `ESRCH` for the listener (the thread has already ended) and
`pthread_join` returns 0, `shutdownThreadWithPid` returns `SUCCESSFUL_JOIN`,
neither `CANCEL_ERROR` nor `JOIN_ERROR`, and `printShutdownStatusErrors`
prints nothing; a teardown in which this happens prints no diagnostic at
all. -/
theorem C15_counterexample_cancel_failure_not_reported :
    ESRCH ≠ 0 ∧
    (shutdownThreadWithPid Worker.listener ESRCH 0).1 = ShutdownStatus.SUCCESSFUL_JOIN ∧
    (shutdownThreadWithPid Worker.listener ESRCH 0).1 ≠ ShutdownStatus.CANCEL_ERROR ∧
    (shutdownThreadWithPid Worker.listener ESRCH 0).1 ≠ ShutdownStatus.JOIN_ERROR ∧
    printShutdownStatusErrors "Listener" (shutdownThreadWithPid Worker.listener ESRCH 0).1
      = [] ∧
    (shutdownOfAllThreadsForProgram
        ⟨fun worker => if worker = Worker.listener then ESRCH else 0, fun _ => 0, 0⟩
        World.initial).filter
      (fun e => match e with
        | Event.print _ => true
        | _ => false) = [] := by
  refine ⟨by decide, by decide, by decide, by decide, by decide, by decide⟩

/-- C15, amended. Every join failure during teardown is reported, and a
cancel failure is not. For every worker and every pair of results of the
cancel and join calls: when the join fails the status is `JOIN_ERROR` and the
"failed to join" line is printed, whatever the cancel returned; when the join
succeeds the status is `SUCCESSFUL_JOIN` if the cancel succeeded or failed
with `ESRCH`, and `ALREADY_CANCELLED` if the cancel failed with another
status, it is never `CANCEL_ERROR` or `JOIN_ERROR`, and nothing is printed. -/
theorem C15_join_failure_is_reported :
    (∀ (worker : Worker) (threadName : String) (cancelStatus joinStatus : Int),
      joinStatus ≠ 0 →
      (shutdownThreadWithPid worker cancelStatus joinStatus).1 = ShutdownStatus.JOIN_ERROR ∧
      printShutdownStatusErrors threadName
          (shutdownThreadWithPid worker cancelStatus joinStatus).1
        = [Event.print (" " ++ threadName ++ " has failed to join\n")]) ∧
    (∀ (worker : Worker) (threadName : String),
      (shutdownThreadWithPid worker 0 0).1 = ShutdownStatus.SUCCESSFUL_JOIN ∧
      printShutdownStatusErrors threadName (shutdownThreadWithPid worker 0 0).1 = []) ∧
    (∀ (worker : Worker) (threadName : String) (cancelStatus : Int), cancelStatus ≠ 0 →
      (shutdownThreadWithPid worker cancelStatus 0).1
        = (if cancelStatus = ESRCH then ShutdownStatus.SUCCESSFUL_JOIN
            else ShutdownStatus.ALREADY_CANCELLED) ∧
      (shutdownThreadWithPid worker cancelStatus 0).1 ≠ ShutdownStatus.CANCEL_ERROR ∧
      (shutdownThreadWithPid worker cancelStatus 0).1 ≠ ShutdownStatus.JOIN_ERROR ∧
      printShutdownStatusErrors threadName (shutdownThreadWithPid worker cancelStatus 0).1
        = []) := by
  refine ⟨?_, ?_, ?_⟩
  · intro worker threadName cancelStatus joinStatus hj
    simp [shutdownThreadWithPid, hj, printShutdownStatusErrors]
  · intro worker threadName
    simp [shutdownThreadWithPid, printShutdownStatusErrors]
  · intro worker threadName cancelStatus hc
    by_cases hE : cancelStatus = ESRCH
    · simp [shutdownThreadWithPid, hc, hE, printShutdownStatusErrors]
    · simp [shutdownThreadWithPid, hc, hE, printShutdownStatusErrors]

/-- A join of the sender that fails with status 22 after a cancel that
succeeded, and a cancel of the sender that fails with status 22 before a join
that succeeds: the hypotheses of C15 hold, and the first is reported as
`JOIN_ERROR` while the second gives `ALREADY_CANCELLED` and no line. -/
theorem C15_witness :
    ((22 : Int) ≠ 0 ∧
      (shutdownThreadWithPid Worker.sender 0 22).1 = ShutdownStatus.JOIN_ERROR ∧
      printShutdownStatusErrors "Sender" (shutdownThreadWithPid Worker.sender 0 22).1
        = [Event.print (" " ++ "Sender" ++ " has failed to join\n")]) ∧
    ((shutdownThreadWithPid Worker.sender 22 0).1
        = (if (22 : Int) = ESRCH then ShutdownStatus.SUCCESSFUL_JOIN
            else ShutdownStatus.ALREADY_CANCELLED) ∧
      (shutdownThreadWithPid Worker.sender 22 0).1 ≠ ShutdownStatus.CANCEL_ERROR ∧
      (shutdownThreadWithPid Worker.sender 22 0).1 ≠ ShutdownStatus.JOIN_ERROR ∧
      printShutdownStatusErrors "Sender" (shutdownThreadWithPid Worker.sender 22 0).1 = []) :=
  ⟨⟨by decide, C15_join_failure_is_reported.1 Worker.sender "Sender" 0 22 (by decide)⟩,
    C15_join_failure_is_reported.2.2 Worker.sender "Sender" 22 (by decide)⟩

/-! ## The shared socket -/

theorem getSocket_of_locked (ourPort : Nat) (env : SocketEnv) (w : World)
    (h : w.socketMutexLocked = true) :
    getSocketFdOrCreateAndBindIfDoesntExist ourPort env w = (SocketCall.blocked, [], w) := by
  simp [getSocketFdOrCreateAndBindIfDoesntExist, h]

theorem getSocket_of_existing (ourPort : Nat) (env : SocketEnv) (w : World)
    (hfree : w.socketMutexLocked = false) (h : w.socketDescriptor ≠ -1) :
    getSocketFdOrCreateAndBindIfDoesntExist ourPort env w
      = (SocketCall.returned w.socketDescriptor, [], w) := by
  simp [getSocketFdOrCreateAndBindIfDoesntExist, hfree, h]

theorem World.eta_socket (w : World) (h : w.socketDescriptor = -1) :
    { w with socketDescriptor := -1 } = w := by
  cases w
  simp only at h
  simp [h]

theorem getSocket_of_socket_failure (ourPort : Nat) (env : SocketEnv) (w : World)
    (hfree : w.socketMutexLocked = false) (h : w.socketDescriptor = -1)
    (hs : env.socketResult = -1) :
    getSocketFdOrCreateAndBindIfDoesntExist ourPort env w
      = (SocketCall.returned (-1),
          [Event.socket (-1), Event.print "Failed to create socket\n"], w) := by
  unfold getSocketFdOrCreateAndBindIfDoesntExist
  have h1 : ¬ (w.socketMutexLocked = true) := by rw [hfree]; decide
  have h2 : ¬ (w.socketDescriptor ≠ -1) := by rw [h]; decide
  rw [if_neg h1, if_neg h2]
  simp only
  rw [if_pos hs, hs, World.eta_socket w h]

theorem getSocket_of_bind_failure (ourPort : Nat) (env : SocketEnv) (w : World)
    (hfree : w.socketMutexLocked = false) (h : w.socketDescriptor = -1)
    (hs : env.socketResult ≠ -1) (hb : env.bindStatus = -1) :
    getSocketFdOrCreateAndBindIfDoesntExist ourPort env w
      = (SocketCall.returned (-1),
          [Event.socket env.socketResult, Event.bind env.socketResult ourPort (-1),
            Event.print "Failed to bind port\n", Event.close env.socketResult],
          { w with socketDescriptor := env.socketResult, socketMutexLocked := true }) := by
  simp [getSocketFdOrCreateAndBindIfDoesntExist, hfree, h, hs, hb]

theorem getSocket_of_success (ourPort : Nat) (env : SocketEnv) (w : World)
    (hfree : w.socketMutexLocked = false) (h : w.socketDescriptor = -1)
    (hs : env.socketResult ≠ -1) (hb : env.bindStatus ≠ -1) :
    getSocketFdOrCreateAndBindIfDoesntExist ourPort env w
      = (SocketCall.returned env.socketResult,
          [Event.socket env.socketResult, Event.bind env.socketResult ourPort env.bindStatus],
          { w with socketDescriptor := env.socketResult }) := by
  simp [getSocketFdOrCreateAndBindIfDoesntExist, hfree, h, hs, hb]

/-- Once the socket exists and its mutex is free, every call returns it and
does nothing else. -/
theorem getSocketCalls_of_existing (ourPort : Nat) (envs : List SocketEnv) (w : World)
    (hfree : w.socketMutexLocked = false) (h : w.socketDescriptor ≠ -1) :
    getSocketCalls ourPort envs w
      = (envs.map (fun _ => SocketCall.returned w.socketDescriptor), [], w) := by
  induction envs with
  | nil => rfl
  | cons env rest ih =>
    unfold getSocketCalls
    simp only [getSocket_of_existing ourPort env w hfree h, ih, List.map_cons, List.append_nil]

/-- Once the mutex of the socket is held for good, every call is suspended. -/
theorem getSocketCalls_of_locked (ourPort : Nat) (envs : List SocketEnv) (w : World)
    (h : w.socketMutexLocked = true) :
    getSocketCalls ourPort envs w = (envs.map (fun _ => SocketCall.blocked), [], w) := by
  induction envs with
  | nil => rfl
  | cons env rest ih =>
    unfold getSocketCalls
    simp only [getSocket_of_locked ourPort env w h, ih, List.map_cons, List.append_nil]

theorem socketsCreated_append (e1 e2 : List Event) :
    socketsCreated (e1 ++ e2) = socketsCreated e1 + socketsCreated e2 := by
  simp [socketsCreated, List.filter_append]

theorem socketOrBindCalls_nil : socketOrBindCalls [] = 0 := rfl

/-- A call that returns a descriptor leaves the socket recorded and its mutex
free. -/
theorem getSocket_returned_ne (ourPort : Nat) (env : SocketEnv) (w : World) (fd : Int)
    (events : List Event) (w1 : World)
    (h : getSocketFdOrCreateAndBindIfDoesntExist ourPort env w
      = (SocketCall.returned fd, events, w1))
    (hfd : fd ≠ -1) :
    w1.socketMutexLocked = false ∧ w1.socketDescriptor = fd := by
  cases hlock : w.socketMutexLocked with
  | true =>
    rw [getSocket_of_locked ourPort env w hlock] at h
    cases h
  | false =>
    by_cases hd : w.socketDescriptor = -1
    · by_cases hs : env.socketResult = -1
      · rw [getSocket_of_socket_failure ourPort env w hlock hd hs] at h
        injection h with h1 _
        injection h1 with h1
        exact absurd h1.symm hfd
      · by_cases hb : env.bindStatus = -1
        · rw [getSocket_of_bind_failure ourPort env w hlock hd hs hb] at h
          injection h with h1 _
          injection h1 with h1
          exact absurd h1.symm hfd
        · rw [getSocket_of_success ourPort env w hlock hd hs hb] at h
          injection h with h1 h2
          injection h1 with h1
          injection h2 with _ h2
          rw [← h2, ← h1]
          exact ⟨hlock, rfl⟩
    · rw [getSocket_of_existing ourPort env w hlock hd] at h
      injection h with h1 h2
      injection h1 with h1
      injection h2 with _ h2
      rw [← h2, ← h1]
      exact ⟨hlock, rfl⟩

/-- Over any sequence of calls at most one socket is created. -/
theorem socketsCreated_getSocketCalls_le (ourPort : Nat) (envs : List SocketEnv) :
    ∀ w : World, socketsCreated (getSocketCalls ourPort envs w).2.1 ≤ 1 := by
  induction envs with
  | nil => intro w; simp [getSocketCalls, socketsCreated]
  | cons env rest ih =>
    intro w
    cases hlock : w.socketMutexLocked with
    | true =>
      rw [getSocketCalls_of_locked ourPort _ w hlock]
      simp [socketsCreated]
    | false =>
      by_cases hd : w.socketDescriptor = -1
      · unfold getSocketCalls
        simp only [socketsCreated_append]
        by_cases hs : env.socketResult = -1
        · rw [getSocket_of_socket_failure ourPort env w hlock hd hs]
          have := ih w
          simpa [socketsCreated] using this
        · by_cases hb : env.bindStatus = -1
          · rw [getSocket_of_bind_failure ourPort env w hlock hd hs hb]
            simp only [getSocketCalls_of_locked ourPort rest
              { w with socketDescriptor := env.socketResult, socketMutexLocked := true } rfl]
            simp [socketsCreated, hs]
          · rw [getSocket_of_success ourPort env w hlock hd hs hb]
            simp only [getSocketCalls_of_existing ourPort rest
              { w with socketDescriptor := env.socketResult } hlock hs]
            simp [socketsCreated, hs]
      · rw [getSocketCalls_of_existing ourPort _ w hlock hd]
        simp [socketsCreated]

/-- C13. The endpoint is created at most once and then reused: once a call of
`getSocketFdOrCreateAndBindIfDoesntExist` has returned a descriptor, every
later call returns that same descriptor, makes no call of `socket` or `bind`
(it does nothing observable at all) and leaves the globals as they are; and
over every sequence of calls, from any state of the globals, at most one call
of `socket` returns a descriptor. -/
theorem C13_socket_created_at_most_once :
    (∀ (ourPort : Nat) (env : SocketEnv) (w : World) (fd : Int) (events : List Event)
        (w1 : World),
      getSocketFdOrCreateAndBindIfDoesntExist ourPort env w
        = (SocketCall.returned fd, events, w1) →
      fd ≠ -1 →
      ∀ later : List SocketEnv,
        getSocketCalls ourPort later w1
          = (later.map (fun _ => SocketCall.returned fd), [], w1) ∧
        socketOrBindCalls (getSocketCalls ourPort later w1).2.1 = 0) ∧
    (∀ (ourPort : Nat) (envs : List SocketEnv) (w : World),
      socketsCreated (getSocketCalls ourPort envs w).2.1 ≤ 1) := by
  refine ⟨?_, fun ourPort envs w => socketsCreated_getSocketCalls_le ourPort envs w⟩
  intro ourPort env w fd events w1 h hfd later
  obtain ⟨hfree, hdesc⟩ := getSocket_returned_ne ourPort env w fd events w1 h hfd
  have hcalls := getSocketCalls_of_existing ourPort later w1 hfree (by rw [hdesc]; exact hfd)
  rw [hdesc] at hcalls
  exact ⟨hcalls, by rw [hcalls]; rfl⟩

/-- Four calls from the initial globals, the first of which finds `socket`
failing and the second of which creates descriptor 3: the later calls return 3
and create nothing, and one socket is created in all. -/
theorem C13_witness :
    (getSocketCalls 9001 [⟨-1, 0⟩, ⟨3, 0⟩, ⟨4, 0⟩, ⟨5, -1⟩] World.initial).1
      = [SocketCall.returned (-1), SocketCall.returned 3, SocketCall.returned 3,
          SocketCall.returned 3] ∧
    (∀ later : List SocketEnv,
      getSocketCalls 9001 later { World.initial with socketDescriptor := 3 }
        = (later.map (fun _ => SocketCall.returned 3), [],
            { World.initial with socketDescriptor := 3 }) ∧
      socketOrBindCalls
        (getSocketCalls 9001 later { World.initial with socketDescriptor := 3 }).2.1 = 0) ∧
    socketsCreated (getSocketCalls 9001 [⟨-1, 0⟩, ⟨3, 0⟩, ⟨4, 0⟩, ⟨5, -1⟩] World.initial).2.1
      ≤ 1 :=
  ⟨by decide,
    C13_socket_created_at_most_once.1 9001 ⟨3, 0⟩ World.initial 3
      [Event.socket 3, Event.bind 3 9001 0] { World.initial with socketDescriptor := 3 }
      rfl (by decide),
    C13_socket_created_at_most_once.2 9001 _ World.initial⟩

/-- C14. A failed creation of the socket is atomic: the call returns -1 and
the globals are as before. A failed `bind` is not: for the call from the
initial globals in which `socket` returns 3 and `bind` fails, the call
returns -1 after closing descriptor 3, but `s_socketDescriptor` is left at 3
and the mutex of the socket is left locked, so the globals are not as
before; a later call is suspended on the mutex for ever, and the teardown
closes descriptor 3 a second time. -/
theorem C14_failed_bind_leaves_descriptor_and_lock :
    (∀ (ourPort : Nat) (env : SocketEnv) (w : World),
      w.socketMutexLocked = false → w.socketDescriptor = -1 → env.socketResult = -1 →
      getSocketFdOrCreateAndBindIfDoesntExist ourPort env w
        = (SocketCall.returned (-1),
            [Event.socket (-1), Event.print "Failed to create socket\n"], w)) ∧
    getSocketFdOrCreateAndBindIfDoesntExist 9001 ⟨3, -1⟩ World.initial
      = (SocketCall.returned (-1),
          [Event.socket 3, Event.bind 3 9001 (-1), Event.print "Failed to bind port\n",
            Event.close 3],
          { World.initial with socketDescriptor := 3, socketMutexLocked := true }) ∧
    ({ World.initial with socketDescriptor := 3, socketMutexLocked := true } : World)
      ≠ World.initial ∧
    (getSocketFdOrCreateAndBindIfDoesntExist 9001 ⟨4, 0⟩
        { World.initial with socketDescriptor := 3, socketMutexLocked := true }).1
      = SocketCall.blocked ∧
    (shutdownOfAllThreadsForProgram ⟨fun _ => 0, fun _ => 0, 0⟩
        { World.initial with socketDescriptor := 3, socketMutexLocked := true }).count
      (Event.close 3) = 1 := by
  refine ⟨fun ourPort env w hfree hd hs => getSocket_of_socket_failure ourPort env w hfree hd hs,
    rfl, by decide, rfl, by decide⟩

/-! ## The end of input and the failure to receive -/

theorem prependEvents_prependEvents (e1 e2 : List Event)
    (r : Except Fault (Flow × List Event × World)) :
    prependEvents e1 (prependEvents e2 r) = prependEvents (e1 ++ e2) r := by
  cases r with
  | error f => rfl
  | ok x =>
    obtain ⟨flow, events, w⟩ := x
    simp [prependEvents, List.append_assoc]

theorem prependEvents_nil (r : Except Fault (Flow × List Event × World)) :
    prependEvents [] r = r := by
  cases r with
  | error f => rfl
  | ok x =>
    obtain ⟨flow, events, w⟩ := x
    simp [prependEvents]

theorem callRequestShutdown_world (createStatus : Int) (w : World) :
    (callRequestShutdown createStatus w).2 = { w with isShutdownRequested := true } := by
  unfold callRequestShutdown requestShutdownOfAllThreadsForProgram
  simp only
  split
  · rfl
  · split <;> rfl

theorem byteAt_readBuffer_ne_zero (chunk : List Nat)
    (h : (bufferOfChunk (chunk.take MSG_MAX_LEN)).get? 0 ≠ some 0) :
    byteAt (bufferOfChunk (chunk.take MSG_MAX_LEN)) 0 ≠ 0 := by
  have h4 := four_le_MSG_MAX_LEN
  have hlen := length_readBuffer chunk
  intro h0
  apply h
  rw [get?_eq_some_byteAt _ 0 (by omega), h0]

/-- The iteration of the keyboard reader in which `read` has left NUL at the
start of the buffer. -/
theorem KeyboardReader_iteration_of_eof (chunk : List Nat) (createStatus : Int) (w : World)
    (h : (bufferOfChunk (chunk.take MSG_MAX_LEN)).get? 0 = some 0) :
    KeyboardReader_iteration chunk createStatus w = Except.ok
      (Flow.stop, Event.setcancelstate true :: (callRequestShutdown createStatus w).1,
        (callRequestShutdown createStatus w).2) := by
  unfold KeyboardReader_iteration readAt
  simp only [h, if_true]

theorem createMessage_returns (b : Buffer) (size : Nat) (flag : Bool) (w : World)
    (hsize : size ≤ b.length) :
    ∃ ret events w1,
      createMessageFromBufferAndPutOnQueue b size flag w = Except.ok (ret, events, w1) := by
  cases hq : w.outMessageQueue with
  | none =>
    refine ⟨false, [], w, ?_⟩
    unfold createMessageFromBufferAndPutOnQueue
    rw [hq]
  | some q =>
    obtain ⟨text, htext⟩ := copyMessageText_ok b size hsize
    cases hn : w.freeNodes with
    | zero => exact ⟨_, _, _, createMessage_of_full _ _ _ w q text hq htext hn⟩
    | succ n => exact ⟨_, _, _, createMessage_of_room _ _ _ w q text n hq htext hn⟩

/-- After an ordinary chunk the keyboard reader goes on, having requested no
shutdown. -/
theorem KeyboardReader_iteration_ordinary (chunk : List Nat) (createStatus : Int) (w : World)
    (h : isOrdinaryChunk chunk) :
    ∃ events w', KeyboardReader_iteration chunk createStatus w
        = Except.ok (Flow.next, events, w') ∧
      events.count Event.requestShutdown = 0 ∧
      w'.isShutdownRequested = w.isShutdownRequested := by
  obtain ⟨hfirst, hno⟩ := h
  have hfirst' := byteAt_readBuffer_ne_zero chunk hfirst
  obtain ⟨scan, b, hscan, hb, hblen, hsize⟩ :=
    check_result_wf _ (length_readBuffer chunk) (some 0)
  have hrv : scan.returnValue = false := by
    obtain ⟨r, hr, hiff⟩ := check_returnValue_iff _ (length_readBuffer chunk) (some 0)
    rw [hscan] at hr
    injection hr with hr
    cases hv : scan.returnValue with
    | false => rfl
    | true =>
      rw [hr] at hv
      rw [hiff.1 hv] at hno
      cases hno
  obtain ⟨ret, events1, w1, hcreate⟩ := createMessage_returns
    (scan.messageBuffer.getD (bufferOfChunk (chunk.take MSG_MAX_LEN)))
    (scan.sizeOfMessage.getD 0) scan.returnValue w
    (by rw [hb, Option.getD_some, hblen]; exact hsize)
  obtain ⟨hcount, hflag⟩ := createMessage_no_shutdown _ _ _ _ _ _ _ hcreate
  obtain ⟨result, hiter, hres⟩ :=
    KeyboardReader_iteration_eq chunk createStatus w hfirst' scan ret events1 w1 hscan hcreate
  rw [hrv] at hres
  simp only [Bool.false_eq_true, if_false] at hres
  rw [hres] at hiter
  exact ⟨_, _, hiter, by simp [List.count_append, hcount], hflag⟩

/-- A run of ordinary chunks takes the keyboard reader through as many
iterations, without any request for shutdown. -/
theorem KeyboardReader_loop_ordinary (createStatus : Int) (pre : List (List Nat)) :
    ∀ (rest : List (List Nat)) (w : World), (∀ c, c ∈ pre → isOrdinaryChunk c) →
      ∃ events0 w0, events0.count Event.requestShutdown = 0 ∧
        KeyboardReader_loop (pre ++ rest) createStatus w
          = prependEvents events0 (KeyboardReader_loop rest createStatus w0) := by
  induction pre with
  | nil =>
    intro rest w _
    exact ⟨[], w, rfl, (prependEvents_nil _).symm⟩
  | cons c cs ih =>
    intro rest w hall
    obtain ⟨events1, w1, hiter, hcount1, _⟩ :=
      KeyboardReader_iteration_ordinary c createStatus w (hall c (List.mem_cons_self c cs))
    obtain ⟨events0, w0, hcount0, hloop⟩ :=
      ih rest w1 (fun d hd => hall d (List.mem_cons_of_mem c hd))
    refine ⟨events1 ++ events0, w0, by simp [List.count_append, hcount1, hcount0], ?_⟩
    have hstep : KeyboardReader_loop (c :: (cs ++ rest)) createStatus w
        = prependEvents events1 (KeyboardReader_loop (cs ++ rest) createStatus w1) :=
      whileLoop_of_next _ c (cs ++ rest) w events1 w1 hiter
    rw [List.cons_append, hstep, hloop, prependEvents_prependEvents]

theorem ScreenPrinter_put_keeps_queue (p : MessagePtr) (w : World) (q : CList)
    (hq : w.pInMessageQueue = some q) (ret : Bool) (events : List Event) (w1 : World)
    (h : ScreenPrinter_putMessageOnQueue p w = Except.ok (ret, events, w1)) :
    ∃ q1, w1.pInMessageQueue = some q1 := by
  cases hn : w.freeNodes with
  | zero =>
    rw [ScreenPrinter_put_of_full p w q hq hn] at h
    injection h with h
    injection h with _ h
    injection h with _ h
    rw [← h]
    exact ⟨_, rfl⟩
  | succ n =>
    rw [ScreenPrinter_put_of_room p w q n hq hn] at h
    injection h with h
    injection h with _ h
    injection h with _ h
    rw [← h]
    exact ⟨_, rfl⟩

/-- After an ordinary datagram the listener goes on, having requested no
shutdown, and the inbound queue still exists. -/
theorem Listener_iteration_ordinary (datagram : List Nat) (createStatus : Int) (w : World)
    (q : CList) (hq : w.pInMessageQueue = some q) (h : isOrdinaryDatagram datagram) :
    ∃ events w' q', Listener_iteration (some datagram) createStatus w
        = Except.ok (Flow.next, events, w') ∧
      events.count Event.requestShutdown = 0 ∧ w'.pInMessageQueue = some q' := by
  obtain ⟨scan, pMessage, enq, events1, w1, hscan, _, _, hput, hcount, _, result, hiter, hres⟩ :=
    Listener_iteration_eq datagram createStatus w q hq
  have hrv : scan.returnValue = false := by
    obtain ⟨r, hr, hiff⟩ := check_returnValue_iff _ (length_readBuffer datagram) none
    rw [hscan] at hr
    injection hr with hr
    cases hv : scan.returnValue with
    | false => rfl
    | true =>
      rw [hr] at hv
      have := hiff.1 hv
      unfold isOrdinaryDatagram at h
      rw [this] at h
      cases h
  obtain ⟨q1, hq1⟩ := ScreenPrinter_put_keeps_queue pMessage
    { w with nextAddr := w.nextAddr + 1 } q hq enq events1 w1 hput
  rw [hrv] at hres
  simp only [Bool.false_eq_true, if_false] at hres
  rw [hres] at hiter
  exact ⟨_, _, q1, hiter, by simp [List.count_append, hcount], hq1⟩

/-- A run of ordinary datagrams takes the listener through as many
iterations, without any request for shutdown. -/
theorem Listener_loop_ordinary (createStatus : Int) (pre : List (List Nat)) :
    ∀ (rest : List (Option (List Nat))) (w : World) (q : CList), w.pInMessageQueue = some q →
      (∀ d, d ∈ pre → isOrdinaryDatagram d) →
      ∃ events0 w0, events0.count Event.requestShutdown = 0 ∧
        Listener_loop (pre.map some ++ rest) createStatus w
          = prependEvents events0 (Listener_loop rest createStatus w0) := by
  induction pre with
  | nil =>
    intro rest w q _ _
    exact ⟨[], w, rfl, (prependEvents_nil _).symm⟩
  | cons d ds ih =>
    intro rest w q hq hall
    obtain ⟨events1, w1, q1, hiter, hcount1, hq1⟩ :=
      Listener_iteration_ordinary d createStatus w q hq (hall d (List.mem_cons_self d ds))
    obtain ⟨events0, w0, hcount0, hloop⟩ :=
      ih rest w1 q1 hq1 (fun e he => hall e (List.mem_cons_of_mem d he))
    refine ⟨events1 ++ events0, w0, by simp [List.count_append, hcount1, hcount0], ?_⟩
    have hstep : Listener_loop (some d :: (ds.map some ++ rest)) createStatus w
        = prependEvents events1 (Listener_loop (ds.map some ++ rest) createStatus w1) :=
      whileLoop_of_next _ (some d) (ds.map some ++ rest) w events1 w1 hiter
    rw [List.map_cons, List.cons_append, hstep, hloop, prependEvents_prependEvents]

theorem count_requestShutdown_wait (w : World) :
    (waitForAllThreadsReadyBarrier w).1.count Event.requestShutdown = 0 := by
  unfold waitForAllThreadsReadyBarrier
  simp only
  split <;> simp [List.count_cons]

/-- A call for the socket whose mutex is free returns, requests no shutdown
and leaves the inbound queue alone. -/
theorem getSocket_of_free (ourPort : Nat) (env : SocketEnv) (w : World)
    (hfree : w.socketMutexLocked = false) :
    ∃ fd events w1, getSocketFdOrCreateAndBindIfDoesntExist ourPort env w
        = (SocketCall.returned fd, events, w1) ∧
      events.count Event.requestShutdown = 0 ∧ w1.pInMessageQueue = w.pInMessageQueue := by
  by_cases hd : w.socketDescriptor = -1
  · by_cases hs : env.socketResult = -1
    · exact ⟨_, _, _, getSocket_of_socket_failure ourPort env w hfree hd hs,
        by simp [List.count_cons], rfl⟩
    · by_cases hb : env.bindStatus = -1
      · exact ⟨_, _, _, getSocket_of_bind_failure ourPort env w hfree hd hs hb,
          by simp [List.count_cons], rfl⟩
      · exact ⟨_, _, _, getSocket_of_success ourPort env w hfree hd hs hb,
          by simp [List.count_cons], rfl⟩
  · exact ⟨_, _, _, getSocket_of_existing ourPort env w hfree hd, rfl, rfl⟩

theorem Listener_iteration_of_failure (createStatus : Int) (w : World) :
    Listener_iteration none createStatus w = Except.ok
      (Flow.stop,
        [Event.setcancelstate true, Event.print "**Error receiving message**\n"]
          ++ (callRequestShutdown createStatus w).1,
        (callRequestShutdown createStatus w).2) := rfl

/-- C11. A fatal input condition ends the producer without producing a
message. When `read` leaves nothing in the buffer (its first byte is NUL, as
at the end of input), the iteration of `KeyboardReader_run` stops the worker
with exactly one request for shutdown and leaves the outbound queue, the node
pool and the heap as they were; when `recvfrom` fails, the iteration of
`Listener_run` does the same for the inbound queue. In a whole run in which
ordinary chunks (datagrams) come before that, the worker stops there, whatever
follows, and has requested shutdown exactly once. -/
theorem C11_fatal_input_ends_producer :
    (∀ (chunk : List Nat) (createStatus : Int) (w : World),
      (bufferOfChunk (chunk.take MSG_MAX_LEN)).get? 0 = some 0 →
      ∃ events w', KeyboardReader_iteration chunk createStatus w
          = Except.ok (Flow.stop, events, w') ∧
        events.count Event.requestShutdown = 1 ∧
        w'.outMessageQueue = w.outMessageQueue ∧ w'.freeNodes = w.freeNodes ∧
        w'.nextAddr = w.nextAddr ∧ w'.isShutdownRequested = true) ∧
    (∀ (pre rest : List (List Nat)) (createStatus : Int) (w : World),
      (∀ c, c ∈ pre → isOrdinaryChunk c) →
      ∃ events w', KeyboardReader_run (pre ++ [] :: rest) createStatus w
          = Except.ok (Flow.stop, events, w') ∧
        events.count Event.requestShutdown = 1) ∧
    (∀ (createStatus : Int) (w : World),
      ∃ events w', Listener_iteration none createStatus w
          = Except.ok (Flow.stop, events, w') ∧
        events.count Event.requestShutdown = 1 ∧
        w'.pInMessageQueue = w.pInMessageQueue ∧ w'.freeNodes = w.freeNodes ∧
        w'.nextAddr = w.nextAddr ∧ w'.isShutdownRequested = true) ∧
    (∀ (ourPort : Nat) (socketEnv : SocketEnv) (pre : List (List Nat))
        (rest : List (Option (List Nat))) (createStatus : Int) (w : World) (q : CList),
      w.pInMessageQueue = some q → w.socketMutexLocked = false →
      (∀ d, d ∈ pre → isOrdinaryDatagram d) →
      ∃ events w', Listener_run ourPort socketEnv (pre.map some ++ none :: rest) createStatus w
          = Except.ok (Flow.stop, events, w') ∧
        events.count Event.requestShutdown = 1) := by
  refine ⟨?_, ?_, ?_, ?_⟩
  · intro chunk createStatus w h
    refine ⟨_, _, KeyboardReader_iteration_of_eof chunk createStatus w h, ?_, ?_⟩
    · simp [List.count_cons, count_requestShutdown_call]
    · rw [callRequestShutdown_world]
      exact ⟨rfl, rfl, rfl, rfl⟩
  · intro pre rest createStatus w hall
    obtain ⟨events0, w0, hcount0, hloop⟩ :=
      KeyboardReader_loop_ordinary createStatus pre ([] :: rest)
        (waitForAllThreadsReadyBarrier w).2 hall
    have hlast : KeyboardReader_loop ([] :: rest) createStatus w0
        = Except.ok (Flow.stop, Event.setcancelstate true :: (callRequestShutdown createStatus w0).1,
            (callRequestShutdown createStatus w0).2) :=
      whileLoop_of_stop _ [] rest w0 _ _ (KeyboardReader_iteration_of_eof [] createStatus w0 rfl)
    unfold KeyboardReader_run
    simp only [hloop, hlast, prependEvents]
    refine ⟨_, _, rfl, ?_⟩
    have hwait := count_requestShutdown_wait w
    have hcall := count_requestShutdown_call createStatus w0
    have hprint : ∀ (c : Prop) [Decidable c], (if c then
        [Event.print "KeyboardReader_run: error: message list is NULL\n"]
        else []).count Event.requestShutdown = 0 := by
      intro c _
      split <;> simp [List.count_cons]
    simp [List.count_append, List.count_cons, hwait, hcall, hcount0, hprint]
  · intro createStatus w
    refine ⟨_, _, Listener_iteration_of_failure createStatus w, ?_, ?_⟩
    · simp [List.count_cons, List.count_append, count_requestShutdown_call]
    · rw [callRequestShutdown_world]
      exact ⟨rfl, rfl, rfl, rfl⟩
  · intro ourPort socketEnv pre rest createStatus w q hq hfree hall
    obtain ⟨fd, events1, w1, hsock, hcount1, hq1⟩ :=
      getSocket_of_free ourPort socketEnv (waitForAllThreadsReadyBarrier w).2 hfree
    have hq1' : w1.pInMessageQueue = some q := by rw [hq1]; exact hq
    obtain ⟨events0, w0, hcount0, hloop⟩ :=
      Listener_loop_ordinary createStatus pre (none :: rest) w1 q hq1' hall
    have hlast : Listener_loop (none :: rest) createStatus w0
        = Except.ok (Flow.stop,
            [Event.setcancelstate true, Event.print "**Error receiving message**\n"]
              ++ (callRequestShutdown createStatus w0).1,
            (callRequestShutdown createStatus w0).2) :=
      whileLoop_of_stop _ none rest w0 _ _ (Listener_iteration_of_failure createStatus w0)
    unfold Listener_run
    simp only [hsock, hloop, hlast, prependEvents]
    refine ⟨_, _, rfl, ?_⟩
    have hwait := count_requestShutdown_wait w
    have hcall := count_requestShutdown_call createStatus w0
    simp [List.count_append, List.count_cons, hwait, hcall, hcount0, hcount1]

/-- The chunks `"hi\n"` and `"yo\n"` followed by the end of input: the
hypotheses of C11 hold, and the run of the keyboard reader stops there with
one request for shutdown. -/
theorem C11_witness :
    (∀ c, c ∈ [[104, 105, 10], [121, 111, 10]] → isOrdinaryChunk c) ∧
    (∃ events w',
      KeyboardReader_run ([[104, 105, 10], [121, 111, 10]] ++ [] :: [[120, 10]]) 0 World.initial
        = Except.ok (Flow.stop, events, w') ∧
      events.count Event.requestShutdown = 1) ∧
    (KeyboardReader_run [[104, 105, 10], [121, 111, 10], [], [120, 10]] 0
        World.initial).toOption.map (fun r => (r.1, r.2.1))
      = some (Flow.stop,
          [Event.barrierWait Barrier.allThreadsReady,
            Event.barrierDestroy Barrier.allThreadsReady,
            Event.setcancelstate false, Event.condSignal Worker.keyboardReader,
            Event.setcancelstate true,
            Event.setcancelstate false, Event.condSignal Worker.keyboardReader,
            Event.setcancelstate true,
            Event.setcancelstate true, Event.requestShutdown,
            Event.createShutdownHelper 0]) := by
  have hall : ∀ c, c ∈ [[104, 105, 10], [121, 111, 10]] → isOrdinaryChunk c := by
    intro c hc
    rcases List.mem_cons.mp hc with h | h
    · rw [h]; exact ⟨by decide, by decide⟩
    · rcases List.mem_cons.mp h with h | h
      · rw [h]; exact ⟨by decide, by decide⟩
      · cases h
  exact ⟨hall, C11_fatal_input_ends_producer.2.1 _ [[120, 10]] 0 World.initial hall, by decide⟩

/-! ## The readiness barrier -/

theorem prependEvents_cons_ok (e : Event) (pre : List Event)
    (r : Except Fault (Flow × List Event × World)) (flow : Flow) (events : List Event)
    (w' : World) (h : prependEvents (e :: pre) r = Except.ok (flow, events, w')) :
    ∃ rest, events = e :: rest := by
  cases r with
  | error f => simp [prependEvents] at h
  | ok res =>
    obtain ⟨flow2, events2, w2⟩ := res
    simp only [prependEvents, Except.ok.injEq, Prod.mk.injEq] at h
    exact ⟨pre ++ events2, by rw [← h.2.1]; rfl⟩

theorem waitForAllThreadsReadyBarrier_events (w : World) :
    (waitForAllThreadsReadyBarrier w).1 = Event.barrierWait Barrier.allThreadsReady ::
      (if w.barrierForAllThreadsReadyDestroyed then []
        else [Event.barrierDestroy Barrier.allThreadsReady]) := rfl

/-- C17. Readiness ordering. `initBarriers` initialises the readiness barrier
for exactly 4 parties (and the shutdown barrier for 2), and whatever the four
entry functions `KeyboardReader_run`, `ScreenPrinter_run`, `Sender_run` and
`Listener_run` go on to do, in whatever state they start, the first action of
each is the wait on the readiness barrier: every other action of the worker
(the acquisition of the socket, reading, receiving, sending, dequeuing,
writing) comes after it. This is so in every run that returns, and every run
is the barrier wait followed by the rest (the loop, or the suspension on the
mutex of the socket), whether the rest returns or not. -/
theorem C17_readiness_barrier_first :
    initBarriers = [Event.barrierInit Barrier.allThreadsReady 4,
      Event.barrierInit Barrier.allThreadsGoingToShutdown 2] ∧
    (∀ (chunks : List (List Nat)) (createStatus : Int) (w : World) (flow : Flow)
        (events : List Event) (w' : World),
      KeyboardReader_run chunks createStatus w = Except.ok (flow, events, w') →
      ∃ rest, events = Event.barrierWait Barrier.allThreadsReady :: rest) ∧
    (∀ (iterations : Nat) (createStatus : Int) (w : World) (flow : Flow)
        (events : List Event) (w' : World),
      ScreenPrinter_run iterations createStatus w = Except.ok (flow, events, w') →
      ∃ rest, events = Event.barrierWait Barrier.allThreadsReady :: rest) ∧
    (∀ (ourPort : Nat) (socketEnv : SocketEnv) (sendStatuses : List Int) (createStatus : Int)
        (w : World) (flow : Flow) (events : List Event) (w' : World),
      Sender_run ourPort socketEnv sendStatuses createStatus w = Except.ok (flow, events, w') →
      ∃ rest, events = Event.barrierWait Barrier.allThreadsReady :: rest) ∧
    (∀ (ourPort : Nat) (socketEnv : SocketEnv) (received : List (Option (List Nat)))
        (createStatus : Int) (w : World) (flow : Flow) (events : List Event) (w' : World),
      Listener_run ourPort socketEnv received createStatus w = Except.ok (flow, events, w') →
      ∃ rest, events = Event.barrierWait Barrier.allThreadsReady :: rest) ∧
    (∀ (chunks : List (List Nat)) (createStatus : Int) (w : World),
      ∃ pre, KeyboardReader_run chunks createStatus w
        = prependEvents (Event.barrierWait Barrier.allThreadsReady :: pre)
            (KeyboardReader_loop chunks createStatus (waitForAllThreadsReadyBarrier w).2)) ∧
    (∀ (iterations : Nat) (createStatus : Int) (w : World),
      ∃ pre, ScreenPrinter_run iterations createStatus w
        = prependEvents (Event.barrierWait Barrier.allThreadsReady :: pre)
            (ScreenPrinter_loop iterations createStatus (waitForAllThreadsReadyBarrier w).2)) ∧
    (∀ (ourPort : Nat) (socketEnv : SocketEnv) (sendStatuses : List Int) (createStatus : Int)
        (w : World),
      ∃ pre w1,
        Sender_run ourPort socketEnv sendStatuses createStatus w
          = Except.ok (Flow.blocked, Event.barrierWait Barrier.allThreadsReady :: pre, w1) ∨
        Sender_run ourPort socketEnv sendStatuses createStatus w
          = prependEvents (Event.barrierWait Barrier.allThreadsReady :: pre)
              (Sender_loop sendStatuses createStatus w1)) ∧
    (∀ (ourPort : Nat) (socketEnv : SocketEnv) (received : List (Option (List Nat)))
        (createStatus : Int) (w : World),
      ∃ pre w1,
        Listener_run ourPort socketEnv received createStatus w
          = Except.ok (Flow.blocked, Event.barrierWait Barrier.allThreadsReady :: pre, w1) ∨
        Listener_run ourPort socketEnv received createStatus w
          = prependEvents (Event.barrierWait Barrier.allThreadsReady :: pre)
              (Listener_loop received createStatus w1)) := by
  refine ⟨rfl, ?_, ?_, ?_, ?_, ?_, ?_, ?_, ?_⟩
  · intro chunks createStatus w flow events w' h
    unfold KeyboardReader_run at h
    simp only [waitForAllThreadsReadyBarrier_events, List.cons_append] at h
    exact prependEvents_cons_ok _ _ _ _ _ _ h
  · intro iterations createStatus w flow events w' h
    unfold ScreenPrinter_run at h
    simp only [waitForAllThreadsReadyBarrier_events, List.cons_append] at h
    exact prependEvents_cons_ok _ _ _ _ _ _ h
  · intro ourPort socketEnv sendStatuses createStatus w flow events w' h
    unfold Sender_run at h
    simp only [waitForAllThreadsReadyBarrier_events, List.cons_append] at h
    split at h
    · simp only [Except.ok.injEq, Prod.mk.injEq] at h
      exact ⟨_, h.2.1.symm⟩
    · exact prependEvents_cons_ok _ _ _ _ _ _ h
  · intro ourPort socketEnv received createStatus w flow events w' h
    unfold Listener_run at h
    simp only [waitForAllThreadsReadyBarrier_events, List.cons_append] at h
    split at h
    · simp only [Except.ok.injEq, Prod.mk.injEq] at h
      exact ⟨_, h.2.1.symm⟩
    · exact prependEvents_cons_ok _ _ _ _ _ _ h
  · intro chunks createStatus w
    exact ⟨_, rfl⟩
  · intro iterations createStatus w
    exact ⟨_, rfl⟩
  · intro ourPort socketEnv sendStatuses createStatus w
    unfold Sender_run
    simp only [waitForAllThreadsReadyBarrier_events, List.cons_append]
    split
    · exact ⟨_, _, Or.inl rfl⟩
    · exact ⟨_, _, Or.inr rfl⟩
  · intro ourPort socketEnv received createStatus w
    unfold Listener_run
    simp only [waitForAllThreadsReadyBarrier_events, List.cons_append]
    split
    · exact ⟨_, _, Or.inl rfl⟩
    · exact ⟨_, _, Or.inr rfl⟩

/-- The sender started on port 9001 with an empty outbound queue: it waits on
the barrier, creates and binds the socket, and is then suspended in the
dequeue; the barrier wait is the first of its actions. -/
theorem C17_witness :
    Sender_run 9001 ⟨3, 0⟩ [0] 0 World.initial
      = Except.ok (Flow.blocked,
          [Event.barrierWait Barrier.allThreadsReady,
            Event.barrierDestroy Barrier.allThreadsReady,
            Event.socket 3, Event.bind 3 9001 0],
          { World.initial with
              barrierForAllThreadsReadyDestroyed := true, socketDescriptor := 3 }) ∧
    ∃ rest, [Event.barrierWait Barrier.allThreadsReady,
        Event.barrierDestroy Barrier.allThreadsReady,
        Event.socket 3, Event.bind 3 9001 0]
      = Event.barrierWait Barrier.allThreadsReady :: rest :=
  ⟨rfl, C17_readiness_barrier_first.2.2.2.1 9001 ⟨3, 0⟩ [0] 0 World.initial _ _ _ rfl⟩

/-! ## Cancellation while a consumer holds a message -/

theorem dequeueMessage_events (freeNodes : Nat) (q : CList) (pMessage : Option MessagePtr)
    (events : List Event) (freeNodes' : Nat) (q' : CList)
    (h : dequeueMessage freeNodes q = (Dequeued.returned pMessage, events, freeNodes', q')) :
    events = Event.setcancelstate false ::
      (if isNullOrWithoutText pMessage then [Event.setcancelstate true] else []) := by
  unfold dequeueMessage at h
  split at h
  · simp at h
  · simp only [Prod.mk.injEq, Dequeued.returned.injEq] at h
    rw [← h.2.1, h.1]

theorem KeyboardReader_get_events (w : World) (p : MessagePtr) (events0 : List Event)
    (w1 : World)
    (hget : KeyboardReader_getMessageFromQueue w = (Dequeued.returned (some p), events0, w1)) :
    events0 = Event.setcancelstate false ::
      (if isNullOrWithoutText (some p) then [Event.setcancelstate true] else []) := by
  unfold KeyboardReader_getMessageFromQueue at hget
  split at hget
  · simp at hget
  · simp only [Prod.mk.injEq] at hget
    exact hget.2.1 ▸ dequeueMessage_events _ _ _ _ _ _
      (Prod.ext hget.1 (Prod.ext rfl rfl))

theorem getMessageFromQueue_events (w : World) (p : MessagePtr) (events0 : List Event)
    (w1 : World)
    (hget : getMessageFromQueue w = (Dequeued.returned (some p), events0, w1)) :
    events0 = Event.setcancelstate false ::
      (if isNullOrWithoutText (some p) then [Event.setcancelstate true] else []) := by
  unfold getMessageFromQueue at hget
  split at hget
  · simp at hget
  · simp only [Prod.mk.injEq] at hget
    exact hget.2.1 ▸ dequeueMessage_events _ _ _ _ _ _
      (Prod.ext hget.1 (Prod.ext rfl rfl))

theorem cancelEnabledAfter_of_no_set (before : Bool) (events : List Event)
    (h : ∀ e, e ∈ events → e.isSetcancelstate = false) :
    cancelEnabledAfter before events = before := by
  induction events generalizing before with
  | nil => rfl
  | cons e rest ih =>
    have he := h e (List.mem_cons_self e rest)
    have hrest : ∀ e', e' ∈ rest → e'.isSetcancelstate = false :=
      fun e' he' => h e' (List.mem_cons_of_mem e he')
    unfold cancelEnabledAfter
    rw [List.foldl_cons]
    cases e with
    | setcancelstate b => simp [Event.isSetcancelstate] at he
    | _ => exact ih before hrest

theorem cancelEnabledAfter_append (before : Bool) (a b : List Event) :
    cancelEnabledAfter before (a ++ b) = cancelEnabledAfter (cancelEnabledAfter before a) b := by
  unfold cancelEnabledAfter
  rw [List.foldl_append]

/-- In a sequence that disables cancellation, goes through `held` without
touching the cancel state and then enables it again, cancellation is disabled
after every nonempty beginning of the sequence that does not yet contain all
of `held`. -/
theorem cancel_deferred_of_layout (held post pre rest : List Event) (x : Event)
    (hheld : ∀ e, e ∈ held → e.isSetcancelstate = false) (hx : x ∈ held)
    (hsplit : Event.setcancelstate false :: held ++ Event.setcancelstate true :: post
      = pre ++ rest)
    (hne : pre ≠ []) (hnot : x ∉ pre) (before : Bool) :
    cancelEnabledAfter before pre = false := by
  rw [List.append_eq_append_iff] at hsplit
  rcases hsplit with ⟨a, ha, _⟩ | ⟨c, hc, _⟩
  · exfalso
    apply hnot
    rw [ha]
    exact List.mem_append_left _ (List.mem_cons_of_mem _ hx)
  · cases pre with
    | nil => exact absurd rfl hne
    | cons e pre' =>
      simp only [List.cons_append, List.cons.injEq] at hc
      obtain ⟨he, hheldeq⟩ := hc
      subst he
      have hpre : ∀ e, e ∈ pre' → e.isSetcancelstate = false := by
        intro e he
        apply hheld
        rw [hheldeq]
        exact List.mem_append_left _ he
      have := cancelEnabledAfter_append before [Event.setcancelstate false] pre'
      simp only [List.singleton_append] at this
      rw [this, cancelEnabledAfter_of_no_set _ _ hpre]
      rfl

theorem callRequestShutdown_no_setcancelstate (createStatus : Int) (w : World) :
    ∀ e, e ∈ (callRequestShutdown createStatus w).1 → e.isSetcancelstate = false := by
  intro e he
  have hcases : (callRequestShutdown createStatus w).1 = [Event.requestShutdown]
      ∨ (callRequestShutdown createStatus w).1 = [Event.requestShutdown,
          Event.createShutdownHelper createStatus,
          Event.print "Fatal error: Failed to initiate shutdown thread\n"]
      ∨ (callRequestShutdown createStatus w).1 = [Event.requestShutdown,
          Event.createShutdownHelper createStatus] := by
    unfold callRequestShutdown requestShutdownOfAllThreadsForProgram
    by_cases h1 : w.isShutdownRequested = true
    · left; simp [h1]
    · by_cases h2 : createStatus = 0
      · right; right; simp [h1, h2]
      · right; left; simp [h1, h2]
  rcases hcases with h | h | h
  · rw [h] at he
    simp only [List.mem_cons, List.not_mem_nil, or_false] at he
    rw [he]; rfl
  · rw [h] at he
    simp only [List.mem_cons, List.not_mem_nil, or_false] at he
    rcases he with he | he | he <;> rw [he] <;> rfl
  · rw [h] at he
    simp only [List.mem_cons, List.not_mem_nil, or_false] at he
    rcases he with he | he <;> rw [he] <;> rfl

theorem freeMessageFn_of_text (p : MessagePtr) (pText : Buffer)
    (htext : p.target.pText = some pText) :
    freeMessageFn (some p) = [Event.freeText p.addr, Event.freeMessage p.addr] := by
  simp [freeMessageFn, htext]

theorem isNullOrWithoutText_of_text (p : MessagePtr) (pText : Buffer)
    (htext : p.target.pText = some pText) : isNullOrWithoutText (some p) = false := by
  simp [isNullOrWithoutText, htext]

theorem sender_cancel_deferred (p : MessagePtr) (pText : Buffer) (payload : List Nat)
    (sendStatus : Int) (post : List Event) (htext : p.target.pText = some pText)
    (before : Bool) (pre rest : List Event)
    (hsplit : [Event.setcancelstate false] ++ freeMessageFn (some p)
        ++ [Event.sendto payload sendStatus]
        ++ (if sendStatus = -1 then [Event.print "**Error sending message**\n"] else [])
        ++ [Event.setcancelstate true] ++ post = pre ++ rest)
    (hne : pre ≠ [])
    (hnot : Event.freeMessage p.addr ∉ pre ∨ Event.sendto payload sendStatus ∉ pre) :
    cancelEnabledAfter before pre = false := by
  rw [freeMessageFn_of_text p pText htext] at hsplit
  have hheld : ∀ e, e ∈ [Event.freeText p.addr, Event.freeMessage p.addr,
      Event.sendto payload sendStatus]
        ++ (if sendStatus = -1 then [Event.print "**Error sending message**\n"] else [])
      → e.isSetcancelstate = false := by
    intro e he
    rcases List.mem_append.mp he with h | h
    · simp only [List.mem_cons, List.mem_singleton, List.not_mem_nil, or_false] at h
      rcases h with h | h | h <;> rw [h] <;> rfl
    · split at h
      · rw [List.mem_singleton.mp h]; rfl
      · cases h
  have hsplit' : Event.setcancelstate false ::
      ([Event.freeText p.addr, Event.freeMessage p.addr, Event.sendto payload sendStatus]
        ++ (if sendStatus = -1 then [Event.print "**Error sending message**\n"] else []))
      ++ Event.setcancelstate true :: post = pre ++ rest := by
    rw [← hsplit]
    simp
  rcases hnot with hnot | hnot
  · exact cancel_deferred_of_layout _ post pre rest (Event.freeMessage p.addr) hheld
      (by simp) hsplit' hne hnot before
  · exact cancel_deferred_of_layout _ post pre rest (Event.sendto payload sendStatus) hheld
      (by simp) hsplit' hne hnot before

theorem printer_cancel_deferred (p : MessagePtr) (pText : Buffer) (text : List Nat)
    (post : List Event) (htext : p.target.pText = some pText)
    (before : Bool) (pre rest : List Event)
    (hsplit : [Event.setcancelstate false] ++ [Event.display text] ++ freeMessageFn (some p)
        ++ [Event.setcancelstate true, Event.flush] ++ post = pre ++ rest)
    (hne : pre ≠ []) (hnot : Event.freeMessage p.addr ∉ pre) :
    cancelEnabledAfter before pre = false := by
  rw [freeMessageFn_of_text p pText htext] at hsplit
  have hheld : ∀ e, e ∈ [Event.display text, Event.freeText p.addr, Event.freeMessage p.addr]
      → e.isSetcancelstate = false := by
    intro e h
    simp only [List.mem_cons, List.mem_singleton, List.not_mem_nil, or_false] at h
    rcases h with h | h | h <;> rw [h] <;> rfl
  have hsplit' : Event.setcancelstate false ::
      [Event.display text, Event.freeText p.addr, Event.freeMessage p.addr]
      ++ Event.setcancelstate true :: (Event.flush :: post) = pre ++ rest := by
    rw [← hsplit]
    simp
  exact cancel_deferred_of_layout _ _ pre rest (Event.freeMessage p.addr) hheld
    (by simp) hsplit' hne hnot before

/-- Cancellation is deferred while a consumer holds a message that has a
text. For the sender and the screen printer and every dequeued
`Message` that is not `NULL` and whose `pText` is not `NULL` (a NUL-terminated
string): the dequeue disables cancellation and does not enable it again; the
iteration disposes of the `Message` (and, in the sender, attempts the send);
and after every nonempty beginning of the iteration, whatever the cancel state
was before it, the cancel state is disabled as long as the disposal (or, in
the sender, the send attempt) is not part of that beginning. At the end of the
iteration cancellation is enabled again. -/
theorem cancellation_deferred_of_text :
    (∀ (sendStatus createStatus : Int) (w : World) (events0 : List Event) (w1 : World)
        (p : MessagePtr) (pText : Buffer),
      KeyboardReader_getMessageFromQueue w = (Dequeued.returned (some p), events0, w1) →
      p.target.pText = some pText → 0 ∈ pText →
      events0 = [Event.setcancelstate false] ∧
      ∃ flow events w' payload,
        Sender_iteration sendStatus createStatus w = Except.ok (flow, events, w') ∧
        Event.freeMessage p.addr ∈ events ∧ Event.sendto payload sendStatus ∈ events ∧
        (∀ (before : Bool) (pre rest : List Event), events = pre ++ rest → pre ≠ [] →
          (Event.freeMessage p.addr ∉ pre ∨ Event.sendto payload sendStatus ∉ pre) →
          cancelEnabledAfter before pre = false) ∧
        (∀ before : Bool, cancelEnabledAfter before events = true)) ∧
    (∀ (createStatus : Int) (w : World) (events0 : List Event) (w1 : World)
        (p : MessagePtr) (pText : Buffer),
      getMessageFromQueue w = (Dequeued.returned (some p), events0, w1) →
      p.target.pText = some pText → 0 ∈ pText →
      events0 = [Event.setcancelstate false] ∧
      ∃ flow events w',
        ScreenPrinter_iteration createStatus w = Except.ok (flow, events, w') ∧
        Event.freeMessage p.addr ∈ events ∧
        (∀ (before : Bool) (pre rest : List Event), events = pre ++ rest → pre ≠ [] →
          Event.freeMessage p.addr ∉ pre →
          cancelEnabledAfter before pre = false) ∧
        (∀ before : Bool, cancelEnabledAfter before events = true)) := by
  constructor
  · intro sendStatus createStatus w events0 w1 p pText hget htext hz
    have hev0 : events0 = [Event.setcancelstate false] := by
      rw [KeyboardReader_get_events w p events0 w1 hget,
        isNullOrWithoutText_of_text p pText htext]
      rfl
    refine ⟨hev0, ?_⟩
    obtain ⟨payload, hiter⟩ := Sender_iteration_eq sendStatus createStatus w events0 w1 p pText
      hget htext hz
    have hfree := freeMessageFn_of_text p pText htext
    have hend : ∀ (post : List Event), (∀ e, e ∈ post → e.isSetcancelstate = false) →
        ∀ before : Bool, cancelEnabledAfter before
          (events0 ++ freeMessageFn (some p) ++ [Event.sendto payload sendStatus]
            ++ (if sendStatus = -1 then [Event.print "**Error sending message**\n"] else [])
            ++ [Event.setcancelstate true] ++ post) = true := by
      intro post hpost before
      rw [cancelEnabledAfter_append, cancelEnabledAfter_of_no_set _ post hpost,
        cancelEnabledAfter_append]
      rfl
    cases hflag : p.target.isShutdownMessage with
    | true =>
      rw [hflag] at hiter
      refine ⟨_, _, _, payload, hiter, ?_, ?_, ?_, ?_⟩
      · simp [hfree]
      · simp
      · intro before pre rest hsplit hne hnot
        rw [hev0] at hsplit
        exact sender_cancel_deferred p pText payload sendStatus _ htext before pre rest
          hsplit hne hnot
      · exact hend _ (callRequestShutdown_no_setcancelstate createStatus w1)
    | false =>
      rw [hflag] at hiter
      refine ⟨_, _, _, payload, hiter, ?_, ?_, ?_, ?_⟩
      · simp [hfree]
      · simp
      · intro before pre rest hsplit hne hnot
        rw [hev0, ← List.append_nil (_ ++ [Event.setcancelstate true])] at hsplit
        exact sender_cancel_deferred p pText payload sendStatus [] htext before pre rest
          hsplit hne hnot
      · intro before
        have := hend [] (fun e he => by cases he) before
        rw [List.append_nil] at this
        exact this
  · intro createStatus w events0 w1 p pText hget htext hz
    have hev0 : events0 = [Event.setcancelstate false] := by
      rw [getMessageFromQueue_events w p events0 w1 hget,
        isNullOrWithoutText_of_text p pText htext]
      rfl
    refine ⟨hev0, ?_⟩
    have hiter := ScreenPrinter_iteration_eq createStatus w events0 w1 p pText hget htext hz
    have hfree := freeMessageFn_of_text p pText htext
    have hend : ∀ (post : List Event), (∀ e, e ∈ post → e.isSetcancelstate = false) →
        ∀ before : Bool, cancelEnabledAfter before
          (events0 ++ [Event.display (bufferText pText)] ++ freeMessageFn (some p)
            ++ [Event.setcancelstate true, Event.flush] ++ post) = true := by
      intro post hpost before
      rw [cancelEnabledAfter_append, cancelEnabledAfter_of_no_set _ post hpost,
        cancelEnabledAfter_append]
      rfl
    cases hflag : p.target.isShutdownMessage with
    | true =>
      rw [hflag] at hiter
      refine ⟨_, _, _, hiter, ?_, ?_, ?_⟩
      · simp [hfree]
      · intro before pre rest hsplit hne hnot
        rw [hev0] at hsplit
        exact printer_cancel_deferred p pText _ _ htext before pre rest hsplit hne hnot
      · exact hend _ (callRequestShutdown_no_setcancelstate createStatus w1)
    | false =>
      rw [hflag] at hiter
      refine ⟨_, _, _, hiter, ?_, ?_, ?_⟩
      · simp [hfree]
      · intro before pre rest hsplit hne hnot
        rw [hev0, ← List.append_nil (_ ++ [Event.setcancelstate true, Event.flush])] at hsplit
        exact printer_cancel_deferred p pText _ [] htext before pre rest hsplit hne hnot
      · intro before
        have := hend [] (fun e he => by cases he) before
        rw [List.append_nil] at this
        exact this

/-! ## The validation of the arguments in `main` -/

theorem getAddress_events_no_start (resolved : AddrInfo) :
    (getAddressOfHostnameAsHostLong resolved).2.any Event.isStartOfWorkers = false := by
  unfold getAddressOfHostnameAsHostLong
  split
  · rfl
  · split <;> rfl

theorem main_of_argCount (args : List (List Nat)) (env : MainEnv) (w : World)
    (h : args.length ≠ 4) : main args env w = (MainExit.returned 1, printUsage, w) := by
  unfold main
  simp only [h, ne_eq, not_false_eq_true, if_true]

/-- C16. What `main` rejects and what it lets through. A wrong number of
arguments, a host name that does not resolve, and a port argument for which
`strtol` reports `ERANGE` or `EINVAL` make `main` return 1 with no barrier
initialised and no worker started. But `main` tests nothing else about the
ports: with the arguments `two-chat 70000 localhost 9002` it takes 70000
modulo 2^16, 4464, as its port, binds the socket to it, initialises the
barriers and starts the four workers; and the local port arguments `0` and
`-5` and the remote port argument `abc` (in a library whose `strtol` leaves
`errno` alone without digits) are let through in the same way. -/
theorem C16_out_of_range_port_is_accepted :
    (∀ (args : List (List Nat)) (env : MainEnv) (w : World), args.length ≠ 4 →
      main args env w = (MainExit.returned 1, printUsage, w) ∧
      printUsage.any Event.isStartOfWorkers = false) ∧
    (∀ (args : List (List Nat)) (env : MainEnv) (w : World), args.length = 4 →
      ((getAddressOfHostnameAsHostLong env.resolved).1 = 0 ∨
        (strtol (args.getD 1 []) 0 env.einvalWithoutDigits).2 = ERANGE ∨
        (strtol (args.getD 1 []) 0 env.einvalWithoutDigits).2 = EINVAL ∨
        (strtol (args.getD 3 []) 0 env.einvalWithoutDigits).2 = ERANGE ∨
        (strtol (args.getD 3 []) 0 env.einvalWithoutDigits).2 = EINVAL) →
      ∃ events, main args env w = (MainExit.returned 1, events, w) ∧
        events.any Event.isStartOfWorkers = false) ∧
    (strtol [57, 57, 57, 57, 57, 57, 57, 57, 57, 57, 57, 57, 57, 57, 57, 57, 57, 57, 57, 57] 0 false).2 = ERANGE ∧
    strtol [55, 48, 48, 48, 48] 0 false = (70000, 0) ∧ toInPort 70000 = 4464 ∧
    main [[116, 119, 111, 45, 99, 104, 97, 116], [55, 48, 48, 48, 48], [108, 111, 99, 97, 108, 104, 111, 115, 116], [57, 48, 48, 50]]
        ⟨⟨0, some 2130706433⟩, false, ⟨3, 0⟩, some ⟨[], none⟩, some ⟨[], none⟩, 0, 0, 0, 0, 0⟩
        World.atEntry
      = (MainExit.waitingForShutdown,
          [Event.socket 3, Event.bind 3 4464 0,
            Event.print "----------------------------------------\n",
            Event.print "two-chat session started\n",
            Event.print "Our port: 4464\n",
            Event.print "Remote hostname: localhost\n",
            Event.print "Remote port: 9002\n",
            Event.print "----------------------------------------\n",
            Event.barrierInit Barrier.allThreadsReady 4,
            Event.barrierInit Barrier.allThreadsGoingToShutdown 2,
            Event.createWorker Worker.keyboardReader 0,
            Event.createWorker Worker.screenPrinter 0,
            Event.createWorker Worker.sender 0,
            Event.createWorker Worker.listener 0],
          { World.initial with socketDescriptor := 3 }) ∧
    ((main [[116, 119, 111, 45, 99, 104, 97, 116], [48], [108, 111, 99, 97, 108, 104, 111, 115, 116], [57, 48, 48, 50]]
        ⟨⟨0, some 2130706433⟩, false, ⟨3, 0⟩, some ⟨[], none⟩, some ⟨[], none⟩, 0, 0, 0, 0, 0⟩
        World.atEntry).2.1.filter Event.isStartOfWorkers).length = 6 ∧
    ((main [[116, 119, 111, 45, 99, 104, 97, 116], [45, 53], [108, 111, 99, 97, 108, 104, 111, 115, 116], [97, 98, 99]]
        ⟨⟨0, some 2130706433⟩, false, ⟨3, 0⟩, some ⟨[], none⟩, some ⟨[], none⟩, 0, 0, 0, 0, 0⟩
        World.atEntry).2.1.filter Event.isStartOfWorkers).length = 6 := by
  refine ⟨?_, ?_, by decide, by decide, by decide, by decide, by decide, by decide⟩
  · intro args env w h
    exact ⟨main_of_argCount args env w h, rfl⟩
  · intro args env w hlen h
    have haddr := getAddress_events_no_start env.resolved
    unfold main
    simp only [hlen, ne_eq, not_true_eq_false, if_false]
    by_cases h0 : (getAddressOfHostnameAsHostLong env.resolved).1 = 0
    · rw [if_pos h0]
      exact ⟨_, rfl, by simp [haddr, Event.isStartOfWorkers]⟩
    · rw [if_neg h0]
      by_cases h1 : (strtol (args.getD 1 []) 0 env.einvalWithoutDigits).2 = ERANGE ∨
          (strtol (args.getD 1 []) 0 env.einvalWithoutDigits).2 = EINVAL
      · rw [if_pos h1]
        exact ⟨_, rfl, by simp [haddr, Event.isStartOfWorkers]⟩
      · rw [if_neg h1]
        have h3 : (strtol (args.getD 3 []) 0 env.einvalWithoutDigits).2 = ERANGE ∨
            (strtol (args.getD 3 []) 0 env.einvalWithoutDigits).2 = EINVAL := by
          rcases h with h | h | h | h | h
          · exact absurd h h0
          · exact absurd (Or.inl h) h1
          · exact absurd (Or.inr h) h1
          · exact Or.inl h
          · exact Or.inr h
        rw [if_pos h3]
        exact ⟨_, rfl, by simp [haddr, Event.isStartOfWorkers]⟩

/-! ## The payload from the keyboard to the screen of the other side -/

theorem bufferText_set_zero (buf : Buffer) (k : Nat) :
    bufferText (buf.set k 0) = (bufferText buf).take k := by
  induction buf generalizing k with
  | nil => simp [bufferText]
  | cons c rest ih =>
    cases k with
    | zero => simp [List.set, bufferText_cons]
    | succ k =>
      rw [List.set_cons_succ, bufferText_cons, bufferText_cons, ih]
      by_cases hc : c = 0
      · simp [hc]
      · simp [hc]

theorem takeWhile_take_of_le (buf : Buffer) (n : Nat) (h : (bufferText buf).length ≤ n) :
    (buf.take n).takeWhile (fun c => c != 0) = bufferText buf := by
  induction buf generalizing n with
  | nil => simp [bufferText]
  | cons c rest ih =>
    rw [bufferText_cons] at h
    rw [bufferText_cons]
    by_cases hc : c = 0
    · cases n with
      | zero => simp [hc]
      | succ n => simp [hc, List.takeWhile_cons]
    · rw [if_neg hc] at h ⊢
      cases n with
      | zero => simp at h
      | succ n =>
        have h' : (bufferText rest).length ≤ n := by
          simp only [List.length_cons] at h
          omega
        simp only [List.take_succ_cons, List.takeWhile_cons, bne_iff_ne, ne_eq, hc,
          not_false_eq_true, decide_True, if_true]
        rw [ih n h']

/-- The block both producers build holds the text of the buffer, whenever the
size they pass is at least the length of that text. -/
theorem copyMessageText_of_le (buf : Buffer) (n : Nat) (hle : (bufferText buf).length ≤ n)
    (hn : n ≤ buf.length) :
    copyMessageText buf n = Except.ok
      (bufferText buf ++ List.replicate (n - (bufferText buf).length + 1) 0) := by
  unfold copyMessageText
  rw [strncpy_eq_ok]
  · rw [takeWhile_take_of_le buf n hle]
    have hdrop : List.drop n (List.replicate (n + 1) 0) = [0] := by
      rw [List.drop_replicate]
      simp
    rw [hdrop, List.append_assoc, List.replicate_succ' (n - (bufferText buf).length) 0]
  · intro hlt
    rw [takeWhile_take_of_le buf n hle] at hlt ⊢
    omega
  · intro _
    rw [List.length_replicate]
    omega

theorem copyMessageText_text_of_le (buf : Buffer) (n : Nat) (hle : (bufferText buf).length ≤ n)
    (hn : n ≤ buf.length) :
    ∃ block, copyMessageText buf n = Except.ok block ∧ bufferText block = bufferText buf ∧
      0 ∈ block := by
  refine ⟨_, copyMessageText_of_le buf n hle hn, ?_, ?_⟩
  · exact bufferText_append_zeros _ _ (fun c hc => ne_zero_of_mem_bufferText buf c hc)
  · simp [List.replicate_succ]

theorem bufferText_of_first_zero (buf : Buffer) (h : byteAt buf 0 = 0) : bufferText buf = [] := by
  have := length_bufferText_eq buf 0 (fun j hj => absurd hj (Nat.not_lt_zero j)) h
  exact List.length_eq_zero.mp this

/-- What the scanner leaves in the buffer, for every buffer of `MSG_MAX_LEN`
bytes, and the size it stores beside it. -/
theorem check_retained (buf : Buffer) (hlen : buf.length = MSG_MAX_LEN)
    (pSizeOfMessage : Option Nat) :
    ∃ r b, checkAndDiscardRestIfMessageHasTerminationLine (some buf) pSizeOfMessage
        = Except.ok r ∧
      r.messageBuffer = some b ∧ b.length = MSG_MAX_LEN ∧ Retained buf (bufferText b) ∧
      (r.returnValue = true ↔ hasStandaloneMarker (bufferText buf) = true) ∧
      ∃ n, r.sizeOfMessage = storeSize pSizeOfMessage n ∧ (bufferText b).length ≤ n ∧
        n ≤ MSG_MAX_LEN := by
  obtain ⟨r', hr', hiff⟩ := check_returnValue_iff buf hlen pSizeOfMessage
  by_cases h0 : byteAt buf 0 = 0
  · have hcheck := check_of_empty buf hlen pSizeOfMessage h0
    have htext := bufferText_of_first_zero buf h0
    rw [hcheck] at hr'
    have hr : r' = ⟨false, some buf, storeSize pSizeOfMessage 0⟩ := by
      injection hr' with h; exact h.symm
    refine ⟨_, buf, hcheck, rfl, hlen, ?_, ?_, 0, rfl, ?_, Nat.zero_le _⟩
    · right; left
      refine ⟨fun h => ?_, ?_, rfl⟩
      · rw [h0] at h; exact absurd h.1 (by decide)
      · rw [htext]; rfl
    · rw [hr] at hiff; exact hiff
    · rw [htext]; exact Nat.le_refl _
  · by_cases hstart : byteAt buf 0 = 33 ∧ byteAt buf 1 = 10
    · have hcheck := check_of_start buf hlen pSizeOfMessage hstart.1 hstart.2
      rw [hcheck] at hr'
      have hr : r' = ⟨true, some (buf.set 3 0), storeSize pSizeOfMessage 3⟩ := by
        injection hr' with h; exact h.symm
      refine ⟨_, buf.set 3 0, hcheck, rfl, ?_, ?_, ?_, 3, rfl, ?_, by decide⟩
      · rw [List.length_set]; exact hlen
      · left
        exact ⟨hstart.1, hstart.2, bufferText_set_zero buf 3⟩
      · rw [hr] at hiff; exact hiff
      · rw [bufferText_set_zero, List.length_take]
        exact Nat.min_le_left _ _
    · obtain ⟨e, hp, hcheck⟩ := check_of_loop buf hlen pSizeOfMessage h0 hstart
      rw [hcheck] at hr'
      have hr : r' = ⟨e.isTerminationLinePresent, some e.messageBuffer,
          storeSize pSizeOfMessage e.size⟩ := by
        injection hr' with h; exact h.symm
      have hsize := hp.length_text hlen
      have hblen : e.messageBuffer.length = MSG_MAX_LEN := by rw [hp.length_eq]; exact hlen
      refine ⟨_, e.messageBuffer, hcheck, rfl, hblen, ?_, ?_, e.size, rfl,
        Nat.le_of_eq hsize, ?_⟩
      · cases hf : e.isTerminationLinePresent with
        | true =>
          obtain ⟨_, hmark, _⟩ := hp.found hf
          obtain ⟨hlt, htext⟩ := hp.text_of_found hlen hf
          right; right
          exact ⟨hstart, e.i, hmark, fun j hj => hp.noMarkerBefore j (Nat.zero_le j) hj,
            hlt, htext⟩
        | false =>
          right; left
          refine ⟨hstart, ?_, ?_⟩
          · cases hm : hasStandaloneMarker (bufferText buf) with
            | false => rfl
            | true => rw [hp.found_iff.mpr hm] at hf; cases hf
          · rw [(hp.notFound hf).1]
      · rw [hr] at hiff; exact hiff
      · rw [← hsize]
        calc (bufferText e.messageBuffer).length ≤ e.messageBuffer.length :=
              length_bufferText_le _
          _ = MSG_MAX_LEN := hblen

theorem byteAt_append_zeros (t : List Nat) (k j : Nat) :
    byteAt (t ++ List.replicate k 0) j = byteAt t j := by
  induction t generalizing j with
  | nil =>
    unfold byteAt
    rw [List.nil_append, List.get?_eq_getElem?, List.get?_eq_getElem?, List.getElem?_replicate]
    split <;> rfl
  | cons c rest ih =>
    cases j with
    | zero => rfl
    | succ j => rw [List.cons_append, byteAt_cons_succ, byteAt_cons_succ, ih]

theorem byteAt_bufferOfChunk (t : List Nat) (j : Nat) :
    byteAt (bufferOfChunk t) j = byteAt t j :=
  byteAt_append_zeros t _ j

theorem markerIdx_congr (a b : Buffer) (h : ∀ j, byteAt a j = byteAt b j) (j : Nat) :
    markerIdx a j ↔ markerIdx b j := by
  unfold markerIdx
  rw [h j, h (j + 1), h (j - 1)]

theorem lt_text_of_byteAt_ne_zero (buf : Buffer) (m j : Nat)
    (h : byteAt ((bufferText buf).take m) j ≠ 0) :
    j < m ∧ j < (bufferText buf).length ∧ byteAt ((bufferText buf).take m) j = byteAt buf j := by
  rw [byteAt_take, byteAt_bufferText] at h ⊢
  by_cases h1 : j < m
  · by_cases h2 : j < (bufferText buf).length
    · simp [h1, h2]
    · simp [h1, h2] at h
  · simp [h1] at h

theorem byteAt_take_text (buf : Buffer) (m j : Nat) (h1 : j < m)
    (h2 : j < (bufferText buf).length) :
    byteAt ((bufferText buf).take m) j = byteAt buf j := by
  rw [byteAt_take, byteAt_bufferText, if_pos h1, if_pos h2]

/-- A marker in a beginning of the text of a buffer is a marker of the buffer. -/
theorem markerIdx_of_take (buf : Buffer) (m j : Nat)
    (h : markerIdx ((bufferText buf).take m) j) :
    markerIdx buf j ∧ j + 1 < m ∧ j + 1 < (bufferText buf).length := by
  obtain ⟨h0, h1, h2⟩ := h
  have a0 := lt_text_of_byteAt_ne_zero buf m j (by rw [h0]; decide)
  have a1 := lt_text_of_byteAt_ne_zero buf m (j + 1) (by rw [h1]; decide)
  refine ⟨⟨?_, ?_, ?_⟩, a1.1, a1.2.1⟩
  · rw [← a0.2.2]; exact h0
  · rw [← a1.2.2]; exact h1
  · rcases h2 with h2 | h2
    · exact Or.inl h2
    · right
      have a2 := lt_text_of_byteAt_ne_zero buf m (j - 1) (by rw [h2]; decide)
      rw [← a2.2.2]; exact h2

theorem take_text_all (buf : Buffer) (m : Nat) (h : (bufferText buf).length ≤ m) :
    (bufferText buf).take m = bufferText buf :=
  List.take_of_length_le h

/-- The shape of a text the scanner has left: it has no NUL, and either it
starts with `"!\n"` and has at most three bytes, or it does not start with
`"!\n"` and a standalone termination line in it is its very end. -/
theorem retained_shape (buf : Buffer) (t : List Nat) (h : Retained buf t) :
    (∀ c, c ∈ t → c ≠ 0) ∧ t.length ≤ (bufferText buf).length ∧
    ((byteAt t 0 = 33 ∧ byteAt t 1 = 10 ∧ t.length ≤ 3) ∨
      (¬ (byteAt t 0 = 33 ∧ byteAt t 1 = 10) ∧ ∀ j, markerIdx t j → t.length ≤ j + 2)) := by
  have hmem : ∀ m c, c ∈ (bufferText buf).take m → c ≠ 0 :=
    fun m c hc => ne_zero_of_mem_bufferText buf c (List.mem_of_mem_take hc)
  rcases h with ⟨h0, h1, ht⟩ | ⟨hstart, hno, ht⟩ | ⟨hstart, i, hmark, hmin, hlt, ht⟩
  · subst ht
    refine ⟨hmem 3, ?_, Or.inl ⟨?_, ?_, ?_⟩⟩
    · rw [List.length_take]; exact Nat.min_le_right _ _
    · have hlen : 1 < (bufferText buf).length := by
        by_contra hn
        have := byteAt_text_length buf
        have hle : (bufferText buf).length ≤ 1 := Nat.le_of_not_lt hn
        rcases Nat.le_one_iff_eq_zero_or_eq_one.mp hle with hz | hz
        · rw [hz, h0] at this; cases this
        · rw [hz, h1] at this; cases this
      rw [byteAt_take_text buf 3 0 (by decide) (by omega)]; exact h0
    · have hlen : 1 < (bufferText buf).length := by
        by_contra hn
        have := byteAt_text_length buf
        have hle : (bufferText buf).length ≤ 1 := Nat.le_of_not_lt hn
        rcases Nat.le_one_iff_eq_zero_or_eq_one.mp hle with hz | hz
        · rw [hz, h0] at this; cases this
        · rw [hz, h1] at this; cases this
      rw [byteAt_take_text buf 3 1 (by decide) hlen]; exact h1
    · rw [List.length_take]; exact Nat.min_le_left _ _
  · subst ht
    refine ⟨fun c hc => ne_zero_of_mem_bufferText buf c hc, Nat.le_refl _, Or.inr ⟨?_, ?_⟩⟩
    · intro hs
      apply hstart
      have hs' : byteAt ((bufferText buf).take (bufferText buf).length) 0 = 33 ∧
          byteAt ((bufferText buf).take (bufferText buf).length) 1 = 10 := by
        rw [List.take_length]; exact hs
      have a0 := lt_text_of_byteAt_ne_zero buf _ 0 (by rw [hs'.1]; decide)
      have a1 := lt_text_of_byteAt_ne_zero buf _ 1 (by rw [hs'.2]; decide)
      exact ⟨by rw [← a0.2.2]; exact hs'.1, by rw [← a1.2.2]; exact hs'.2⟩
    · intro j hj
      exfalso
      have hj' := (markerIdx_text_iff buf j).mp hj
      have : hasStandaloneMarker (bufferText buf) = true :=
        (hasStandaloneMarker_text_iff buf).mpr ⟨j, hj'.1, hj'.2⟩
      rw [hno] at this
      cases this
  · subst ht
    have hlen : ((bufferText buf).take (i + 2)).length = i + 2 := by
      rw [List.length_take]; omega
    refine ⟨hmem (i + 2), ?_, Or.inr ⟨?_, ?_⟩⟩
    · rw [hlen]; omega
    · intro hs
      apply hstart
      have a0 := lt_text_of_byteAt_ne_zero buf _ 0 (by rw [hs.1]; decide)
      have a1 := lt_text_of_byteAt_ne_zero buf _ 1 (by rw [hs.2]; decide)
      exact ⟨by rw [← a0.2.2]; exact hs.1, by rw [← a1.2.2]; exact hs.2⟩
    · intro j hj
      obtain ⟨hmj, hj2, _⟩ := markerIdx_of_take buf (i + 2) j hj
      rw [hlen]
      by_contra hn
      exact hmin j (by omega) hmj

/-- Scanning a text the scanner has left leaves it as it is. -/
theorem retained_fixed (t t' : List Nat) (hnz : ∀ c, c ∈ t → c ≠ 0)
    (hshape : (byteAt t 0 = 33 ∧ byteAt t 1 = 10 ∧ t.length ≤ 3) ∨
      (¬ (byteAt t 0 = 33 ∧ byteAt t 1 = 10) ∧ ∀ j, markerIdx t j → t.length ≤ j + 2))
    (h : Retained (bufferOfChunk t) t') : t' = t := by
  have htext : bufferText (bufferOfChunk t) = t := bufferText_bufferOfChunk t hnz
  have hbyte := byteAt_bufferOfChunk t
  unfold Retained at h
  rw [htext, hbyte 0, hbyte 1] at h
  rcases h with ⟨h0, h1, ht⟩ | ⟨_, _, ht⟩ | ⟨hstart, i, hmark, _, hlt, ht⟩
  · rcases hshape with ⟨_, _, hlen⟩ | ⟨hns, _⟩
    · rw [ht]; exact List.take_of_length_le hlen
    · exact absurd ⟨h0, h1⟩ hns
  · exact ht
  · rcases hshape with ⟨h0, h1, _⟩ | ⟨_, hend⟩
    · exact absurd ⟨h0, h1⟩ hstart
    · have hmt : markerIdx t i := (markerIdx_congr _ _ hbyte i).mp hmark
      rw [ht]
      exact List.take_of_length_le (hend i hmt)

/-- The sender's copy of a NUL-terminated text of at most `n` bytes into its
zeroed buffer of `n` bytes, and the bytes that `strnlen` then counts. -/
theorem strncpy_zeroed (src : Buffer) (n : Nat) (h : 0 ∈ src)
    (hlen : (bufferText src).length ≤ n) :
    ∃ buf, strncpy (List.replicate n 0) src n = Except.ok buf ∧
      buf.take (strnlen buf n) = bufferText src := by
  have htake := takeWhile_take_of_le src n hlen
  have hlt := length_bufferText_lt_of_mem src h
  refine ⟨bufferText src ++ List.replicate (n - (bufferText src).length) 0, ?_, ?_⟩
  · rw [strncpy_eq_ok]
    · rw [htake, List.drop_replicate, Nat.sub_self]
      simp
    · intro _
      rw [htake]; exact hlt
    · intro hpos
      rw [List.length_replicate]
      omega
  · have hbuf : bufferText (bufferText src ++ List.replicate (n - (bufferText src).length) 0)
        = bufferText src :=
      bufferText_append_zeros _ _ (fun c hc => ne_zero_of_mem_bufferText src c hc)
    rw [strnlen_of_length_le _ n (by rw [List.length_append, List.length_replicate]; omega),
      hbuf, List.take_left]

/-- What the sender transmits for a dequeued `Message`: the text of the
`Message`, nothing before it and nothing after it. -/
theorem Sender_iteration_sends (sendStatus createStatus : Int) (w : World)
    (events0 : List Event) (w1 : World) (p : MessagePtr) (pText : Buffer)
    (hget : KeyboardReader_getMessageFromQueue w = (Dequeued.returned (some p), events0, w1))
    (htext : p.target.pText = some pText) (hz : 0 ∈ pText)
    (hlen : (bufferText pText).length ≤ MSG_MAX_LEN) :
    ∃ flow events w', Sender_iteration sendStatus createStatus w = Except.ok (flow, events, w') ∧
      Event.sendto (bufferText pText) sendStatus ∈ events ∧
      ∀ payload status, Event.sendto payload status ∈ events →
        payload = bufferText pText ∧ status = sendStatus := by
  obtain ⟨buf, hbuf, hpay⟩ := strncpy_zeroed pText MSG_MAX_LEN hz hlen
  have hev0 := KeyboardReader_get_events w p events0 w1 hget
  rw [isNullOrWithoutText_of_text p pText htext] at hev0
  have hfree := freeMessageFn_of_text p pText htext
  have hcall : ∀ payload status,
      Event.sendto payload status ∉ (callRequestShutdown createStatus w1).1 := by
    intro payload status hmem
    unfold callRequestShutdown requestShutdownOfAllThreadsForProgram at hmem
    simp only [List.mem_cons] at hmem
    rcases hmem with hmem | hmem
    · cases hmem
    · split at hmem
      · cases hmem
      · split at hmem <;> simp at hmem
  unfold Sender_iteration
  rw [hget]
  simp only [htext, hbuf, hpay, hfree, hev0]
  cases p.target.isShutdownMessage with
  | true =>
    refine ⟨_, _, _, rfl, by simp, ?_⟩
    intro payload status hmem
    simp only [if_true, List.mem_append, List.mem_cons, List.mem_singleton, List.not_mem_nil,
      or_false, false_or, Event.sendto.injEq] at hmem
    rcases hmem with (((hmem | hmem) | hmem) | hmem) | hmem
    · simp at hmem
    · exact hmem
    · split at hmem <;> simp at hmem
    · cases hmem
    · exact absurd hmem (hcall payload status)
  | false =>
    refine ⟨_, _, _, rfl, by simp, ?_⟩
    intro payload status hmem
    simp only [List.mem_append, List.mem_cons, List.mem_singleton, List.not_mem_nil,
      or_false, false_or, Event.sendto.injEq] at hmem
    rcases hmem with ((hmem | hmem) | hmem) | hmem
    · simp at hmem
    · exact hmem
    · split at hmem <;> simp at hmem
    · cases hmem

theorem byteAt_readBuffer_first (chunk : List Nat) (hne : chunk ≠ [])
    (hnz : ∀ c, c ∈ chunk → c ≠ 0) :
    byteAt (bufferOfChunk (chunk.take MSG_MAX_LEN)) 0 ≠ 0 := by
  rw [byteAt_bufferOfChunk]
  cases chunk with
  | nil => exact absurd rfl hne
  | cons c rest =>
    have : MSG_MAX_LEN = (MSG_MAX_LEN - 1) + 1 := by decide
    rw [this, List.take_succ_cons, byteAt_cons_zero]
    exact hnz c (List.mem_cons_self c rest)

/-- What an iteration of the keyboard reader puts on the outbound queue for a
chunk that does not start with NUL, while the queue has room: a `Message`
whose text is the text the scanner has left in the buffer. -/
theorem KeyboardReader_iteration_message (chunk : List Nat) (createStatus : Int) (w : World)
    (q : CList) (n : Nat)
    (hfirst : byteAt (bufferOfChunk (chunk.take MSG_MAX_LEN)) 0 ≠ 0)
    (hq : w.outMessageQueue = some q) (hfree : w.freeNodes = n + 1) :
    ∃ r b block flow events w',
      checkAndDiscardRestIfMessageHasTerminationLine
        (some (bufferOfChunk (chunk.take MSG_MAX_LEN))) (some 0) = Except.ok r ∧
      r.messageBuffer = some b ∧
      Retained (bufferOfChunk (chunk.take MSG_MAX_LEN)) (bufferText b) ∧
      KeyboardReader_iteration chunk createStatus w = Except.ok (flow, events, w') ∧
      w'.outMessageQueue
        = some ⟨q.items ++ [⟨w.nextAddr, ⟨some block, r.returnValue⟩⟩], some q.items.length⟩ ∧
      bufferText block = bufferText b ∧ 0 ∈ block := by
  obtain ⟨r, b, hcheck, hb, hblen, hret, _, size, hsize, hle, hn⟩ :=
    check_retained (bufferOfChunk (chunk.take MSG_MAX_LEN)) (length_readBuffer chunk) (some 0)
  obtain ⟨block, hcopy, hblock, hzero⟩ :=
    copyMessageText_text_of_le b size hle (by rw [hblen]; exact hn)
  have hcreate := createMessage_of_room b size r.returnValue w q block n hq hcopy hfree
  have hargs : r.messageBuffer.getD (bufferOfChunk (chunk.take MSG_MAX_LEN)) = b
      ∧ r.sizeOfMessage.getD 0 = size := by
    rw [hb, hsize]
    exact ⟨rfl, rfl⟩
  rw [← hargs.1, ← hargs.2] at hcreate
  obtain ⟨⟨flow, events, w'⟩, hiter, hres⟩ :=
    KeyboardReader_iteration_eq chunk createStatus w hfirst r true _ _ hcheck hcreate
  refine ⟨r, b, block, flow, events, w', hcheck, hb, hret, hiter, ?_, hblock, hzero⟩
  cases hflag : r.returnValue with
  | true =>
    rw [hflag] at hres
    simp only [if_true, Prod.mk.injEq] at hres
    rw [hres.2.2]
  | false =>
    rw [hflag] at hres
    simp only [Bool.false_eq_true, if_false, Prod.mk.injEq] at hres
    rw [hres.2.2]

/-- What an iteration of the listener puts on the inbound queue for a
datagram, while the queue has room: a `Message` whose text is the text the
scanner has left in the buffer, cut at the index where the listener writes its
NUL (the number of bytes received, or `MSG_MAX_LEN - 1` for a datagram that
fills the buffer). -/
theorem Listener_iteration_message (datagram : List Nat) (createStatus : Int) (w : World)
    (q : CList) (n : Nat) (hq : w.pInMessageQueue = some q) (hfree : w.freeNodes = n + 1) :
    ∃ r b block flow events w',
      checkAndDiscardRestIfMessageHasTerminationLine
        (some (bufferOfChunk (datagram.take MSG_MAX_LEN))) none = Except.ok r ∧
      r.messageBuffer = some b ∧
      Retained (bufferOfChunk (datagram.take MSG_MAX_LEN)) (bufferText b) ∧
      Listener_iteration (some datagram) createStatus w = Except.ok (flow, events, w') ∧
      w'.pInMessageQueue
        = some ⟨q.items ++ [⟨w.nextAddr, ⟨some block, r.returnValue⟩⟩], some q.items.length⟩ ∧
      bufferText block = (bufferText b).take
        (if (datagram.take MSG_MAX_LEN).length < MSG_MAX_LEN
          then (datagram.take MSG_MAX_LEN).length else MSG_MAX_LEN - 1) ∧
      0 ∈ block := by
  obtain ⟨r, b, hcheck, hb, hblen, hret, _, _, _, _, _⟩ :=
    check_retained (bufferOfChunk (datagram.take MSG_MAX_LEN)) (length_readBuffer datagram) none
  have hrx : (datagram.take MSG_MAX_LEN).length ≤ MSG_MAX_LEN := by
    rw [List.length_take]; exact Nat.min_le_left _ _
  have hpos : 0 < MSG_MAX_LEN := by decide
  generalize hidx : (if (datagram.take MSG_MAX_LEN).length < MSG_MAX_LEN
      then (datagram.take MSG_MAX_LEN).length else MSG_MAX_LEN - 1) = idx
  have hidxlt : idx < MSG_MAX_LEN := by
    rw [← hidx]; split <;> omega
  have hidxle : idx ≤ (datagram.take MSG_MAX_LEN).length := by
    rw [← hidx]; split <;> omega
  have hwrite : writeAt b idx 0 = Except.ok (b.set idx 0) :=
    writeAt_of_lt b idx 0 (by rw [hblen]; exact hidxlt)
  have htext : bufferText (b.set idx 0) = (bufferText b).take idx := bufferText_set_zero b idx
  obtain ⟨block, hcopy, hblock, hzero⟩ :=
    copyMessageText_text_of_le (b.set idx 0) (datagram.take MSG_MAX_LEN).length
      (by rw [htext, List.length_take]; exact Nat.le_trans (Nat.min_le_left _ _) hidxle)
      (by rw [List.length_set, hblen]; exact hrx)
  have hput := ScreenPrinter_put_of_room ⟨w.nextAddr, ⟨some block, r.returnValue⟩⟩
    { w with nextAddr := w.nextAddr + 1 } q n hq hfree
  have hiter : ∃ flow events w',
      Listener_iteration (some datagram) createStatus w = Except.ok (flow, events, w') ∧
      w'.pInMessageQueue
        = some ⟨q.items ++ [⟨w.nextAddr, ⟨some block, r.returnValue⟩⟩],
            some q.items.length⟩ := by
    unfold Listener_iteration
    simp only [hcheck, hb, Option.getD_some, hidx, hwrite, hcopy, hput]
    cases r.returnValue with
    | true => exact ⟨_, _, _, rfl, rfl⟩
    | false => exact ⟨_, _, _, rfl, rfl⟩
  obtain ⟨flow, events, w', hrun, hqueue⟩ := hiter
  exact ⟨r, b, block, flow, events, w', hcheck, hb, hret, hrun, hqueue,
    by rw [hblock, htext], hzero⟩

/-- The way of a chunk from the keyboard of one side to the screen of the
other, for both sides with room in their queues. -/
theorem payload_end_to_end (chunk : List Nat) (createStatus sendStatus : Int)
    (wa wb : World) (qa qb : CList) (na nb : Nat)
    (hne : chunk ≠ []) (hlen : chunk.length ≤ MSG_MAX_LEN) (hnz : ∀ c, c ∈ chunk → c ≠ 0)
    (hqa : wa.outMessageQueue = some qa) (hfa : wa.freeNodes = na + 1)
    (hqb : wb.pInMessageQueue = some qb) (hfb : wb.freeNodes = nb + 1) :
    ∃ payload pOut flowK eventsK wa',
      Retained (bufferOfChunk chunk) payload ∧
      KeyboardReader_iteration chunk createStatus wa = Except.ok (flowK, eventsK, wa') ∧
      wa'.outMessageQueue = some ⟨qa.items ++ [pOut], some qa.items.length⟩ ∧
      pOut.target.text = some payload ∧
      (∀ (ws : World) (events0 : List Event) (ws1 : World),
        KeyboardReader_getMessageFromQueue ws = (Dequeued.returned (some pOut), events0, ws1) →
        ∃ flow events ws',
          Sender_iteration sendStatus createStatus ws = Except.ok (flow, events, ws') ∧
          Event.sendto payload sendStatus ∈ events ∧
          ∀ sent status, Event.sendto sent status ∈ events →
            sent = payload ∧ status = sendStatus) ∧
      ∃ pIn flowL eventsL wb',
        Listener_iteration (some payload) createStatus wb = Except.ok (flowL, eventsL, wb') ∧
        wb'.pInMessageQueue = some ⟨qb.items ++ [pIn], some qb.items.length⟩ ∧
        pIn.target.text = some (receivedText payload) ∧
        (∀ (wp : World) (events0 : List Event) (wp1 : World),
          getMessageFromQueue wp = (Dequeued.returned (some pIn), events0, wp1) →
          ∃ flow events wp',
            ScreenPrinter_iteration createStatus wp = Except.ok (flow, events, wp') ∧
            Event.display (receivedText payload) ∈ events) := by
  have htake : chunk.take MSG_MAX_LEN = chunk := List.take_of_length_le hlen
  have hfirst := byteAt_readBuffer_first chunk hne hnz
  obtain ⟨r, b, block, flowK, eventsK, wa', _, _, hret, hiterK, hqueueK, hblock, hzero⟩ :=
    KeyboardReader_iteration_message chunk createStatus wa qa na hfirst hqa hfa
  rw [htake] at hret
  obtain ⟨hpnz, hple, hshape⟩ := retained_shape _ _ hret
  have hplen : (bufferText b).length ≤ MSG_MAX_LEN := by
    calc (bufferText b).length ≤ (bufferText (bufferOfChunk chunk)).length := hple
      _ ≤ (bufferOfChunk chunk).length := length_bufferText_le _
      _ = MSG_MAX_LEN := length_bufferOfChunk chunk hlen
  have hptake : (bufferText b).take MSG_MAX_LEN = bufferText b := List.take_of_length_le hplen
  obtain ⟨r2, b2, block2, flowL, eventsL, wb', _, _, hret2, hiterL, hqueueL, hblock2, hzero2⟩ :=
    Listener_iteration_message (bufferText b) createStatus wb qb nb hqb hfb
  rw [hptake] at hret2 hblock2
  have hfixed : bufferText b2 = bufferText b := retained_fixed _ _ hpnz hshape hret2
  have hshown : bufferText block2 = receivedText (bufferText b) := by
    rw [hblock2, hfixed]
    unfold receivedText
    split
    · exact List.take_length _
    · rfl
  refine ⟨bufferText b, ⟨wa.nextAddr, ⟨some block, r.returnValue⟩⟩, flowK, eventsK, wa', hret,
    hiterK, hqueueK, ?_, ?_, ⟨wb.nextAddr, ⟨some block2, r2.returnValue⟩⟩, flowL, eventsL, wb',
    hiterL, hqueueL, ?_, ?_⟩
  · simp only [Message.text, Option.map_some', hblock]
  · intro ws events0 ws1 hget
    have := Sender_iteration_sends sendStatus createStatus ws events0 ws1
      ⟨wa.nextAddr, ⟨some block, r.returnValue⟩⟩ block hget rfl hzero
      (by rw [hblock]; exact hplen)
    rw [hblock] at this
    exact this
  · simp only [Message.text, Option.map_some', hshown]
  · intro wp events0 wp1 hget
    have := ScreenPrinter_iteration_eq createStatus wp events0 wp1
      ⟨wb.nextAddr, ⟨some block2, r2.returnValue⟩⟩ block2 hget rfl hzero2
    rw [hshown] at this
    cases hflag : r2.returnValue with
    | true =>
      simp only [hflag, if_true] at this
      exact ⟨_, _, _, this, by simp⟩
    | false =>
      simp only [hflag, Bool.false_eq_true, if_false] at this
      exact ⟨_, _, _, this, by simp⟩

theorem byteAt_mem_of_ne_zero (l : List Nat) (j : Nat) (h : byteAt l j ≠ 0) : byteAt l j ∈ l := by
  induction l generalizing j with
  | nil => rw [byteAt_nil] at h; exact absurd rfl h
  | cons c rest ih =>
    cases j with
    | zero => rw [byteAt_cons_zero]; exact List.mem_cons_self c rest
    | succ j =>
      rw [byteAt_cons_succ] at h ⊢
      exact List.mem_cons_of_mem c (ih j h)

/-- A chunk without NUL and without `'!'` is left whole by the scanner. -/
theorem retained_of_plain (chunk t : List Nat)
    (hplain : ∀ c, c ∈ chunk → c ≠ 0 ∧ c ≠ 33)
    (h : Retained (bufferOfChunk chunk) t) : t = chunk := by
  have htext : bufferText (bufferOfChunk chunk) = chunk :=
    bufferText_bufferOfChunk chunk (fun c hc => (hplain c hc).1)
  have hno : ∀ j, byteAt (bufferOfChunk chunk) j ≠ 33 := by
    intro j hj
    rw [byteAt_bufferOfChunk] at hj
    have hmem := byteAt_mem_of_ne_zero chunk j (by rw [hj]; decide)
    rw [hj] at hmem
    exact (hplain 33 hmem).2 rfl
  rcases h with ⟨h0, _, _⟩ | ⟨_, _, ht⟩ | ⟨_, i, hmark, _, _, _⟩
  · exact absurd h0 (hno 0)
  · rw [ht, htext]
  · exact absurd hmark.1 (hno i)

/-- C12 as stated fails at the maximum length. A chunk of `MSG_MAX_LEN` bytes
`'a'` is put whole on the outbound queue, so it is sent as a datagram of
`MSG_MAX_LEN` bytes; the listener that receives this datagram writes its NUL
at index `MSG_MAX_LEN - 1`, and the text of the `Message` it puts on the
inbound queue is the first `MSG_MAX_LEN - 1` bytes only. -/
theorem C12_counterexample_last_byte_dropped :
    ∃ pOut flowK eventsK wa' pIn flowL eventsL wb',
      KeyboardReader_iteration (List.replicate MSG_MAX_LEN 97) 0 World.initial
        = Except.ok (flowK, eventsK, wa') ∧
      wa'.outMessageQueue = some ⟨[pOut], some 0⟩ ∧
      pOut.target.text = some (List.replicate MSG_MAX_LEN 97) ∧
      Listener_iteration (some (List.replicate MSG_MAX_LEN 97)) 0 World.initial
        = Except.ok (flowL, eventsL, wb') ∧
      wb'.pInMessageQueue = some ⟨[pIn], some 0⟩ ∧
      pIn.target.text = some (List.replicate (MSG_MAX_LEN - 1) 97) ∧
      List.replicate (MSG_MAX_LEN - 1) 97 ≠ List.replicate MSG_MAX_LEN 97 := by
  have hne : List.replicate MSG_MAX_LEN 97 ≠ [] := by
    intro h
    have := congrArg List.length h
    rw [List.length_replicate] at this
    exact absurd this (by decide)
  have hlen : (List.replicate MSG_MAX_LEN 97).length ≤ MSG_MAX_LEN := by
    rw [List.length_replicate]
  have hplain : ∀ c, c ∈ List.replicate MSG_MAX_LEN 97 → c ≠ 0 ∧ c ≠ 33 := by
    intro c hc
    rw [List.eq_of_mem_replicate hc]
    exact ⟨by decide, by decide⟩
  obtain ⟨payload, pOut, flowK, eventsK, wa', hret, hiterK, hqueueK, htextK, _,
      pIn, flowL, eventsL, wb', hiterL, hqueueL, htextL, _⟩ :=
    payload_end_to_end (List.replicate MSG_MAX_LEN 97) 0 0 World.initial World.initial
      ⟨[], none⟩ ⟨[], none⟩ 999 999 hne hlen (fun c hc => (hplain c hc).1) rfl rfl rfl rfl
  have hpayload : payload = List.replicate MSG_MAX_LEN 97 := retained_of_plain _ _ hplain hret
  subst hpayload
  have hreceived : receivedText (List.replicate MSG_MAX_LEN 97)
      = List.replicate (MSG_MAX_LEN - 1) 97 := by
    unfold receivedText
    rw [List.length_replicate, if_neg (Nat.lt_irrefl _), List.take_replicate,
      Nat.min_eq_left (Nat.sub_le _ _)]
  rw [hreceived] at htextL
  refine ⟨pOut, flowK, eventsK, wa', pIn, flowL, eventsL, wb', hiterK, hqueueK, htextK,
    hiterL, hqueueL, htextL, ?_⟩
  intro h
  have := congrArg List.length h
  rw [List.length_replicate, List.length_replicate] at this
  exact absurd this (by decide)

/-- C12, amended. The payload travels verbatim end to end, up to the last
byte of a datagram of the maximum length. For every chunk of 1 to
`MSG_MAX_LEN` bytes without NUL, with room in the queues of both sides: the
keyboard reader puts on the outbound queue a `Message` whose text is what its
scan has left of the chunk; the sender that dequeues this `Message` transmits
exactly that text and nothing else; the listener that receives this datagram
puts on the inbound queue a `Message` whose text is the bytes of the datagram
when they are fewer than `MSG_MAX_LEN`, and the first `MSG_MAX_LEN - 1` of
them when the datagram has `MSG_MAX_LEN` bytes; and the screen printer that
dequeues that `Message` writes exactly its text. -/
theorem C12_payload_travels_verbatim (chunk : List Nat) (createStatus sendStatus : Int)
    (wa wb : World) (qa qb : CList) (na nb : Nat)
    (hne : chunk ≠ []) (hlen : chunk.length ≤ MSG_MAX_LEN) (hnz : ∀ c, c ∈ chunk → c ≠ 0)
    (hqa : wa.outMessageQueue = some qa) (hfa : wa.freeNodes = na + 1)
    (hqb : wb.pInMessageQueue = some qb) (hfb : wb.freeNodes = nb + 1) :
    ∃ payload pOut flowK eventsK wa',
      Retained (bufferOfChunk chunk) payload ∧
      KeyboardReader_iteration chunk createStatus wa = Except.ok (flowK, eventsK, wa') ∧
      wa'.outMessageQueue = some ⟨qa.items ++ [pOut], some qa.items.length⟩ ∧
      pOut.target.text = some payload ∧
      (∀ (ws : World) (events0 : List Event) (ws1 : World),
        KeyboardReader_getMessageFromQueue ws = (Dequeued.returned (some pOut), events0, ws1) →
        ∃ flow events ws',
          Sender_iteration sendStatus createStatus ws = Except.ok (flow, events, ws') ∧
          Event.sendto payload sendStatus ∈ events ∧
          ∀ sent status, Event.sendto sent status ∈ events →
            sent = payload ∧ status = sendStatus) ∧
      (payload.length < MSG_MAX_LEN → receivedText payload = payload) ∧
      ∃ pIn flowL eventsL wb',
        Listener_iteration (some payload) createStatus wb = Except.ok (flowL, eventsL, wb') ∧
        wb'.pInMessageQueue = some ⟨qb.items ++ [pIn], some qb.items.length⟩ ∧
        pIn.target.text = some (receivedText payload) ∧
        (∀ (wp : World) (events0 : List Event) (wp1 : World),
          getMessageFromQueue wp = (Dequeued.returned (some pIn), events0, wp1) →
          ∃ flow events wp',
            ScreenPrinter_iteration createStatus wp = Except.ok (flow, events, wp') ∧
            Event.display (receivedText payload) ∈ events) := by
  obtain ⟨payload, pOut, flowK, eventsK, wa', hret, hiterK, hqueueK, htextK, hsend,
      pIn, flowL, eventsL, wb', hiterL, hqueueL, htextL, hshow⟩ :=
    payload_end_to_end chunk createStatus sendStatus wa wb qa qb na nb hne hlen hnz
      hqa hfa hqb hfb
  refine ⟨payload, pOut, flowK, eventsK, wa', hret, hiterK, hqueueK, htextK, hsend, ?_,
    pIn, flowL, eventsL, wb', hiterL, hqueueL, htextL, hshow⟩
  intro hshort
  unfold receivedText
  rw [if_pos hshort]

/-- The chunk `"hi\n"` typed on one side, with both queues empty: the
hypotheses of C12 hold, and what is sent and what is shown on the other side
is what the scan has left of the chunk. -/
theorem C12_witness :
    ([104, 105, 10] ≠ [] ∧ [104, 105, 10].length ≤ MSG_MAX_LEN ∧
      (∀ c, c ∈ [104, 105, 10] → c ≠ 0) ∧
      World.initial.outMessageQueue = some (CList.mk [] none) ∧
      World.initial.freeNodes = 999 + 1 ∧
      World.initial.pInMessageQueue = some (CList.mk [] none)) ∧
    ∃ payload pOut flowK eventsK wa',
      Retained (bufferOfChunk [104, 105, 10]) payload ∧
      KeyboardReader_iteration [104, 105, 10] 0 World.initial = Except.ok (flowK, eventsK, wa') ∧
      wa'.outMessageQueue = some ⟨(CList.mk [] none).items ++ [pOut], some (CList.mk [] none).items.length⟩ ∧
      pOut.target.text = some payload ∧
      (∀ (ws : World) (events0 : List Event) (ws1 : World),
        KeyboardReader_getMessageFromQueue ws = (Dequeued.returned (some pOut), events0, ws1) →
        ∃ flow events ws',
          Sender_iteration 0 0 ws = Except.ok (flow, events, ws') ∧
          Event.sendto payload 0 ∈ events ∧
          ∀ sent status, Event.sendto sent status ∈ events →
            sent = payload ∧ status = 0) ∧
      (payload.length < MSG_MAX_LEN → receivedText payload = payload) ∧
      ∃ pIn flowL eventsL wb',
        Listener_iteration (some payload) 0 World.initial = Except.ok (flowL, eventsL, wb') ∧
        wb'.pInMessageQueue = some ⟨(CList.mk [] none).items ++ [pIn], some (CList.mk [] none).items.length⟩ ∧
        pIn.target.text = some (receivedText payload) ∧
        (∀ (wp : World) (events0 : List Event) (wp1 : World),
          getMessageFromQueue wp = (Dequeued.returned (some pIn), events0, wp1) →
          ∃ flow events wp',
            ScreenPrinter_iteration 0 wp = Except.ok (flow, events, wp') ∧
            Event.display (receivedText payload) ∈ events) :=
  ⟨⟨by decide, by decide, by decide, rfl, rfl, rfl⟩,
    C12_payload_travels_verbatim [104, 105, 10] 0 0 World.initial World.initial
      (CList.mk [] none) (CList.mk [] none) 999 999 (by decide) (by decide) (by decide)
      rfl rfl rfl rfl⟩

/-! ## The messages in the queues of the running program -/

theorem QueuesHaveText_of_same (w w' : World) (hout : w'.outMessageQueue = w.outMessageQueue)
    (hin : w'.pInMessageQueue = w.pInMessageQueue) (h : QueuesHaveText w) :
    QueuesHaveText w' := by
  unfold QueuesHaveText
  rw [hout, hin]
  exact h

theorem QueuesHaveText_call (createStatus : Int) (w : World) (h : QueuesHaveText w) :
    QueuesHaveText (callRequestShutdown createStatus w).2 := by
  rw [callRequestShutdown_world]
  exact QueuesHaveText_of_same w _ rfl rfl h

/-- The enqueue of the keyboard reader returns, and it keeps the texts of the
queues: what it appends has the NUL-terminated block as its text. -/
theorem createMessage_keeps_text (b : Buffer) (size : Nat) (flag : Bool) (w : World)
    (hle : (bufferText b).length ≤ size) (hn : size ≤ b.length) :
    ∃ enq events w1,
      createMessageFromBufferAndPutOnQueue b size flag w = Except.ok (enq, events, w1) ∧
      (QueuesHaveText w → QueuesHaveText w1) := by
  obtain ⟨block, hcopy, _, hzero⟩ := copyMessageText_text_of_le b size hle hn
  cases hq : w.outMessageQueue with
  | none =>
    refine ⟨false, [], w, ?_, fun h => h⟩
    unfold createMessageFromBufferAndPutOnQueue
    rw [hq]
  | some q =>
    cases hfree : w.freeNodes with
    | zero =>
      refine ⟨_, _, _, createMessage_of_full b size flag w q block hq hcopy hfree, ?_⟩
      intro h
      exact QueuesHaveText_of_same w _ hq.symm rfl h
    | succ n =>
      refine ⟨_, _, _, createMessage_of_room b size flag w q block n hq hcopy hfree, ?_⟩
      intro h
      refine ⟨?_, h.2⟩
      intro q' hq' p hp
      simp only [Option.some.injEq] at hq'
      rw [← hq'] at hp
      simp only [List.mem_append, List.mem_singleton] at hp
      rcases hp with hp | hp
      · exact h.1 q hq p hp
      · rw [hp]
        exact ⟨block, rfl, hzero⟩

theorem KeyboardReader_iteration_keeps_text (chunk : List Nat) (createStatus : Int)
    (w : World) (flow : Flow) (events : List Event) (w' : World)
    (hstep : KeyboardReader_iteration chunk createStatus w = Except.ok (flow, events, w'))
    (hw : QueuesHaveText w) : QueuesHaveText w' := by
  by_cases h0 : (bufferOfChunk (chunk.take MSG_MAX_LEN)).get? 0 = some 0
  · rw [KeyboardReader_iteration_of_eof chunk createStatus w h0] at hstep
    simp only [Except.ok.injEq, Prod.mk.injEq] at hstep
    rw [← hstep.2.2]
    exact QueuesHaveText_call createStatus w hw
  · have hfirst := byteAt_readBuffer_ne_zero chunk h0
    obtain ⟨r, b, hcheck, hb, hblen, _, _, size, hsize, hle, hn⟩ :=
      check_retained (bufferOfChunk (chunk.take MSG_MAX_LEN)) (length_readBuffer chunk) (some 0)
    obtain ⟨enq, events1, w1, hcreate, hkeep⟩ :=
      createMessage_keeps_text b size r.returnValue w hle (by rw [hblen]; exact hn)
    have hargs : r.messageBuffer.getD (bufferOfChunk (chunk.take MSG_MAX_LEN)) = b
        ∧ r.sizeOfMessage.getD 0 = size := by
      rw [hb, hsize]
      exact ⟨rfl, rfl⟩
    rw [← hargs.1, ← hargs.2] at hcreate
    obtain ⟨result, hiter, hres⟩ :=
      KeyboardReader_iteration_eq chunk createStatus w hfirst r enq events1 w1 hcheck hcreate
    rw [hiter] at hstep
    simp only [Except.ok.injEq] at hstep
    rw [hstep] at hres
    have hw1 := hkeep hw
    cases hflag : r.returnValue with
    | false =>
      rw [hflag] at hres
      simp only [Bool.false_eq_true, if_false, Prod.mk.injEq] at hres
      rw [hres.2.2]; exact hw1
    | true =>
      rw [hflag] at hres
      cases enq with
      | true =>
        simp only [if_true, Prod.mk.injEq] at hres
        rw [hres.2.2]; exact hw1
      | false =>
        simp only [if_true, Bool.false_eq_true, if_false, Prod.mk.injEq] at hres
        rw [hres.2.2]; exact QueuesHaveText_call createStatus w1 hw1

theorem ScreenPrinter_put_of_null (p : MessagePtr) (w : World)
    (hq : w.pInMessageQueue = none) :
    ScreenPrinter_putMessageOnQueue p w = Except.error Fault.nullPointer := by
  unfold ScreenPrinter_putMessageOnQueue
  rw [hq]

theorem QueuesHaveText_in_append (w w2 : World) (q : CList) (p : MessagePtr)
    (c : Option Nat) (hout : w2.outMessageQueue = w.outMessageQueue)
    (hq : w.pInMessageQueue = some q) (hin : w2.pInMessageQueue = some ⟨q.items ++ [p], c⟩)
    (hp : hasTerminatedText p) (hw : QueuesHaveText w) : QueuesHaveText w2 := by
  refine ⟨by rw [hout]; exact hw.1, ?_⟩
  intro q' hq' p' hp'
  rw [hin] at hq'
  simp only [Option.some.injEq] at hq'
  rw [← hq'] at hp'
  simp only [List.mem_append, List.mem_singleton] at hp'
  rcases hp' with hp' | hp'
  · exact hw.2 q hq p' hp'
  · rw [hp']
    exact hp

theorem Listener_iteration_keeps_text (received : Option (List Nat)) (createStatus : Int)
    (w : World) (flow : Flow) (events : List Event) (w' : World)
    (hstep : Listener_iteration received createStatus w = Except.ok (flow, events, w'))
    (hw : QueuesHaveText w) : QueuesHaveText w' := by
  cases received with
  | none =>
    rw [Listener_iteration_of_failure createStatus w] at hstep
    simp only [Except.ok.injEq, Prod.mk.injEq] at hstep
    rw [← hstep.2.2]
    exact QueuesHaveText_call createStatus w hw
  | some datagram =>
    obtain ⟨r, b, hcheck, hb, hblen, _, _, _, _, _, _⟩ :=
      check_retained (bufferOfChunk (datagram.take MSG_MAX_LEN)) (length_readBuffer datagram)
        none
    have hrx : (datagram.take MSG_MAX_LEN).length ≤ MSG_MAX_LEN := by
      rw [List.length_take]; exact Nat.min_le_left _ _
    have hpos : 0 < MSG_MAX_LEN := by decide
    generalize hidx : (if (datagram.take MSG_MAX_LEN).length < MSG_MAX_LEN
        then (datagram.take MSG_MAX_LEN).length else MSG_MAX_LEN - 1) = idx at hstep
    have hidxlt : idx < MSG_MAX_LEN := by
      rw [← hidx]; split <;> omega
    have hidxle : idx ≤ (datagram.take MSG_MAX_LEN).length := by
      rw [← hidx]; split <;> omega
    have hwrite : writeAt b idx 0 = Except.ok (b.set idx 0) :=
      writeAt_of_lt b idx 0 (by rw [hblen]; exact hidxlt)
    have htext : bufferText (b.set idx 0) = (bufferText b).take idx := bufferText_set_zero b idx
    obtain ⟨block, hcopy, _, hzero⟩ :=
      copyMessageText_text_of_le (b.set idx 0) (datagram.take MSG_MAX_LEN).length
        (by rw [htext, List.length_take]; exact Nat.le_trans (Nat.min_le_left _ _) hidxle)
        (by rw [List.length_set, hblen]; exact hrx)
    cases hq : w.pInMessageQueue with
    | none =>
      have hput := ScreenPrinter_put_of_null ⟨w.nextAddr, ⟨some block, r.returnValue⟩⟩
        { w with nextAddr := w.nextAddr + 1 } hq
      unfold Listener_iteration at hstep
      simp only [hcheck, hb, Option.getD_some, hidx, hwrite, hcopy, hput] at hstep
      cases hstep
    | some q =>
      cases hfree : w.freeNodes with
      | zero =>
        have hput := ScreenPrinter_put_of_full ⟨w.nextAddr, ⟨some block, r.returnValue⟩⟩
          { w with nextAddr := w.nextAddr + 1 } q hq hfree
        unfold Listener_iteration at hstep
        simp only [hcheck, hb, Option.getD_some, hidx, hwrite, hcopy, hput] at hstep
        cases hflag : r.returnValue with
        | true =>
          rw [hflag] at hstep
          simp only [if_true, Bool.not_false, Except.ok.injEq, Prod.mk.injEq] at hstep
          rw [← hstep.2.2]
          exact QueuesHaveText_call createStatus _ (QueuesHaveText_of_same w _ rfl hq.symm hw)
        | false =>
          rw [hflag] at hstep
          simp only [Bool.false_eq_true, if_false, Except.ok.injEq, Prod.mk.injEq] at hstep
          rw [← hstep.2.2]
          exact QueuesHaveText_of_same w _ rfl hq.symm hw
      | succ n =>
        have hput := ScreenPrinter_put_of_room ⟨w.nextAddr, ⟨some block, r.returnValue⟩⟩
          { w with nextAddr := w.nextAddr + 1 } q n hq hfree
        have hnew : hasTerminatedText ⟨w.nextAddr, ⟨some block, r.returnValue⟩⟩ :=
          ⟨block, rfl, hzero⟩
        unfold Listener_iteration at hstep
        simp only [hcheck, hb, Option.getD_some, hidx, hwrite, hcopy, hput] at hstep
        cases hflag : r.returnValue with
        | true =>
          rw [hflag] at hstep
          simp only [if_true, Bool.not_true, Bool.false_eq_true, if_false, Except.ok.injEq,
            Prod.mk.injEq] at hstep
          rw [← hstep.2.2]
          exact QueuesHaveText_in_append w _ q _ _ rfl hq rfl hnew hw
        | false =>
          rw [hflag] at hstep
          simp only [Bool.false_eq_true, if_false, Except.ok.injEq, Prod.mk.injEq] at hstep
          rw [← hstep.2.2]
          exact QueuesHaveText_in_append w _ q _ _ rfl hq rfl hnew hw

theorem KeyboardReader_get_keeps_text (w : World) (hw : QueuesHaveText w) :
    QueuesHaveText (KeyboardReader_getMessageFromQueue w).2.2 := by
  cases hq : w.outMessageQueue with
  | none =>
    have : KeyboardReader_getMessageFromQueue w = (Dequeued.returned none, [], w) := by
      unfold KeyboardReader_getMessageFromQueue
      rw [hq]
    rw [this]
    exact hw
  | some q =>
    cases hitems : q.items with
    | nil =>
      rw [KeyboardReader_getMessageFromQueue_nil w q hq hitems]
      exact hw
    | cons p rest =>
      rw [KeyboardReader_getMessageFromQueue_cons w q p rest hq hitems]
      refine ⟨?_, hw.2⟩
      intro q' hq' p' hp'
      simp only [Option.some.injEq] at hq'
      rw [← hq'] at hp'
      exact hw.1 q hq p' (by rw [hitems]; exact List.mem_cons_of_mem p hp')

theorem getMessageFromQueue_keeps_text (w : World) (hw : QueuesHaveText w) :
    QueuesHaveText (getMessageFromQueue w).2.2 := by
  cases hq : w.pInMessageQueue with
  | none =>
    have : getMessageFromQueue w = (Dequeued.returned none, [], w) := by
      unfold getMessageFromQueue
      rw [hq]
    rw [this]
    exact hw
  | some q =>
    cases hitems : q.items with
    | nil =>
      rw [getMessageFromQueue_nil w q hq hitems]
      exact hw
    | cons p rest =>
      rw [getMessageFromQueue_cons w q p rest hq hitems]
      refine ⟨hw.1, ?_⟩
      intro q' hq' p' hp'
      simp only [Option.some.injEq] at hq'
      rw [← hq'] at hp'
      exact hw.2 q hq p' (by rw [hitems]; exact List.mem_cons_of_mem p hp')

/-- The `Message` a dequeue of the outbound queue returns was in the queue. -/
theorem KeyboardReader_get_text (w : World) (p : MessagePtr) (events0 : List Event)
    (w1 : World) (hw : QueuesHaveText w)
    (hget : KeyboardReader_getMessageFromQueue w = (Dequeued.returned (some p), events0, w1)) :
    hasTerminatedText p := by
  cases hq : w.outMessageQueue with
  | none =>
    unfold KeyboardReader_getMessageFromQueue at hget
    rw [hq] at hget
    simp at hget
  | some q =>
    cases hitems : q.items with
    | nil =>
      rw [KeyboardReader_getMessageFromQueue_nil w q hq hitems] at hget
      simp at hget
    | cons p' rest =>
      rw [KeyboardReader_getMessageFromQueue_cons w q p' rest hq hitems] at hget
      simp only [Prod.mk.injEq, Dequeued.returned.injEq, Option.some.injEq] at hget
      rw [← hget.1]
      exact hw.1 q hq p' (by rw [hitems]; exact List.mem_cons_self p' rest)

/-- The `Message` a dequeue of the inbound queue returns was in the queue. -/
theorem getMessageFromQueue_text (w : World) (p : MessagePtr) (events0 : List Event)
    (w1 : World) (hw : QueuesHaveText w)
    (hget : getMessageFromQueue w = (Dequeued.returned (some p), events0, w1)) :
    hasTerminatedText p := by
  cases hq : w.pInMessageQueue with
  | none =>
    unfold getMessageFromQueue at hget
    rw [hq] at hget
    simp at hget
  | some q =>
    cases hitems : q.items with
    | nil =>
      rw [getMessageFromQueue_nil w q hq hitems] at hget
      simp at hget
    | cons p' rest =>
      rw [getMessageFromQueue_cons w q p' rest hq hitems] at hget
      simp only [Prod.mk.injEq, Dequeued.returned.injEq, Option.some.injEq] at hget
      rw [← hget.1]
      exact hw.2 q hq p' (by rw [hitems]; exact List.mem_cons_self p' rest)

theorem Sender_iteration_world (sendStatus createStatus : Int) (w : World) (flow : Flow)
    (events : List Event) (w' : World)
    (hstep : Sender_iteration sendStatus createStatus w = Except.ok (flow, events, w')) :
    w' = (KeyboardReader_getMessageFromQueue w).2.2 ∨
    w' = (callRequestShutdown createStatus (KeyboardReader_getMessageFromQueue w).2.2).2 := by
  unfold Sender_iteration at hstep
  rcases hg : KeyboardReader_getMessageFromQueue w with ⟨d, events0, w1⟩
  rw [hg] at hstep
  cases d with
  | blocked =>
    simp only [Except.ok.injEq, Prod.mk.injEq] at hstep
    exact Or.inl hstep.2.2.symm
  | returned pMessage =>
    cases pMessage with
    | none =>
      simp only [Except.ok.injEq, Prod.mk.injEq] at hstep
      exact Or.inr hstep.2.2.symm
    | some p =>
      simp only at hstep
      split at hstep
      · simp only [Except.ok.injEq, Prod.mk.injEq] at hstep
        exact Or.inr hstep.2.2.symm
      · split at hstep
        · cases hstep
        · split at hstep
          · simp only [Except.ok.injEq, Prod.mk.injEq] at hstep
            exact Or.inr hstep.2.2.symm
          · simp only [Except.ok.injEq, Prod.mk.injEq] at hstep
            exact Or.inl hstep.2.2.symm

theorem ScreenPrinter_iteration_world (createStatus : Int) (w : World) (flow : Flow)
    (events : List Event) (w' : World)
    (hstep : ScreenPrinter_iteration createStatus w = Except.ok (flow, events, w')) :
    w' = (getMessageFromQueue w).2.2 ∨
    w' = (callRequestShutdown createStatus (getMessageFromQueue w).2.2).2 := by
  unfold ScreenPrinter_iteration at hstep
  rcases hg : getMessageFromQueue w with ⟨d, events0, w1⟩
  rw [hg] at hstep
  cases d with
  | blocked =>
    simp only [Except.ok.injEq, Prod.mk.injEq] at hstep
    exact Or.inl hstep.2.2.symm
  | returned pMessage =>
    cases pMessage with
    | none =>
      simp only [Except.ok.injEq, Prod.mk.injEq] at hstep
      exact Or.inl hstep.2.2.symm
    | some p =>
      simp only at hstep
      split at hstep
      · simp only [Except.ok.injEq, Prod.mk.injEq] at hstep
        exact Or.inl hstep.2.2.symm
      · split at hstep
        · cases hstep
        · split at hstep
          · simp only [Except.ok.injEq, Prod.mk.injEq] at hstep
            exact Or.inr hstep.2.2.symm
          · simp only [Except.ok.injEq, Prod.mk.injEq] at hstep
            exact Or.inl hstep.2.2.symm

/-- In every state the program gets into, every `Message` in the two queues
has a NUL-terminated text: the queues start empty, both producers build the
text before they enqueue the `Message`, and the consumers only take messages
off. -/
theorem Reachable.queuesHaveText {w : World} (h : Reachable w) : QueuesHaveText w := by
  induction h with
  | start w hout hin =>
    constructor
    · intro q hq p hp
      rw [hout q hq] at hp
      cases hp
    · intro q hq p hp
      rw [hin q hq] at hp
      cases hp
  | keyboardReader chunk createStatus w flow events w' _ hstep ih =>
    exact KeyboardReader_iteration_keeps_text chunk createStatus w flow events w' hstep ih
  | listener received createStatus w flow events w' _ hstep ih =>
    exact Listener_iteration_keeps_text received createStatus w flow events w' hstep ih
  | sender sendStatus createStatus w flow events w' _ hstep ih =>
    rcases Sender_iteration_world sendStatus createStatus w flow events w' hstep with h | h
    · rw [h]; exact KeyboardReader_get_keeps_text w ih
    · rw [h]; exact QueuesHaveText_call createStatus _ (KeyboardReader_get_keeps_text w ih)
  | screenPrinter createStatus w flow events w' _ hstep ih =>
    rcases ScreenPrinter_iteration_world createStatus w flow events w' hstep with h | h
    · rw [h]; exact getMessageFromQueue_keeps_text w ih
    · rw [h]; exact QueuesHaveText_call createStatus _ (getMessageFromQueue_keeps_text w ih)
  | other w w' _ hout hin ih =>
    constructor
    · intro q hq p hp
      rcases hout with hout | hout
      · rw [hout] at hq; exact ih.1 q hq p hp
      · rw [hout] at hq; cases hq
    · intro q hq p hp
      rcases hin with hin | hin
      · rw [hin] at hq; exact ih.2 q hq p hp
      · rw [hin] at hq; cases hq

/-! ## The consumers in the states the program gets into -/

/-- C10. For both consumers (`Sender_run` and `ScreenPrinter_run`), in every
state the program gets into, and for every dequeued `Message` that is not
`NULL`: the worker stops exactly when `isShutdownMessage` is `true` and goes
on to the next iteration exactly when it is `false`; it calls the shutdown
request once in the first case and never in the second; in the sender every
such call comes after the `sendto`, whatever `sendto` returned (so a failed
send of a message that is not a termination message requests no shutdown and
the loop goes on), and in the screen printer after the text has been written
and the `Message` freed. -/
theorem C10_consumer_stops_after_last_message :
    (∀ (sendStatus createStatus : Int) (w : World) (events0 : List Event) (w1 : World)
        (p : MessagePtr),
      Reachable w →
      KeyboardReader_getMessageFromQueue w = (Dequeued.returned (some p), events0, w1) →
      ∃ flow events w' payload pre post,
        Sender_iteration sendStatus createStatus w = Except.ok (flow, events, w') ∧
        (flow = Flow.stop ↔ p.target.isShutdownMessage = true) ∧
        (flow = Flow.next ↔ p.target.isShutdownMessage = false) ∧
        events.count Event.requestShutdown = (if p.target.isShutdownMessage then 1 else 0) ∧
        events = pre ++ Event.sendto payload sendStatus :: post ∧
        pre.count Event.requestShutdown = 0 ∧
        (p.target.isShutdownMessage = true →
          ∀ rest, Sender_loop (sendStatus :: rest) createStatus w
            = Except.ok (Flow.stop, events, w')) ∧
        (p.target.isShutdownMessage = false →
          w'.isShutdownRequested = w.isShutdownRequested ∧
          ∀ rest, Sender_loop (sendStatus :: rest) createStatus w
            = prependEvents events (Sender_loop rest createStatus w'))) ∧
    (∀ (createStatus : Int) (w : World) (events0 : List Event) (w1 : World)
        (p : MessagePtr),
      Reachable w →
      getMessageFromQueue w = (Dequeued.returned (some p), events0, w1) →
      ∃ flow events w' pText pre post,
        ScreenPrinter_iteration createStatus w = Except.ok (flow, events, w') ∧
        (flow = Flow.stop ↔ p.target.isShutdownMessage = true) ∧
        (flow = Flow.next ↔ p.target.isShutdownMessage = false) ∧
        events.count Event.requestShutdown = (if p.target.isShutdownMessage then 1 else 0) ∧
        events = pre ++ Event.freeMessage p.addr :: post ∧
        p.target.pText = some pText ∧
        Event.display (bufferText pText) ∈ pre ∧
        pre.count Event.requestShutdown = 0 ∧
        (p.target.isShutdownMessage = true →
          ∀ n, ScreenPrinter_loop (n + 1) createStatus w
            = Except.ok (Flow.stop, events, w')) ∧
        (p.target.isShutdownMessage = false →
          w'.isShutdownRequested = w.isShutdownRequested ∧
          ∀ n, ScreenPrinter_loop (n + 1) createStatus w
            = prependEvents events (ScreenPrinter_loop n createStatus w'))) := by
  constructor
  · intro sendStatus createStatus w events0 w1 p hreach hget
    obtain ⟨pText, htext, hz⟩ :=
      KeyboardReader_get_text w p events0 w1 hreach.queuesHaveText hget
    exact consumer_stops_of_text.1 sendStatus createStatus w events0 w1 p pText hget htext hz
  · intro createStatus w events0 w1 p hreach hget
    obtain ⟨pText, htext, hz⟩ :=
      getMessageFromQueue_text w p events0 w1 hreach.queuesHaveText hget
    obtain ⟨flow, events, w', pre, post, h1, h2, h3, h4, h5, h6, h7, h8, h9⟩ :=
      consumer_stops_of_text.2 createStatus w events0 w1 p pText hget htext hz
    exact ⟨flow, events, w', pText, pre, post, h1, h2, h3, h4, h5, htext, h6, h7, h8, h9⟩

/-- The state after the keyboard reader has read `"!\n"` with both queues
empty, and a `sendto` that fails: the state is one the program gets into, the
sender dequeues the termination message, and it stops with one shutdown
request, made after the `sendto`. -/
theorem C10_witness :
    Reachable { World.initial with nextAddr := 1, freeNodes := 999, outMessageQueue := some ⟨[⟨0, ⟨some [33, 10, 0, 0], true⟩⟩], some 0⟩ } ∧
    KeyboardReader_getMessageFromQueue { World.initial with nextAddr := 1, freeNodes := 999, outMessageQueue := some ⟨[⟨0, ⟨some [33, 10, 0, 0], true⟩⟩], some 0⟩ }
      = (Dequeued.returned (some (MessagePtr.mk 0 ⟨some [33, 10, 0, 0], true⟩)), [Event.setcancelstate false], { World.initial with nextAddr := 1, freeNodes := 1000, outMessageQueue := some ⟨[], none⟩ }) ∧
    ∃ flow events w' payload pre post,
        Sender_iteration (-1) 0 { World.initial with nextAddr := 1, freeNodes := 999, outMessageQueue := some ⟨[⟨0, ⟨some [33, 10, 0, 0], true⟩⟩], some 0⟩ } = Except.ok (flow, events, w') ∧
        (flow = Flow.stop ↔ (MessagePtr.mk 0 ⟨some [33, 10, 0, 0], true⟩).target.isShutdownMessage = true) ∧
        (flow = Flow.next ↔ (MessagePtr.mk 0 ⟨some [33, 10, 0, 0], true⟩).target.isShutdownMessage = false) ∧
        events.count Event.requestShutdown = (if (MessagePtr.mk 0 ⟨some [33, 10, 0, 0], true⟩).target.isShutdownMessage then 1 else 0) ∧
        events = pre ++ Event.sendto payload (-1) :: post ∧
        pre.count Event.requestShutdown = 0 ∧
        ((MessagePtr.mk 0 ⟨some [33, 10, 0, 0], true⟩).target.isShutdownMessage = true →
          ∀ rest, Sender_loop ((-1) :: rest) 0 { World.initial with nextAddr := 1, freeNodes := 999, outMessageQueue := some ⟨[⟨0, ⟨some [33, 10, 0, 0], true⟩⟩], some 0⟩ }
            = Except.ok (Flow.stop, events, w')) ∧
        ((MessagePtr.mk 0 ⟨some [33, 10, 0, 0], true⟩).target.isShutdownMessage = false →
          w'.isShutdownRequested = { World.initial with nextAddr := 1, freeNodes := 999, outMessageQueue := some ⟨[⟨0, ⟨some [33, 10, 0, 0], true⟩⟩], some 0⟩ }.isShutdownRequested ∧
          ∀ rest, Sender_loop ((-1) :: rest) 0 { World.initial with nextAddr := 1, freeNodes := 999, outMessageQueue := some ⟨[⟨0, ⟨some [33, 10, 0, 0], true⟩⟩], some 0⟩ }
            = prependEvents events (Sender_loop rest 0 w')) :=
  have hreach : Reachable { World.initial with nextAddr := 1, freeNodes := 999, outMessageQueue := some ⟨[⟨0, ⟨some [33, 10, 0, 0], true⟩⟩], some 0⟩ } :=
    Reachable.keyboardReader [33, 10] 0 World.initial Flow.stop
      [Event.setcancelstate false, Event.condSignal Worker.keyboardReader,
        Event.setcancelstate true] _
      (Reachable.start World.initial (fun q hq => by cases hq; rfl)
        (fun q hq => by cases hq; rfl)) rfl
  ⟨hreach, rfl,
    C10_consumer_stops_after_last_message.1 (-1) 0 _ [Event.setcancelstate false] { World.initial with nextAddr := 1, freeNodes := 1000, outMessageQueue := some ⟨[], none⟩ } (MessagePtr.mk 0 ⟨some [33, 10, 0, 0], true⟩)
      hreach rfl⟩

/-- C18. Cancellation is deferred while a consumer holds a message. For the
sender and the screen printer, in every state the program gets into, and for
every dequeued `Message` that is not `NULL`: the dequeue disables
cancellation and does not enable it again; the iteration disposes of the
`Message` (and, in the sender, attempts the send); and after every nonempty
beginning of the iteration, whatever the cancel state was before it, the
cancel state is disabled as long as the disposal (or, in the sender, the send
attempt) is not part of that beginning. At the end of the iteration
cancellation is enabled again. -/
theorem C18_cancellation_deferred_while_message_held :
    (∀ (sendStatus createStatus : Int) (w : World) (events0 : List Event) (w1 : World)
        (p : MessagePtr),
      Reachable w →
      KeyboardReader_getMessageFromQueue w = (Dequeued.returned (some p), events0, w1) →
      events0 = [Event.setcancelstate false] ∧
      ∃ flow events w' payload,
        Sender_iteration sendStatus createStatus w = Except.ok (flow, events, w') ∧
        Event.freeMessage p.addr ∈ events ∧ Event.sendto payload sendStatus ∈ events ∧
        (∀ (before : Bool) (pre rest : List Event), events = pre ++ rest → pre ≠ [] →
          (Event.freeMessage p.addr ∉ pre ∨ Event.sendto payload sendStatus ∉ pre) →
          cancelEnabledAfter before pre = false) ∧
        (∀ before : Bool, cancelEnabledAfter before events = true)) ∧
    (∀ (createStatus : Int) (w : World) (events0 : List Event) (w1 : World)
        (p : MessagePtr),
      Reachable w →
      getMessageFromQueue w = (Dequeued.returned (some p), events0, w1) →
      events0 = [Event.setcancelstate false] ∧
      ∃ flow events w',
        ScreenPrinter_iteration createStatus w = Except.ok (flow, events, w') ∧
        Event.freeMessage p.addr ∈ events ∧
        (∀ (before : Bool) (pre rest : List Event), events = pre ++ rest → pre ≠ [] →
          Event.freeMessage p.addr ∉ pre →
          cancelEnabledAfter before pre = false) ∧
        (∀ before : Bool, cancelEnabledAfter before events = true)) := by
  constructor
  · intro sendStatus createStatus w events0 w1 p hreach hget
    obtain ⟨pText, htext, hz⟩ :=
      KeyboardReader_get_text w p events0 w1 hreach.queuesHaveText hget
    exact cancellation_deferred_of_text.1 sendStatus createStatus w events0 w1 p pText
      hget htext hz
  · intro createStatus w events0 w1 p hreach hget
    obtain ⟨pText, htext, hz⟩ :=
      getMessageFromQueue_text w p events0 w1 hreach.queuesHaveText hget
    exact cancellation_deferred_of_text.2 createStatus w events0 w1 p pText hget htext hz

/-- The state after the keyboard reader has read `"hi\n"` with both queues
empty: the state is one the program gets into, the sender dequeues the
message, frees it, sends the text and only then enables cancellation. -/
theorem C18_witness :
    Reachable { World.initial with nextAddr := 1, freeNodes := 999, outMessageQueue := some ⟨[⟨0, ⟨some [104, 105, 10, 0], false⟩⟩], some 0⟩ } ∧
    KeyboardReader_getMessageFromQueue { World.initial with nextAddr := 1, freeNodes := 999, outMessageQueue := some ⟨[⟨0, ⟨some [104, 105, 10, 0], false⟩⟩], some 0⟩ }
      = (Dequeued.returned (some (MessagePtr.mk 0 ⟨some [104, 105, 10, 0], false⟩)), [Event.setcancelstate false], { World.initial with nextAddr := 1, freeNodes := 1000, outMessageQueue := some ⟨[], none⟩ }) ∧
    ([Event.setcancelstate false] = [Event.setcancelstate false] ∧
      ∃ flow events w' payload,
        Sender_iteration 0 0 { World.initial with nextAddr := 1, freeNodes := 999, outMessageQueue := some ⟨[⟨0, ⟨some [104, 105, 10, 0], false⟩⟩], some 0⟩ } = Except.ok (flow, events, w') ∧
        Event.freeMessage (MessagePtr.mk 0 ⟨some [104, 105, 10, 0], false⟩).addr ∈ events ∧ Event.sendto payload 0 ∈ events ∧
        (∀ (before : Bool) (pre rest : List Event), events = pre ++ rest → pre ≠ [] →
          (Event.freeMessage (MessagePtr.mk 0 ⟨some [104, 105, 10, 0], false⟩).addr ∉ pre ∨ Event.sendto payload 0 ∉ pre) →
          cancelEnabledAfter before pre = false) ∧
        (∀ before : Bool, cancelEnabledAfter before events = true)) :=
  have hreach : Reachable { World.initial with nextAddr := 1, freeNodes := 999, outMessageQueue := some ⟨[⟨0, ⟨some [104, 105, 10, 0], false⟩⟩], some 0⟩ } :=
    Reachable.keyboardReader [104, 105, 10] 0 World.initial Flow.next
      [Event.setcancelstate false, Event.condSignal Worker.keyboardReader,
        Event.setcancelstate true] _
      (Reachable.start World.initial (fun q hq => by cases hq; rfl)
        (fun q hq => by cases hq; rfl)) rfl
  ⟨hreach, rfl,
    C18_cancellation_deferred_while_message_held.1 0 0 _ [Event.setcancelstate false] { World.initial with nextAddr := 1, freeNodes := 1000, outMessageQueue := some ⟨[], none⟩ } (MessagePtr.mk 0 ⟨some [104, 105, 10, 0], false⟩)
      hreach rfl⟩

end TwoTalk
